import Mathlib

/-!
A verification development for the Brief language toolchain (lexer, HIR resolver,
bytecode emitter, register VM, builtin runtime).  The Rust sources are shallowly
embedded: pure functions become Lean functions, stateful code becomes explicit
state passing, `i64` is modelled as `Int` (overflow never matters for the
properties proved here), `u8`/`u16` fields carry explicit `% 2^w` reductions,
`f64` payloads are modelled as rationals (every property proved below depends
only on the zero test and on constructor tags, never on float rounding), and
panicking / fallible code returns `Option` / `Except`.
-/

namespace Brief

/-- `i64` payloads (overflow is irrelevant to the proved claims). -/
abbrev I64 := Int

/-- `f64` payloads, modelled as rationals: the embedded code only ever tests
them against zero, orders them, or does field arithmetic with a nonzero
divisor, so NaN/infinity behaviour is never exercised by the claims below. -/
abbrev F64 := Rat

/-! ## brief-diagnostic: FileId, Position, Span -/

/-- Unique identifier for a source file (`FileId(pub u32)`). -/
structure FileId where
  id : Nat
deriving DecidableEq, Repr

/-- Source position, 1-indexed line and column. -/
structure Position where
  line : Nat
  column : Nat
deriving DecidableEq, Repr

def Position.new (line column : Nat) : Position := ⟨line, column⟩

/-- Source span; `endPos` is the field named `end` in the Rust source. -/
structure Span where
  file_id : FileId
  start : Position
  endPos : Position
deriving DecidableEq, Repr

def Span.new (file_id : FileId) (start endPos : Position) : Span :=
  ⟨file_id, start, endPos⟩

def Span.single (file_id : FileId) (pos : Position) : Span :=
  ⟨file_id, pos, pos⟩

/-! ## brief-bytecode: Opcode, Constant, Instruction, Chunk -/

/-- Opcode set (`opcode.rs`), in declaration order. -/
inductive Opcode
  | LOADK | LOADKX | MOVE
  | ADD | SUB | MUL | DIVF | DIVI | MOD | POW
  | CMP_EQ | CMP_NE | CMP_LT | CMP_LE | CMP_GT | CMP_GE
  | NEG | NOT
  | JIF | JMP
  | CALL | RET
  | PRINT
  | EXT
deriving DecidableEq, Repr

/-- Constant pool entry (`constant.rs`); Rust constructor names `Int`,
`Double`, `Bool`, `Str`, `Null`. -/
inductive Constant
  | int (n : I64)
  | double (d : F64)
  | bool (b : Bool)
  | str (s : String)
  | null
deriving DecidableEq, Repr

/-- 32-bit instruction `[op:8][a:8][b:8][c:8]` (`instruction.rs`).  The packed
`u32` is represented by its four fields; `Instruction.new` applies the byte
masks explicitly. -/
structure Instruction where
  op : Opcode
  a : Nat
  b : Nat
  c : Nat
deriving DecidableEq, Repr

def Instruction.new (op : Opcode) (a b c : Nat) : Instruction :=
  ⟨op, a % 256, b % 256, c % 256⟩

/-- `Instruction::new2` (c = 0). -/
def Instruction.new2 (op : Opcode) (a b : Nat) : Instruction :=
  Instruction.new op a b 0

/-- `Instruction::new1` (b = 0, c = 0). -/
def Instruction.new1 (op : Opcode) (a : Nat) : Instruction :=
  Instruction.new op a 0 0

/-- Reinterpret a `u16` bit pattern as an `i16` (Rust `combined as i16`). -/
def u16AsI16 (n : Nat) : Int :=
  let m := n % 65536
  if m < 32768 then (m : Int) else (m : Int) - 65536

/-- `Instruction::offset`: B and C as a 16-bit signed offset,
`combined = (c << 8) | b` then `as i16`. -/
def Instruction.offset (i : Instruction) : Int :=
  u16AsI16 ((i.c % 256) * 256 + i.b % 256)

/-- `Instruction::set_offset`: write B and C from a signed 16-bit value
(`offset as u16`, low byte into b, high byte into c). -/
def Instruction.set_offset (i : Instruction) (offset : Int) : Instruction :=
  let u : Nat := (offset.emod 65536).toNat
  { i with b := u % 256, c := (u / 256) % 256 }

/-- Code chunk for one function (`chunk.rs`). -/
structure Chunk where
  name : String
  code : List Instruction
  constants : List Constant
  max_regs : Nat
  upvalue_count : Nat
  param_count : Nat
deriving DecidableEq, Repr

def Chunk.new (name : String) : Chunk :=
  ⟨name, [], [], 0, 0, 0⟩

/-- `Chunk::emit`: append an instruction, returning its ip. -/
def Chunk.emit (ch : Chunk) (instruction : Instruction) : Nat × Chunk :=
  (ch.code.length, { ch with code := ch.code ++ [instruction] })

/-- First index of a structurally-equal pool entry (the
`for (idx, existing) in self.constants.iter().enumerate()` scan). -/
def constIndexOf (pool : List Constant) (c : Constant) : Option Nat :=
  match pool with
  | [] => none
  | x :: rest => if x = c then some 0 else (constIndexOf rest c).map (· + 1)

/-- `Chunk::add_constant`: deduplicating insertion.  Returns `none` where the
Rust code panics ("Too many constants in chunk (max 256)"); the returned index
is the Rust `idx as u8` truncation. -/
def Chunk.add_constant (ch : Chunk) (constant : Constant) : Option (Nat × Chunk) :=
  match constIndexOf ch.constants constant with
  | some idx => some (idx % 256, ch)
  | none =>
    let index := ch.constants.length
    if index > 255 then none
    else some (index % 256, { ch with constants := ch.constants ++ [constant] })

/-- `Chunk::ip`: current end-of-code position. -/
def Chunk.ip (ch : Chunk) : Nat := ch.code.length

/-- `Chunk::patch`: overwrite the instruction at `ip` when in bounds. -/
def Chunk.patch (ch : Chunk) (ip : Nat) (instruction : Instruction) : Chunk :=
  if ip < ch.code.length then { ch with code := ch.code.set ip instruction } else ch

/-! ## brief-vm: Value, RuntimeError, Frame, VM -/

/-- Runtime value (`value.rs`); Rust constructor names `Int`, `Double`,
`Bool`, `Str`, `Null`. -/
inductive Value
  | int (n : I64)
  | double (d : F64)
  | bool (b : Bool)
  | str (s : String)
  | null
deriving DecidableEq, Repr

/-- Runtime error (`error.rs`). -/
inductive RuntimeError
  | StackUnderflow
  | StackOverflow
  | InvalidRegister (r : Nat)
  | InvalidConstantIndex (i : Nat)
  | TypeMismatch (expected : String) (got : String)
  | DivisionByZero
  | UnknownOpcode
  | UndefinedVariable (name : String)
  | CallError (msg : String)
deriving DecidableEq, Repr

/-- `Value::is_truthy`: only `Bool(false)` and `Null` are falsey. -/
def Value.is_truthy : Value → Bool
  | .bool false => false
  | .null => false
  | _ => true

/-- Text form of an `f64` payload.  Rust prints `f64` via `Display`; the
rational model prints integral values without a fraction and other values as
`num/den`.  No claim proved in this file depends on the exact double text. -/
def F64.display (q : F64) : String :=
  if q.den = 1 then toString q.num else toString q.num ++ "/" ++ toString q.den

/-- `Value::to_string` / `Display`: the canonical display form. -/
def Value.to_string : Value → String
  | .int i => toString i
  | .double d => F64.display d
  | .bool b => if b then "true" else "false"
  | .str s => s
  | .null => "null"

/-- `Debug` form of a value (used in `TypeMismatch.got` payloads; the `Double`
text goes through the rational `F64.display` model, all other arms follow the
derived Rust `Debug` output). -/
def Value.debug : Value → String
  | .int i => "Int(" ++ toString i ++ ")"
  | .double d => "Double(" ++ F64.display d ++ ")"
  | .bool b => "Bool(" ++ (if b then "true" else "false") ++ ")"
  | .str s => "Str(" ++ "\"" ++ s ++ "\"" ++ ")"
  | .null => "Null"

/-- Rust `f64 as i64`: truncation toward zero (saturation at the i64 bounds is
irrelevant to the proved claims and not modelled). -/
def F64.asI64 (q : F64) : I64 := q.num.tdiv (q.den : Int)

/-- Rust `%` on `f64`: remainder with the sign of the dividend
(`a - b * trunc(a / b)`); only evaluated on nonzero divisors below. -/
def F64.rem (a b : F64) : F64 := a - b * ((F64.asI64 (a / b) : Int) : F64)

/-- Rust `f64::powf`.  An exact `powf` is not rational; the model raises to the
integer power for integral exponents and yields 0 otherwise.  Every property
proved below about POW depends only on the result being tagged `Double`. -/
def F64.powf (a b : F64) : F64 :=
  if b.den = 1 then a ^ b.num else 0

/-- Call frame (`frame.rs`). -/
structure Frame where
  chunk : Chunk
  ip : Nat
  registers : List Value
  base : Nat
deriving DecidableEq, Repr

def Frame.new (chunk : Chunk) (base : Nat) : Frame :=
  { chunk := chunk, ip := 0,
    registers := List.replicate chunk.max_regs Value.null, base := base }

/-- The VM (`vm.rs`).  The head of `frames` is the top of the Rust `Vec`.
The heap handle is opaque in the current core (its module is not part of the
sources; the VM never inspects it) and is not carried.  The builtin runtime is
the `call_builtin` capability. -/
structure VMState where
  frames : List Frame
  globals : List (String × Value)
  runtime : Option (String → List Value → Except RuntimeError Value)
  /-- Text written by `PRINT` / stdout (the only side effect). -/
  output : List String

namespace VM

/-- `VM::add_value`. -/
def add_value (left right : Value) : Except RuntimeError Value :=
  match left, right with
  | .int a, .int b => .ok (.int (a + b))
  | .double a, .double b => .ok (.double (a + b))
  | .int a, .double b => .ok (.double ((a : F64) + b))
  | .double a, .int b => .ok (.double (a + (b : F64)))
  | .str a, .str b => .ok (.str (a ++ b))
  | .str a, b => .ok (.str (a ++ b.to_string))
  | a, .str b => .ok (.str (a.to_string ++ b))
  | _, _ => .error (.TypeMismatch "numeric or string"
      (left.debug ++ " + " ++ right.debug))

/-- `VM::sub_value`. -/
def sub_value (left right : Value) : Except RuntimeError Value :=
  match left, right with
  | .int a, .int b => .ok (.int (a - b))
  | .double a, .double b => .ok (.double (a - b))
  | .int a, .double b => .ok (.double ((a : F64) - b))
  | .double a, .int b => .ok (.double (a - (b : F64)))
  | _, _ => .error (.TypeMismatch "numeric" (left.debug ++ " - " ++ right.debug))

/-- `VM::mul_value`. -/
def mul_value (left right : Value) : Except RuntimeError Value :=
  match left, right with
  | .int a, .int b => .ok (.int (a * b))
  | .double a, .double b => .ok (.double (a * b))
  | .int a, .double b => .ok (.double ((a : F64) * b))
  | .double a, .int b => .ok (.double (a * (b : F64)))
  | _, _ => .error (.TypeMismatch "numeric" (left.debug ++ " * " ++ right.debug))

/-- `VM::divf_value`: float division, integer operands promoted,
zero divisor raises. -/
def divf_value (left right : Value) : Except RuntimeError Value :=
  match left, right with
  | .int a, .int b =>
    if b = 0 then .error .DivisionByZero
    else .ok (.double ((a : F64) / (b : F64)))
  | .double a, .double b =>
    if b = 0 then .error .DivisionByZero else .ok (.double (a / b))
  | .int a, .double b =>
    if b = 0 then .error .DivisionByZero else .ok (.double ((a : F64) / b))
  | .double a, .int b =>
    if b = 0 then .error .DivisionByZero else .ok (.double (a / (b : F64)))
  | _, _ => .error (.TypeMismatch "numeric" (left.debug ++ " / " ++ right.debug))

/-- `VM::divi_value`: truncating integer division, double operands truncated,
zero divisor raises. -/
def divi_value (left right : Value) : Except RuntimeError Value :=
  match left, right with
  | .int a, .int b =>
    if b = 0 then .error .DivisionByZero else .ok (.int (a.tdiv b))
  | .double a, .double b =>
    if b = 0 then .error .DivisionByZero else .ok (.int (F64.asI64 (a / b)))
  | .int a, .double b =>
    if b = 0 then .error .DivisionByZero else .ok (.int (F64.asI64 ((a : F64) / b)))
  | .double a, .int b =>
    if b = 0 then .error .DivisionByZero else .ok (.int (F64.asI64 (a / (b : F64))))
  | _, _ => .error (.TypeMismatch "numeric" (left.debug ++ " / " ++ right.debug))

/-- `VM::mod_value`: zero divisor raises. -/
def mod_value (left right : Value) : Except RuntimeError Value :=
  match left, right with
  | .int a, .int b =>
    if b = 0 then .error .DivisionByZero else .ok (.int (a.tmod b))
  | .double a, .double b =>
    if b = 0 then .error .DivisionByZero else .ok (.double (F64.rem a b))
  | .int a, .double b =>
    if b = 0 then .error .DivisionByZero else .ok (.double (F64.rem (a : F64) b))
  | .double a, .int b =>
    if b = 0 then .error .DivisionByZero else .ok (.double (F64.rem a (b : F64)))
  | _, _ => .error (.TypeMismatch "numeric" (left.debug ++ " % " ++ right.debug))

/-- `VM::pow_value`: always yields a double. -/
def pow_value (left right : Value) : Except RuntimeError Value :=
  match left, right with
  | .int a, .int b => .ok (.double (F64.powf (a : F64) (b : F64)))
  | .double a, .double b => .ok (.double (F64.powf a b))
  | .int a, .double b => .ok (.double (F64.powf (a : F64) b))
  | .double a, .int b => .ok (.double (F64.powf a (b : F64)))
  | _, _ => .error (.TypeMismatch "numeric" (left.debug ++ " ** " ++ right.debug))

/-- `VM::cmp_lt_value`. -/
def cmp_lt_value (left right : Value) : Except RuntimeError Value :=
  match left, right with
  | .int a, .int b => .ok (.bool (decide (a < b)))
  | .double a, .double b => .ok (.bool (decide (a < b)))
  | .int a, .double b => .ok (.bool (decide ((a : F64) < b)))
  | .double a, .int b => .ok (.bool (decide (a < (b : F64))))
  | _, _ => .error (.TypeMismatch "numeric" (left.debug ++ " < " ++ right.debug))

/-- `VM::cmp_le_value`. -/
def cmp_le_value (left right : Value) : Except RuntimeError Value :=
  match left, right with
  | .int a, .int b => .ok (.bool (decide (a ≤ b)))
  | .double a, .double b => .ok (.bool (decide (a ≤ b)))
  | .int a, .double b => .ok (.bool (decide ((a : F64) ≤ b)))
  | .double a, .int b => .ok (.bool (decide (a ≤ (b : F64))))
  | _, _ => .error (.TypeMismatch "numeric" (left.debug ++ " <= " ++ right.debug))

/-- `VM::cmp_gt_value`. -/
def cmp_gt_value (left right : Value) : Except RuntimeError Value :=
  match left, right with
  | .int a, .int b => .ok (.bool (decide (b < a)))
  | .double a, .double b => .ok (.bool (decide (b < a)))
  | .int a, .double b => .ok (.bool (decide (b < (a : F64))))
  | .double a, .int b => .ok (.bool (decide ((b : F64) < a)))
  | _, _ => .error (.TypeMismatch "numeric" (left.debug ++ " > " ++ right.debug))

/-- `VM::cmp_ge_value`. -/
def cmp_ge_value (left right : Value) : Except RuntimeError Value :=
  match left, right with
  | .int a, .int b => .ok (.bool (decide (b ≤ a)))
  | .double a, .double b => .ok (.bool (decide (b ≤ a)))
  | .int a, .double b => .ok (.bool (decide (b ≤ (a : F64))))
  | .double a, .int b => .ok (.bool (decide ((b : F64) ≤ a)))
  | _, _ => .error (.TypeMismatch "numeric" (left.debug ++ " >= " ++ right.debug))

/-- `VM::neg_value`. -/
def neg_value (value : Value) : Except RuntimeError Value :=
  match value with
  | .int n => .ok (.int (-n))
  | .double d => .ok (.double (-d))
  | _ => .error (.TypeMismatch "numeric" value.debug)

/-- `VM::load_constant`: materialize `constants[b]` into register `a`. -/
def load_constant (st : VMState) (reg const_idx : Nat) :
    Except RuntimeError VMState :=
  match st.frames with
  | [] => .error .StackUnderflow
  | frame :: rest =>
    match frame.chunk.constants.get? const_idx with
    | none => .error (.InvalidConstantIndex const_idx)
    | some constant =>
      let value : Value :=
        match constant with
        | .int n => .int n
        | .double d => .double d
        | .bool b => .bool b
        | .str s => .str s
        | .null => .null
      if frame.registers.length ≤ reg then .error (.InvalidRegister reg)
      else .ok { st with
        frames := { frame with registers := frame.registers.set reg value } :: rest }

/-- `VM::move_register`. -/
def move_register (st : VMState) (dest src : Nat) : Except RuntimeError VMState :=
  match st.frames with
  | [] => .error .StackUnderflow
  | frame :: rest =>
    if frame.registers.length ≤ src ∨ frame.registers.length ≤ dest then
      .error (.InvalidRegister (if frame.registers.length ≤ src then src else dest))
    else
      .ok { st with
        frames :=
          { frame with
            registers := frame.registers.set dest
              (frame.registers.getD src .null) } :: rest }

/-- `VM::binary_op_impl`. -/
def binary_op_impl (st : VMState) (dest left_reg right_reg : Nat)
    (op : Value → Value → Except RuntimeError Value) :
    Except RuntimeError VMState :=
  match st.frames with
  | [] => .error .StackUnderflow
  | frame :: rest =>
    if frame.registers.length ≤ left_reg ∨ frame.registers.length ≤ right_reg ∨
        frame.registers.length ≤ dest then
      .error (.InvalidRegister dest)
    else
      let left := frame.registers.getD left_reg .null
      let right := frame.registers.getD right_reg .null
      match op left right with
      | .error e => .error e
      | .ok result =>
        .ok { st with
          frames := { frame with registers := frame.registers.set dest result } :: rest }

/-- `VM::unary_op_impl`. -/
def unary_op_impl (st : VMState) (dest src_reg : Nat)
    (op : Value → Except RuntimeError Value) : Except RuntimeError VMState :=
  match st.frames with
  | [] => .error .StackUnderflow
  | frame :: rest =>
    if frame.registers.length ≤ src_reg ∨ frame.registers.length ≤ dest then
      .error (.InvalidRegister
        (if frame.registers.length ≤ src_reg then src_reg else dest))
    else
      let value := frame.registers.getD src_reg .null
      match op value with
      | .error e => .error e
      | .ok result =>
        .ok { st with
          frames := { frame with registers := frame.registers.set dest result } :: rest }

/-- `VM::jump_if_false`.  `(frame.ip as i32 + offset as i32) as usize`:
a negative result reinterprets as a huge unsigned value, hence always
caught by the `> len` bound check ("Jump out of bounds"). -/
def jump_if_false (st : VMState) (cond_reg : Nat) (offset : Int) :
    Except RuntimeError VMState :=
  match st.frames with
  | [] => .error .StackUnderflow
  | frame :: rest =>
    if frame.registers.length ≤ cond_reg then .error (.InvalidRegister cond_reg)
    else
      let cond := frame.registers.getD cond_reg .null
      if cond.is_truthy then .ok st
      else
        let new_ip : Int := (frame.ip : Int) + offset
        if new_ip < 0 ∨ (frame.chunk.code.length : Int) < new_ip then
          .error (.CallError "Jump out of bounds")
        else .ok { st with frames := { frame with ip := new_ip.toNat } :: rest }

/-- `VM::jump`. -/
def jump (st : VMState) (offset : Int) : Except RuntimeError VMState :=
  match st.frames with
  | [] => .error .StackUnderflow
  | frame :: rest =>
    let new_ip : Int := (frame.ip : Int) + offset
    if new_ip < 0 ∨ (frame.chunk.code.length : Int) < new_ip then
      .error (.CallError "Jump out of bounds")
    else .ok { st with frames := { frame with ip := new_ip.toNat } :: rest }

/-- Argument collection inside `VM::call`
(`for i in 0..arg_count { arg_reg = callee_reg + 1 + i; ... }`). -/
def collect_args (registers : List Value) (callee_reg count i : Nat) :
    Except RuntimeError (List Value) :=
  if _h : i < count then
    match registers.get? (callee_reg + 1 + i) with
    | none => .error (.InvalidRegister (callee_reg + 1 + i))
    | some v =>
      match collect_args registers callee_reg count (i + 1) with
      | .error e => .error e
      | .ok rest => .ok (v :: rest)
  else .ok []
termination_by count - i

/-- `VM::call`: the callee register must hold a string naming a builtin. -/
def call (st : VMState) (dest callee_reg arg_count : Nat) :
    Except RuntimeError VMState :=
  match st.frames with
  | [] => .error .StackUnderflow
  | frame :: rest =>
    if frame.registers.length ≤ callee_reg then .error (.InvalidRegister callee_reg)
    else
      let function_name : Option String :=
        match frame.registers.getD callee_reg .null with
        | .str name => some name
        | _ => none
      match collect_args frame.registers callee_reg arg_count 0 with
      | .error e => .error e
      | .ok args =>
        match function_name with
        | some function_name =>
          match st.runtime with
          | none => .error (.CallError "Runtime not available for builtin calls")
          | some runtime =>
            match runtime function_name args with
            | .error e => .error e
            | .ok result =>
              if frame.registers.length ≤ dest then .error (.InvalidRegister dest)
              else .ok { st with
                frames :=
                  { frame with registers := frame.registers.set dest result } :: rest }
        | none => .error (.CallError "Function calls not yet fully implemented")

/-- `VM::return_value`: read register `a`, pop the frame, and yield the value.
Both Rust branches (empty and non-empty remaining stack) return `Ok(value)`
— the "store return value in calling frame" path is an unimplemented TODO. -/
def return_value (st : VMState) (value_reg : Nat) : Except RuntimeError Value :=
  match st.frames with
  | [] => .error .StackUnderflow
  | frame :: _rest =>
    match frame.registers.get? value_reg with
    | none => .error (.InvalidRegister value_reg)
    | some value => .ok value

/-- `VM::print`: write the display form of register `a` to stdout. -/
def print (st : VMState) (reg : Nat) : Except RuntimeError VMState :=
  match st.frames with
  | [] => .error .StackUnderflow
  | frame :: _rest =>
    if frame.registers.length ≤ reg then .error (.InvalidRegister reg)
    else
      let value := frame.registers.getD reg .null
      .ok { st with output := st.output ++ [value.to_string] }

/-- `VM::run`: fetch/dispatch loop (`vm.rs`).  The Rust loop is unbounded, so
the embedding takes fuel; `.ok none` is fuel exhaustion and arises for no
other reason.  On `RET` the Rust code does `return self.return_value(...)`,
ending `run` regardless of how many frames remain. -/
def run : Nat → VMState → Except RuntimeError (Option Value)
  | 0, _ => .ok none
  | fuel + 1, st =>
    match st.frames with
    | [] => .error .StackUnderflow
    | frame :: rest =>
      match frame.chunk.code.get? frame.ip with
      | none =>
        -- end of function: pop the frame; return null if the stack empties
        if rest.isEmpty then .ok (some .null)
        else run fuel { st with frames := rest }
      | some instruction =>
        -- frame.advance(): pre-increment ip, then dispatch
        let st := { st with frames := { frame with ip := frame.ip + 1 } :: rest }
        match instruction.op with
        | .LOADK =>
          match load_constant st instruction.a instruction.b with
          | .error e => .error e
          | .ok st => run fuel st
        | .MOVE =>
          match move_register st instruction.a instruction.b with
          | .error e => .error e
          | .ok st => run fuel st
        | .ADD =>
          match binary_op_impl st instruction.a instruction.b instruction.c add_value with
          | .error e => .error e
          | .ok st => run fuel st
        | .SUB =>
          match binary_op_impl st instruction.a instruction.b instruction.c sub_value with
          | .error e => .error e
          | .ok st => run fuel st
        | .MUL =>
          match binary_op_impl st instruction.a instruction.b instruction.c mul_value with
          | .error e => .error e
          | .ok st => run fuel st
        | .DIVF =>
          match binary_op_impl st instruction.a instruction.b instruction.c divf_value with
          | .error e => .error e
          | .ok st => run fuel st
        | .DIVI =>
          match binary_op_impl st instruction.a instruction.b instruction.c divi_value with
          | .error e => .error e
          | .ok st => run fuel st
        | .MOD =>
          match binary_op_impl st instruction.a instruction.b instruction.c mod_value with
          | .error e => .error e
          | .ok st => run fuel st
        | .POW =>
          match binary_op_impl st instruction.a instruction.b instruction.c pow_value with
          | .error e => .error e
          | .ok st => run fuel st
        | .CMP_EQ =>
          match binary_op_impl st instruction.a instruction.b instruction.c
              (fun a b => .ok (.bool (a == b))) with
          | .error e => .error e
          | .ok st => run fuel st
        | .CMP_NE =>
          match binary_op_impl st instruction.a instruction.b instruction.c
              (fun a b => .ok (.bool (a != b))) with
          | .error e => .error e
          | .ok st => run fuel st
        | .CMP_LT =>
          match binary_op_impl st instruction.a instruction.b instruction.c cmp_lt_value with
          | .error e => .error e
          | .ok st => run fuel st
        | .CMP_LE =>
          match binary_op_impl st instruction.a instruction.b instruction.c cmp_le_value with
          | .error e => .error e
          | .ok st => run fuel st
        | .CMP_GT =>
          match binary_op_impl st instruction.a instruction.b instruction.c cmp_gt_value with
          | .error e => .error e
          | .ok st => run fuel st
        | .CMP_GE =>
          match binary_op_impl st instruction.a instruction.b instruction.c cmp_ge_value with
          | .error e => .error e
          | .ok st => run fuel st
        | .NEG =>
          match unary_op_impl st instruction.a instruction.b neg_value with
          | .error e => .error e
          | .ok st => run fuel st
        | .NOT =>
          match unary_op_impl st instruction.a instruction.b
              (fun v => .ok (.bool (! v.is_truthy))) with
          | .error e => .error e
          | .ok st => run fuel st
        | .JIF =>
          match jump_if_false st instruction.a instruction.offset with
          | .error e => .error e
          | .ok st => run fuel st
        | .JMP =>
          match jump st instruction.offset with
          | .error e => .error e
          | .ok st => run fuel st
        | .CALL =>
          match call st instruction.a instruction.b instruction.c with
          | .error e => .error e
          | .ok st => run fuel st
        | .RET =>
          match return_value st instruction.a with
          | .error e => .error e
          | .ok value => .ok (some value)
        | .PRINT =>
          match print st instruction.a with
          | .error e => .error e
          | .ok st => run fuel st
        | _ => .error .UnknownOpcode

end VM

/-! ## brief-runtime: builtin functions (`builtins.rs`) -/

namespace Builtins

/-- `print`: write argument 0's display form (the stdout write itself is the
VM-level side effect and is not replayed here). -/
def print (args : List Value) : Except RuntimeError Value :=
  if args.isEmpty then
    .error (.CallError "print requires at least 1 argument")
  else .ok .null

/-- `len`: byte length of a string. -/
def len (args : List Value) : Except RuntimeError Value :=
  match args with
  | [] => .error (.CallError "len requires 1 argument")
  | arg :: _ =>
    match arg with
    | .str s => .ok (.int (s.utf8ByteSize : Int))
    | v => .error (.TypeMismatch "string or array" v.debug)

/-- `int`: integer cast.  Rust's `s.parse::<i64>()` accepts an optional sign
followed by decimal digits; `String.toInt?` is the matching model. -/
def int_cast (args : List Value) : Except RuntimeError Value :=
  match args with
  | [] => .error (.CallError "int requires 1 argument")
  | arg :: _ =>
    match arg with
    | .int i => .ok (.int i)
    | .double d => .ok (.int (F64.asI64 d))
    | .bool b => .ok (.int (if b then 1 else 0))
    | .str s =>
      match s.toInt? with
      | some n => .ok (.int n)
      | none => .error (.CallError ("Cannot convert string " ++ s ++ " to integer"))
    | .null => .error (.CallError "Cannot convert null to integer")

/-- `dub`: double cast.  Fractional decimal-string parsing is abbreviated to
integral strings in the rational model; no claim depends on it. -/
def dub_cast (args : List Value) : Except RuntimeError Value :=
  match args with
  | [] => .error (.CallError "dub requires 1 argument")
  | arg :: _ =>
    match arg with
    | .int i => .ok (.double (i : F64))
    | .double d => .ok (.double d)
    | .bool b => .ok (.double (if b then 1 else 0))
    | .str s =>
      match s.toInt? with
      | some n => .ok (.double (n : F64))
      | none => .error (.CallError ("Cannot convert string " ++ s ++ " to double"))
    | .null => .error (.CallError "Cannot convert null to double")

/-- `str`: string cast to the display form. -/
def str_cast (args : List Value) : Except RuntimeError Value :=
  match args with
  | [] => .error (.CallError "str requires 1 argument")
  | arg :: _ =>
    match arg with
    | .str s => .ok (.str s)
    | other => .ok (.str other.to_string)

/-- `rt_concat2`: the four-arm match of the source (`Str` operands are pushed
as-is, other operands through their string conversion; the capacity
pre-computation has no observable effect). -/
def rt_concat2 (args : List Value) : Except RuntimeError Value :=
  if args.length < 2 then
    .error (.CallError "rt_concat2 requires 2 arguments")
  else
    match args with
    | a :: b :: _ =>
      match a, b with
      | .str a, .str b => .ok (.str (a ++ b))
      | .str a, b => .ok (.str (a ++ b.to_string))
      | a, .str b => .ok (.str (a.to_string ++ b))
      | a, b => .ok (.str (a.to_string ++ b.to_string))
    | _ => .error (.CallError "rt_concat2 requires 2 arguments")

/-- The concatenation loop shared by `rt_concat{3,4,5}`:
`for arg in args.iter().take(n) { match arg { Str(s) => push_str(s),
v => push_str(&v.to_string()) } }`. -/
def concat_loop (args : List Value) : String :=
  args.foldl
    (fun result arg =>
      match arg with
      | .str s => result ++ s
      | v => result ++ v.to_string)
    ""

/-- `rt_concat3`. -/
def rt_concat3 (args : List Value) : Except RuntimeError Value :=
  if args.length < 3 then .error (.CallError "rt_concat3 requires 3 arguments")
  else .ok (.str (concat_loop (args.take 3)))

/-- `rt_concat4`. -/
def rt_concat4 (args : List Value) : Except RuntimeError Value :=
  if args.length < 4 then .error (.CallError "rt_concat4 requires 4 arguments")
  else .ok (.str (concat_loop (args.take 4)))

/-- `rt_concat5`. -/
def rt_concat5 (args : List Value) : Except RuntimeError Value :=
  if args.length < 5 then .error (.CallError "rt_concat5 requires 5 arguments")
  else .ok (.str (concat_loop (args.take 5)))

end Builtins

/-! ## brief-hir: symbols (`symbol.rs`) -/

/-- `SymbolRef(pub usize)`: dense symbol index. -/
structure SymbolRef where
  idx : Nat
deriving DecidableEq, Repr

/-- The reserved builtin sentinel, `usize::MAX`. -/
def SymbolRef.BUILTIN : SymbolRef := ⟨2 ^ 64 - 1⟩

/-- `SymbolKind`. -/
inductive SymbolKind
  | Local (index : Nat)
  | Param (index : Nat)
  | Upvalue (index : Nat)
  | Global (name : String)
deriving DecidableEq, Repr

/-- Symbol table entry. -/
structure Symbol where
  name : String
  kind : SymbolKind
  span : Span
deriving DecidableEq, Repr

/-- Per-function symbol table. -/
structure SymbolTable where
  symbols : List Symbol
deriving DecidableEq, Repr

def SymbolTable.new : SymbolTable := ⟨[]⟩

/-- `SymbolTable::add_symbol`. -/
def SymbolTable.add_symbol (t : SymbolTable) (name : String) (kind : SymbolKind)
    (span : Span) : SymbolRef × SymbolTable :=
  (⟨t.symbols.length⟩, ⟨t.symbols ++ [⟨name, kind, span⟩]⟩)

/-- Upvalue descriptor. -/
structure Upvalue where
  is_local : Bool
  index : Nat
deriving DecidableEq, Repr

/-- One lexical scope: bindings in declaration order. -/
structure Scope where
  symbols : List (String × SymbolRef)
deriving DecidableEq, Repr

def Scope.new : Scope := ⟨[]⟩

/-- `Scope::add`. -/
def Scope.add (s : Scope) (name : String) (symbol : SymbolRef) : Scope :=
  ⟨s.symbols ++ [(name, symbol)]⟩

/-- `Scope::lookup`: most recent binding wins (reverse search). -/
def Scope.lookup (s : Scope) (name : String) : Option SymbolRef :=
  (s.symbols.reverse.find? (fun p => p.1 == name)).map (·.2)

/-! ## brief-hir: the HIR tree (`hir.rs`)

Type annotations (never read by the resolver or the emitter), class
declarations and imports (not exercised by any claim; the resolver treats
an import as a no-op and a class like a group of functions) are omitted from the
embedding.  Constructor names follow the Rust variants; `var` is Rust
`Variable` (a Lean keyword), `str` is Rust `String`. -/

/-- `InterpPart`.  The AST-expression payload of `Path` is never read by the
resolver or the emitter and is not carried. -/
inductive InterpPart
  | text (s : String)
  | ident (name : String) (span : Span)
  | path (span : Span)
deriving DecidableEq, Repr

/-- `BinaryOp` (`brief-ast`). -/
inductive BinaryOp
  | Add | Sub | Mul | Div | Mod | Pow
  | Eq | Ne | Lt | Le | Gt | Ge
  | And | Or
  | BitAnd | BitOr | BitXor
  | Shl | Shr
  | Assign | InitAssign | PlusAssign | MinusAssign | StarAssign
  | SlashAssign | PercentAssign | PowAssign
deriving DecidableEq, Repr

/-- `UnaryOp` (`brief-ast`). -/
inductive UnaryOp
  | Not | BitNot | Neg | Pos
deriving DecidableEq, Repr

/-- `HirParam`. -/
structure HirParam where
  name : String
  symbol : SymbolRef
  span : Span
deriving DecidableEq, Repr

/-- `HirExpr`. -/
inductive HirExpr
  | integer (n : I64) (span : Span)
  | double (d : F64) (span : Span)
  | character (c : Char) (span : Span)
  | str (s : String) (span : Span)
  | boolean (b : Bool) (span : Span)
  | null (span : Span)
  | var (name : String) (symbol : SymbolRef) (span : Span)
  | memberAccess (object : HirExpr) (member : String) (span : Span)
  | index (object : HirExpr) (idx : HirExpr) (span : Span)
  | binaryOp (left : HirExpr) (op : BinaryOp) (right : HirExpr) (span : Span)
  | unaryOp (op : UnaryOp) (expr : HirExpr) (span : Span)
  | assign (target : HirExpr) (value : HirExpr) (span : Span)
  | call (callee : HirExpr) (args : List HirExpr) (span : Span)
  | methodCall (object : HirExpr) (method : String) (args : List HirExpr) (span : Span)
  | cast (expr : HirExpr) (span : Span)
  | interpolation (parts : List InterpPart) (span : Span)
  | ternary (condition : HirExpr) (then_expr : HirExpr) (else_expr : HirExpr) (span : Span)
  | lambda (params : List HirParam) (captures : List Upvalue) (body : HirExpr) (span : Span)
  | error (span : Span)

/-- `HirVarDecl`. -/
structure HirVarDecl where
  name : String
  symbol : SymbolRef
  initializer : Option HirExpr
  span : Span

/-- `HirConstDecl`. -/
structure HirConstDecl where
  name : String
  symbol : SymbolRef
  initializer : HirExpr
  span : Span

mutual

/-- `HirStmt`. -/
inductive HirStmt
  | varDecl (v : HirVarDecl)
  | constDecl (c : HirConstDecl)
  | ifStmt (condition : HirExpr) (then_branch : HirBlock)
      (else_branch : Option HirBlock) (span : Span)
  | whileStmt (condition : HirExpr) (body : HirBlock) (span : Span)
  | forStmt (init : Option HirStmt) (condition : Option HirExpr)
      (increment : Option HirExpr) (body : HirBlock) (span : Span)
  | ret (value : Option HirExpr) (span : Span)
  | breakStmt (span : Span)
  | continueStmt (span : Span)
  | expr (e : HirExpr) (span : Span)
  | error (span : Span)

/-- `HirBlock`: statements plus a span. -/
inductive HirBlock
  | mk (statements : List HirStmt) (span : Span)

end

/-- Statements of a block. -/
def HirBlock.statements : HirBlock → List HirStmt
  | .mk statements _ => statements

/-- Span of a block. -/
def HirBlock.span : HirBlock → Span
  | .mk _ span => span

mutual

/-- Size of an expression tree (an upper bound on resolver recursion depth,
used as fuel below; the derived `sizeOf` is not executable for these nested
inductives). -/
def HirExpr.size : HirExpr → Nat
  | .memberAccess object _ _ => object.size + 1
  | .index object idx _ => object.size + idx.size + 1
  | .binaryOp left _ right _ => left.size + right.size + 1
  | .unaryOp _ expr _ => expr.size + 1
  | .assign target value _ => target.size + value.size + 1
  | .call callee args _ => callee.size + HirExpr.sizeList args + 1
  | .methodCall object _ args _ => object.size + HirExpr.sizeList args + 1
  | .cast expr _ => expr.size + 1
  | .ternary condition then_expr else_expr _ =>
    condition.size + then_expr.size + else_expr.size + 1
  | .lambda _ _ body _ => body.size + 1
  | _ => 1

/-- Size of an expression list. -/
def HirExpr.sizeList : List HirExpr → Nat
  | [] => 0
  | e :: rest => e.size + HirExpr.sizeList rest + 1

end

mutual

/-- Size of a statement tree. -/
def HirStmt.size : HirStmt → Nat
  | .varDecl v =>
    (match v.initializer with | some init => init.size | none => 0) + 1
  | .constDecl c => c.initializer.size + 1
  | .ifStmt condition then_branch else_branch _ =>
    condition.size + then_branch.size +
      (match else_branch with | some b => b.size | none => 0) + 1
  | .whileStmt condition body _ => condition.size + body.size + 1
  | .forStmt init condition increment body _ =>
    (match init with | some s => s.size | none => 0) +
      (match condition with | some e => e.size | none => 0) +
      (match increment with | some e => e.size | none => 0) + body.size + 1
  | .ret value _ => (match value with | some e => e.size | none => 0) + 1
  | .expr e _ => e.size + 1
  | _ => 1

/-- Size of a statement list. -/
def HirStmt.sizeList : List HirStmt → Nat
  | [] => 0
  | s :: rest => s.size + HirStmt.sizeList rest + 1

/-- Size of a block. -/
def HirBlock.size : HirBlock → Nat
  | .mk statements _ => HirStmt.sizeList statements + 1

end

/-- `HirFuncDecl` (return type annotation omitted: never read). -/
structure HirFuncDecl where
  name : String
  symbol : SymbolRef
  params : List HirParam
  body : HirBlock
  symbol_table : SymbolTable
  span : Span

/-- `HirDecl`, restricted to the variants the claims exercise. -/
inductive HirDecl
  | varDecl (v : HirVarDecl)
  | constDecl (c : HirConstDecl)
  | funcDecl (f : HirFuncDecl)
  | error (span : Span)

/-- `HirProgram`. -/
structure HirProgram where
  declarations : List HirDecl
  span : Span

/-! ## brief-hir: HIR errors (`error.rs`) -/

/-- `HirError`. -/
inductive HirError
  | UndefinedVariable (name : String) (span : Span)
  | DuplicateSymbol (name : String) (original_span : Span) (duplicate_span : Span)
  | InvalidCapture (name : String) (span : Span)
  | Other (message : String) (span : Span)
deriving DecidableEq, Repr

/-! ## brief-hir: name resolution (`resolve.rs`) -/

/-- The fixed builtin name set. -/
def BUILTINS : List String :=
  ["print", "len", "int", "dub", "str",
   "rt_concat2", "rt_concat3", "rt_concat4", "rt_concat5"]

/-- Resolver state.  The head of `scopes` is the innermost scope (the last
element of the Rust `Vec`). -/
structure Resolver where
  errors : List HirError
  scopes : List Scope
  current_function : Option Nat
  local_count : Nat
  upvalue_count : Nat

namespace Resolver

def new : Resolver := ⟨[], [], none, 0, 0⟩

def begin_scope (r : Resolver) : Resolver :=
  { r with scopes := Scope.new :: r.scopes }

def end_scope (r : Resolver) : Resolver :=
  { r with scopes := r.scopes.tail }

def is_builtin (name : String) : Bool := BUILTINS.contains name

/-- `Resolver::declare_symbol`.  The duplicate check consults only the
innermost scope; on a duplicate, `original_span` is populated with the
*duplicate's* span (the source carries a TODO for recovering the original
declaration's span).  `Local` draws from the program-wide `local_count`
counter; `Param`/`Upvalue` use their own index; `Global` uses 0. -/
def declare_symbol (r : Resolver) (name : String) (kind : SymbolKind)
    (span : Span) : Option SymbolRef × Resolver :=
  match r.scopes with
  | [] => (none, r)
  | scope :: rest =>
    if (scope.lookup name).isSome then
      (none, { r with errors := r.errors ++ [.DuplicateSymbol name span span] })
    else
      let (symbol_ref, r') : SymbolRef × Resolver :=
        match kind with
        | .Local _ =>
          (⟨r.local_count⟩, { r with local_count := r.local_count + 1 })
        | .Param idx => (⟨idx⟩, r)
        | .Upvalue idx => (⟨idx⟩, r)
        | .Global _ => (⟨0⟩, r)
      (some symbol_ref, { r' with scopes := (scope.add name symbol_ref) :: rest })

/-- Scope-stack lookup, innermost to outermost. -/
def find_in_scopes : List Scope → String → Option SymbolRef
  | [], _ => none
  | scope :: rest, name =>
    match scope.lookup name with
    | some symbol => some symbol
    | none => find_in_scopes rest name

/-- `Resolver::resolve_variable`. -/
def resolve_variable (r : Resolver) (name : String) (span : Span) :
    Option SymbolRef × Resolver :=
  match find_in_scopes r.scopes name with
  | some symbol => (some symbol, r)
  | none =>
    if is_builtin name then (some SymbolRef.BUILTIN, r)
    else (none, { r with errors := r.errors ++ [.UndefinedVariable name span] })

/-- Parameter declaration loop of a lambda
(`for (idx, param) in params.iter_mut().enumerate()`). -/
def resolve_lambda_params (r : Resolver) (params : List HirParam) (idx : Nat) :
    List HirParam × Resolver :=
  match params with
  | [] => ([], r)
  | param :: rest =>
    let (symbol?, r) := declare_symbol r param.name (.Param idx) param.span
    let param :=
      match symbol? with
      | some symbol => { param with symbol := symbol }
      | none => param
    let (rest, r) := resolve_lambda_params r rest (idx + 1)
    (param :: rest, r)

mutual

/-- `Resolver::resolve_expr`.  The Rust source recurses structurally on the
expression tree; here the recursion is driven by an explicit `fuel` counter
(structural on `Nat`, so concrete runs reduce definitionally).  Every
recursive call descends into a strict subterm, so any `fuel ≥ sizeOf` of the
argument makes the out-of-fuel fallback unreachable; callers pass `sizeOf`. -/
def resolve_expr : Nat → Resolver → HirExpr → HirExpr × Resolver
  | 0, r, e => (e, r)
  | fuel+1, r, e =>
    match e with
    | .var name symbol span =>
      let (sym?, r) := resolve_variable r name span
      match sym? with
      | some sym_ref => (.var name sym_ref span, r)
      | none => (.var name symbol span, r)
    | .memberAccess object member span =>
      let (object, r) := resolve_expr fuel r object
      (.memberAccess object member span, r)
    | .index object idx span =>
      let (object, r) := resolve_expr fuel r object
      let (idx, r) := resolve_expr fuel r idx
      (.index object idx span, r)
    | .binaryOp left op right span =>
      let (left, r) := resolve_expr fuel r left
      let (right, r) := resolve_expr fuel r right
      (.binaryOp left op right span, r)
    | .unaryOp op expr span =>
      let (expr, r) := resolve_expr fuel r expr
      (.unaryOp op expr span, r)
    | .assign target value span =>
      let (target, r) := resolve_expr fuel r target
      let (value, r) := resolve_expr fuel r value
      (.assign target value span, r)
    | .call callee args span =>
      let (callee, r) := resolve_expr fuel r callee
      let (args, r) := resolve_expr_list fuel r args
      (.call callee args span, r)
    | .methodCall object method args span =>
      let (object, r) := resolve_expr fuel r object
      let (args, r) := resolve_expr_list fuel r args
      (.methodCall object method args span, r)
    | .cast expr span =>
      let (expr, r) := resolve_expr fuel r expr
      (.cast expr span, r)
    | .interpolation parts span => (.interpolation parts span, r)
    | .ternary condition then_expr else_expr span =>
      let (condition, r) := resolve_expr fuel r condition
      let (then_expr, r) := resolve_expr fuel r then_expr
      let (else_expr, r) := resolve_expr fuel r else_expr
      (.ternary condition then_expr else_expr span, r)
    | .lambda params captures body span =>
      let r := r.begin_scope
      let (params, r) := resolve_lambda_params r params 0
      let (body, r) := resolve_expr fuel r body
      -- capture discovery is an unimplemented TODO: `captures` stays as-is
      let r := r.end_scope
      (.lambda params captures body span, r)
    | .integer n span => (.integer n span, r)
    | .double d span => (.double d span, r)
    | .character c span => (.character c span, r)
    | .str s span => (.str s span, r)
    | .boolean b span => (.boolean b span, r)
    | .null span => (.null span, r)
    | .error span => (.error span, r)

/-- Argument list traversal inside `resolve_expr`. -/
def resolve_expr_list : Nat → Resolver → List HirExpr → List HirExpr × Resolver
  | 0, r, es => (es, r)
  | fuel+1, r, es =>
    match es with
    | [] => ([], r)
    | e :: rest =>
      let (e, r) := resolve_expr fuel r e
      let (rest, r) := resolve_expr_list fuel r rest
      (e :: rest, r)

/-- `Resolver::resolve_stmt`. -/
def resolve_stmt : Nat → Resolver → HirStmt → HirStmt × Resolver
  | 0, r, s => (s, r)
  | fuel+1, r, s =>
    match s with
    | .varDecl v =>
      let (symbol?, r) := declare_symbol r v.name (.Local r.local_count) v.span
      let v :=
        match symbol? with
        | some symbol => { v with symbol := symbol }
        | none => v
      match v.initializer with
      | some init =>
        let (init, r) := resolve_expr fuel r init
        (.varDecl { v with initializer := some init }, r)
      | none => (.varDecl v, r)
    | .constDecl c =>
      let (symbol?, r) := declare_symbol r c.name (.Local r.local_count) c.span
      let c :=
        match symbol? with
        | some symbol => { c with symbol := symbol }
        | none => c
      let (init, r) := resolve_expr fuel r c.initializer
      (.constDecl { c with initializer := init }, r)
    | .ifStmt condition then_branch else_branch span =>
      let (condition, r) := resolve_expr fuel r condition
      let (then_branch, r) := resolve_block fuel r then_branch
      match else_branch with
      | some else_branch =>
        let (else_branch, r) := resolve_block fuel r else_branch
        (.ifStmt condition then_branch (some else_branch) span, r)
      | none => (.ifStmt condition then_branch none span, r)
    | .whileStmt condition body span =>
      let (condition, r) := resolve_expr fuel r condition
      let (body, r) := resolve_block fuel r body
      (.whileStmt condition body span, r)
    | .forStmt init condition increment body span =>
      let (init, r) :=
        match init with
        | some init =>
          let (init, r) := resolve_stmt fuel r init
          (some init, r)
        | none => (none, r)
      let (condition, r) :=
        match condition with
        | some condition =>
          let (condition, r) := resolve_expr fuel r condition
          (some condition, r)
        | none => (none, r)
      let (increment, r) :=
        match increment with
        | some increment =>
          let (increment, r) := resolve_expr fuel r increment
          (some increment, r)
        | none => (none, r)
      let (body, r) := resolve_block fuel r body
      (.forStmt init condition increment body span, r)
    | .ret value span =>
      match value with
      | some value =>
        let (value, r) := resolve_expr fuel r value
        (.ret (some value) span, r)
      | none => (.ret none span, r)
    | .breakStmt span => (.breakStmt span, r)
    | .continueStmt span => (.continueStmt span, r)
    | .expr e span =>
      let (e, r) := resolve_expr fuel r e
      (.expr e span, r)
    | .error span => (.error span, r)

/-- Statement list traversal inside `resolve_block`. -/
def resolve_stmt_list : Nat → Resolver → List HirStmt → List HirStmt × Resolver
  | 0, r, ss => (ss, r)
  | fuel+1, r, ss =>
    match ss with
    | [] => ([], r)
    | s :: rest =>
      let (s, r) := resolve_stmt fuel r s
      let (rest, r) := resolve_stmt_list fuel r rest
      (s :: rest, r)

/-- `Resolver::resolve_block`: a fresh scope around the statements. -/
def resolve_block : Nat → Resolver → HirBlock → HirBlock × Resolver
  | 0, r, b => (b, r)
  | fuel+1, r, b =>
    match b with
    | .mk statements span =>
      let r := r.begin_scope
      let (statements, r) := resolve_stmt_list fuel r statements
      let r := r.end_scope
      (.mk statements span, r)

end

/-- Parameter declaration loop of `resolve_func_decl`: declare each parameter
(`Param(idx)`) and, when declaration succeeds, mirror it into the function's
symbol table. -/
def resolve_func_params (r : Resolver) (params : List HirParam)
    (table : SymbolTable) (idx : Nat) : List HirParam × SymbolTable × Resolver :=
  match params with
  | [] => ([], table, r)
  | param :: rest =>
    let (symbol?, r) := declare_symbol r param.name (.Param idx) param.span
    let (param, table) :=
      match symbol? with
      | some symbol =>
        ({ param with symbol := symbol },
         (table.add_symbol param.name (.Param idx) param.span).2)
      | none => (param, table)
    let (rest, table, r) := resolve_func_params r rest table (idx + 1)
    (param :: rest, table, r)

/-- `Resolver::resolve_func_decl`. -/
def resolve_func_decl (r : Resolver) (f : HirFuncDecl) : HirFuncDecl × Resolver :=
  let r := r.begin_scope
  let (params, table, r) := resolve_func_params r f.params f.symbol_table 0
  let (body, r) := resolve_block f.body.size r f.body
  let r := r.end_scope
  ({ f with params := params, symbol_table := table, body := body }, r)

/-- `Resolver::resolve_decl`. -/
def resolve_decl (r : Resolver) (d : HirDecl) : HirDecl × Resolver :=
  match d with
  | .varDecl v =>
    let (symbol?, r) := declare_symbol r v.name (.Local r.local_count) v.span
    let v :=
      match symbol? with
      | some symbol => { v with symbol := symbol }
      | none => v
    match v.initializer with
    | some init =>
      let (init, r) := resolve_expr init.size r init
      (.varDecl { v with initializer := some init }, r)
    | none => (.varDecl v, r)
  | .constDecl c =>
    let (symbol?, r) := declare_symbol r c.name (.Local r.local_count) c.span
    let c :=
      match symbol? with
      | some symbol => { c with symbol := symbol }
      | none => c
    let (init, r) := resolve_expr c.initializer.size r c.initializer
    (.constDecl { c with initializer := init }, r)
  | .funcDecl f =>
    let (symbol?, r) := declare_symbol r f.name (.Global f.name) f.span
    let f :=
      match symbol? with
      | some symbol => { f with symbol := symbol }
      | none => f
    let (f, r) := resolve_func_decl r f
    (.funcDecl f, r)
  | .error span => (.error span, r)

/-- Declaration list traversal of `resolve_program`. -/
def resolve_decl_list (r : Resolver) (ds : List HirDecl) : List HirDecl × Resolver :=
  match ds with
  | [] => ([], r)
  | d :: rest =>
    let (d, r) := resolve_decl r d
    let (rest, r) := resolve_decl_list r rest
    (d :: rest, r)

/-- `Resolver::resolve_program`: module scope around all declarations. -/
def resolve_program (program : HirProgram) : HirProgram × Resolver :=
  let r := Resolver.new.begin_scope
  let (declarations, r) := resolve_decl_list r program.declarations
  let r := r.end_scope
  ({ program with declarations := declarations }, r)

end Resolver

/-- `resolve`: `Ok` exactly when no errors accumulated; the full error list is
returned otherwise. -/
def resolve (program : HirProgram) : Except (List HirError) HirProgram :=
  let (program, r) := Resolver.resolve_program program
  if r.errors.isEmpty then .ok program else .error r.errors

/-! ## brief-hir: bytecode emitter (`emit.rs`)

Every panicking path of the emitter (`expect`, `panic!`, out-of-bounds
indexing) is `none`.  Class methods and constructors are emitted exactly like
functions (modulo the chunk name) and are not separately embedded, matching
the restriction of `HirDecl` above. -/

/-- Emitter state (`struct Emitter`). -/
structure Em where
  chunks : List Chunk
  current_chunk : Option Nat
  register_counter : Nat
  max_registers : Nat

namespace Emitter

def new : Em := ⟨[], none, 0, 0⟩

/-- `allocate_register`: return the counter, post-increment, track the
high-water mark.  (The Rust counter is a `u8`; overflow would panic in a
debug build and is not modelled — no claim allocates 256 registers.) -/
def allocate_register (e : Em) : Nat × Em :=
  let reg := e.register_counter
  let rc := e.register_counter + 1
  (reg,
   { e with register_counter := rc,
            max_registers := if rc > e.max_registers then rc else e.max_registers })

/-- `reserve_register`: `needed = reg.saturating_add(1)` on `u8`. -/
def reserve_register (e : Em) (reg : Nat) : Em :=
  let needed := min (reg + 1) 255
  let e :=
    if needed > e.register_counter then { e with register_counter := needed } else e
  if needed > e.max_registers then { e with max_registers := needed } else e

/-- `register_for_symbol`: `symbol.0 as u8` used directly as register number. -/
def register_for_symbol (e : Em) (symbol : SymbolRef) : Nat × Em :=
  let reg := symbol.idx % 256
  (reg, reserve_register e reg)

/-- `emit_instruction`: append to the current chunk, returning its ip. -/
def emit_instruction (e : Em) (instruction : Instruction) : Option (Nat × Em) :=
  match e.current_chunk with
  | none => none
  | some idx =>
    match e.chunks.get? idx with
    | none => none
    | some ch =>
      let ip := ch.code.length
      some (ip,
        { e with chunks := e.chunks.set idx { ch with code := ch.code ++ [instruction] } })

/-- `add_constant` on the current chunk. -/
def add_constant (e : Em) (constant : Constant) : Option (Nat × Em) :=
  match e.current_chunk with
  | none => none
  | some idx =>
    match e.chunks.get? idx with
    | none => none
    | some ch =>
      match ch.add_constant constant with
      | none => none
      | some (ci, ch) => some (ci, { e with chunks := e.chunks.set idx ch })

/-- `get_ip`. -/
def get_ip (e : Em) : Option Nat :=
  match e.current_chunk with
  | none => none
  | some idx => (e.chunks.get? idx).map (·.ip)

/-- `patch_offset`: rewrite the b/c bytes of `code[ip]` via `set_offset`. -/
def patch_offset (e : Em) (ip : Nat) (offset : Int) : Option Em :=
  match e.current_chunk with
  | none => none
  | some idx =>
    match e.chunks.get? idx with
    | none => none
    | some ch =>
      match ch.code.get? ip with
      | none => none
      | some inst =>
        some { e with
          chunks := e.chunks.set idx
            { ch with code := ch.code.set ip (inst.set_offset offset) } }

/-- `patch_jump_target`: `offset = target_ip - (ip + 1)` then `patch_offset`. -/
def patch_jump_target (e : Em) (ip target_ip : Nat) : Option Em :=
  patch_offset e ip ((target_ip : Int) - ((ip : Int) + 1))

/-- `emit_null_return`: trailing `LOADK null; RET` sequence. -/
def emit_null_return (e : Em) : Option Em := do
  let (null_idx, e) ← add_constant e .null
  let (reg, e) := allocate_register e
  let (_, e) ← emit_instruction e (Instruction.new2 .LOADK reg null_idx)
  let (_, e) ← emit_instruction e (Instruction.new1 .RET reg)
  some e

/-- The argument-moving loop of the `Call` arm
(`for (i, arg_reg) in arg_regs.iter().enumerate()`); `callee_reg + 1 + i as
u8` reduced mod 256. -/
def move_args (arg_regs : List Nat) (callee_reg i : Nat) (e : Em) : Option Em :=
  match arg_regs with
  | [] => some e
  | arg_reg :: rest => do
    let dest_reg := (callee_reg + 1 + i) % 256
    let e ←
      if arg_reg ≠ dest_reg then
        (emit_instruction e (Instruction.new2 .MOVE dest_reg arg_reg)).map (·.2)
      else some e
    move_args rest callee_reg (i + 1) e

mutual

/-- `emit_expr`: compile an expression into `target_reg`. -/
def emit_expr (expr : HirExpr) (target_reg : Nat) (e : Em) : Option Em :=
  match expr with
  | .integer n _ => do
    let (idx, e) ← add_constant e (.int n)
    let (_, e) ← emit_instruction e (Instruction.new2 .LOADK target_reg idx)
    some e
  | .double d _ => do
    let (idx, e) ← add_constant e (.double d)
    let (_, e) ← emit_instruction e (Instruction.new2 .LOADK target_reg idx)
    some e
  | .boolean b _ => do
    let (idx, e) ← add_constant e (.bool b)
    let (_, e) ← emit_instruction e (Instruction.new2 .LOADK target_reg idx)
    some e
  | .str s _ => do
    let (idx, e) ← add_constant e (.str s)
    let (_, e) ← emit_instruction e (Instruction.new2 .LOADK target_reg idx)
    some e
  | .null _ => do
    let (idx, e) ← add_constant e .null
    let (_, e) ← emit_instruction e (Instruction.new2 .LOADK target_reg idx)
    some e
  | .character c _ => do
    -- characters are represented as integers in bytecode
    let (idx, e) ← add_constant e (.int (c.toNat : Int))
    let (_, e) ← emit_instruction e (Instruction.new2 .LOADK target_reg idx)
    some e
  | .var name symbol _ =>
    if symbol = SymbolRef.BUILTIN then do
      let (idx, e) ← add_constant e (.str name)
      let (_, e) ← emit_instruction e (Instruction.new2 .LOADK target_reg idx)
      some e
    else do
      let (src_reg, e) := register_for_symbol e symbol
      if src_reg ≠ target_reg then do
        let (_, e) ← emit_instruction e (Instruction.new2 .MOVE target_reg src_reg)
        some e
      else some e
  | .binaryOp left op right _ =>
    if op = .Assign ∨ op = .InitAssign then
      emit_assign_expr left right target_reg e
    else
      match op with
      | .And => do
        let e ← emit_expr left target_reg e
        let jif_ip ← get_ip e
        let (_, e) ← emit_instruction e (Instruction.new2 .JIF target_reg 0)
        let e ← emit_expr right target_reg e
        let end_ip ← get_ip e
        patch_jump_target e jif_ip end_ip
      | .Or => do
        let e ← emit_expr left target_reg e
        let jif_ip ← get_ip e
        let (_, e) ← emit_instruction e (Instruction.new2 .JIF target_reg 0)
        let skip_ip ← get_ip e
        let (_, e) ← emit_instruction e (Instruction.new1 .JMP 0)
        let right_start ← get_ip e
        let e ← patch_jump_target e jif_ip right_start
        let e ← emit_expr right target_reg e
        let end_ip ← get_ip e
        patch_jump_target e skip_ip end_ip
      | .PlusAssign | .MinusAssign | .StarAssign
      | .SlashAssign | .PercentAssign | .PowAssign =>
        emit_compound_assignment left right target_reg op e
      | _ => do
        let (left_reg, e) := allocate_register e
        let (right_reg, e) := allocate_register e
        let e ← emit_expr left left_reg e
        let e ← emit_expr right right_reg e
        let opcode ←
          match op with
          | .Add => some Opcode.ADD
          | .Sub => some Opcode.SUB
          | .Mul => some Opcode.MUL
          | .Div => some Opcode.DIVF -- default to float division
          | .Mod => some Opcode.MOD
          | .Pow => some Opcode.POW
          | .Eq => some Opcode.CMP_EQ
          | .Ne => some Opcode.CMP_NE
          | .Lt => some Opcode.CMP_LT
          | .Le => some Opcode.CMP_LE
          | .Gt => some Opcode.CMP_GT
          | .Ge => some Opcode.CMP_GE
          | _ => none -- panic "Unexpected binary operator in HIR"
        let (_, e) ← emit_instruction e (Instruction.new opcode target_reg left_reg right_reg)
        some e
  | .unaryOp op expr _ => do
    let (expr_reg, e) := allocate_register e
    let e ← emit_expr expr expr_reg e
    let opcode ←
      match op with
      | .Neg => some Opcode.NEG
      | .Not => some Opcode.NOT
      | _ => none -- panic "Unsupported unary operator"
    let (_, e) ← emit_instruction e (Instruction.new2 opcode target_reg expr_reg)
    some e
  | .assign target value _ => do
    let (value_reg, e) := allocate_register e
    let e ← emit_expr value value_reg e
    match target with
    | .var _name symbol _ =>
      if symbol = SymbolRef.BUILTIN then none -- panic "Cannot assign to builtin"
      else do
        let (t_reg, e) := register_for_symbol e symbol
        let (_, e) ← emit_instruction e (Instruction.new2 .MOVE t_reg value_reg)
        some e
    | _ => none -- panic "Complex assignment target not yet supported"
  | .call callee args _ => do
    let (callee_reg, e) := allocate_register e
    let e ← emit_expr callee callee_reg e
    let (arg_regs, e) ← emit_call_args args e
    let e ← move_args arg_regs callee_reg 0 e
    let (_, e) ← emit_instruction e
      (Instruction.new .CALL target_reg callee_reg (args.length % 256))
    some e
  | .methodCall object _ _ _ => do
    let (obj_reg, e) := allocate_register e
    let _ ← emit_expr object obj_reg e
    none -- panic "Method calls not yet implemented"
  | .memberAccess _ _ _ => none -- panic "Member access not yet implemented"
  | .index _ _ _ => none -- panic "Index access not yet implemented"
  | .cast _ _ => none -- panic "Type casting not yet implemented"
  | .interpolation parts _ =>
    if parts.all (fun part => match part with | .text _ => true | _ => false) then do
      let text := parts.foldl
        (fun acc part => match part with | .text chunk => acc ++ chunk | _ => acc) ""
      let (idx, e) ← add_constant e (.str text)
      let (_, e) ← emit_instruction e (Instruction.new2 .LOADK target_reg idx)
      some e
    else none -- panic "String interpolation with expressions not yet implemented"
  | .ternary condition then_expr else_expr _ => do
    -- emit as if/else over expression registers
    let (cond_reg, e) := allocate_register e
    let e ← emit_expr condition cond_reg e
    let jmp_if_false_ip ← get_ip e
    let (_, e) ← emit_instruction e (Instruction.new2 .JIF cond_reg 0)
    let e ← emit_expr then_expr target_reg e
    let then_end_ip ← get_ip e
    let jmp_over_else_ip ← get_ip e
    let (_, e) ← emit_instruction e (Instruction.new1 .JMP 0)
    -- patch JIF: `(then_end_ip - jmp_if_false_ip) as i16`
    let else_offset : Int := (then_end_ip : Int) - (jmp_if_false_ip : Int)
    let e ← patch_offset e jmp_if_false_ip else_offset
    let e ← emit_expr else_expr target_reg e
    -- patch jump over else: `(else_end_ip - jmp_over_else_ip) as i16`
    let else_end_ip ← get_ip e
    let jmp_offset : Int := (else_end_ip : Int) - (jmp_over_else_ip : Int)
    patch_offset e jmp_over_else_ip jmp_offset
  | .lambda _ _ _ _ => none -- panic "Lambda compilation not yet implemented"
  | .error _ => do
    let (idx, e) ← add_constant e .null
    let (_, e) ← emit_instruction e (Instruction.new2 .LOADK target_reg idx)
    some e
termination_by sizeOf expr

/-- Call-argument emission loop (one fresh register per argument). -/
def emit_call_args (args : List HirExpr) (e : Em) : Option (List Nat × Em) :=
  match args with
  | [] => some ([], e)
  | arg :: rest => do
    let (reg, e) := allocate_register e
    let e ← emit_expr arg reg e
    let (regs, e) ← emit_call_args rest e
    some (reg :: regs, e)
termination_by sizeOf args

/-- `emit_assign_expr` (`=` / `:=` inside `BinaryOp`). -/
def emit_assign_expr (target value : HirExpr) (result_reg : Nat) (e : Em) :
    Option Em :=
  match target with
  | .var _name symbol _ =>
    if symbol = SymbolRef.BUILTIN then none -- panic "Cannot assign to builtin"
    else do
      let (dest_reg, e) := register_for_symbol e symbol
      let e ← emit_expr value dest_reg e
      if dest_reg ≠ result_reg then do
        let (_, e) ← emit_instruction e (Instruction.new2 .MOVE result_reg dest_reg)
        some e
      else some e
  | _ => none -- panic "Complex assignment target not yet supported"
termination_by sizeOf target + sizeOf value

/-- `emit_compound_assignment` (`+=` … `**=`). -/
def emit_compound_assignment (left right : HirExpr) (result_reg : Nat)
    (op : BinaryOp) (e : Em) : Option Em :=
  match left with
  | .var _name symbol _ =>
    if symbol = SymbolRef.BUILTIN then none -- panic "Cannot assign to builtin"
    else do
      let (dest_reg, e) := register_for_symbol e symbol
      let (right_reg, e) := allocate_register e
      let e ← emit_expr right right_reg e
      let opcode ←
        match op with
        | .PlusAssign => some Opcode.ADD
        | .MinusAssign => some Opcode.SUB
        | .StarAssign => some Opcode.MUL
        | .SlashAssign => some Opcode.DIVF
        | .PercentAssign => some Opcode.MOD
        | .PowAssign => some Opcode.POW
        | _ => none -- panic "Unsupported compound assignment operator"
      let (_, e) ← emit_instruction e (Instruction.new opcode dest_reg dest_reg right_reg)
      if dest_reg ≠ result_reg then do
        let (_, e) ← emit_instruction e (Instruction.new2 .MOVE result_reg dest_reg)
        some e
      else some e
  | _ => none -- panic "Compound assignment target must be a variable"
termination_by sizeOf left + sizeOf right

end

/-- Termination bookkeeping: every expression occupies at least one `sizeOf`
unit. -/
theorem HirExpr.one_le_sizeOf (e : HirExpr) : 1 ≤ sizeOf e := by
  cases e <;> simp_arith

/-- Termination bookkeeping for optional HIR components. -/
theorem one_le_sizeOf_option {α : Type} [SizeOf α] (o : Option α) : 1 ≤ sizeOf o := by
  cases o <;> simp_arith

mutual

/-- `emit_stmt`. -/
def emit_stmt (stmt : HirStmt) (e : Em) : Option Em :=
  match stmt with
  | .varDecl v => do
    let (t_reg, e) := register_for_symbol e v.symbol
    match v.initializer with
    | some init => emit_expr init t_reg e
    | none => do
      let (null_idx, e) ← add_constant e .null
      let (_, e) ← emit_instruction e (Instruction.new2 .LOADK t_reg null_idx)
      some e
  | .constDecl c => do
    let (t_reg, e) := register_for_symbol e c.symbol
    emit_expr c.initializer t_reg e
  | .ifStmt condition then_branch else_branch _ =>
    emit_if condition then_branch else_branch e
  | .whileStmt condition body _ =>
    emit_while condition body e
  | .forStmt init condition increment body _ =>
    emit_for init condition increment body e
  | .ret value _ =>
    match value with
    | some value => do
      let (reg, e) := allocate_register e
      let e ← emit_expr value reg e
      let (_, e) ← emit_instruction e (Instruction.new1 .RET reg)
      some e
    | none => do
      let (null_idx, e) ← add_constant e .null
      let (reg, e) := allocate_register e
      let (_, e) ← emit_instruction e (Instruction.new2 .LOADK reg null_idx)
      let (_, e) ← emit_instruction e (Instruction.new1 .RET reg)
      some e
  | .breakStmt _ => some e -- break/continue: skipped (unimplemented TODO)
  | .continueStmt _ => some e
  | .expr expr _ => do
    let (reg, e) := allocate_register e
    emit_expr expr reg e
  | .error _ => some e -- skip error nodes
termination_by sizeOf stmt

/-- `emit_block`: statement loop with tail-expression special casing on the
last statement (`is_tail = tail_return && idx == stmt_count - 1`). -/
def emit_block (block : HirBlock) (tail_return : Bool) (e : Em) : Option Em :=
  match block with
  | .mk statements _ => emit_block_stmts statements tail_return e
termination_by sizeOf block

/-- Statement loop of `emit_block`. -/
def emit_block_stmts (statements : List HirStmt) (tail_return : Bool) (e : Em) :
    Option Em :=
  match statements with
  | [] => some e
  | [stmt] =>
    if tail_return then
      match stmt with
      | .expr expr _ => do
        let (reg, e) := allocate_register e
        let e ← emit_expr expr reg e
        let (_, e) ← emit_instruction e (Instruction.new1 .RET reg)
        some e
      | .ifStmt condition then_branch else_branch _ => do
        let (reg, e) := allocate_register e
        let e ← emit_if_with_result condition then_branch else_branch reg e
        let (_, e) ← emit_instruction e (Instruction.new1 .RET reg)
        some e
      | other => emit_stmt other e
    else emit_stmt stmt e
  | stmt :: rest => do
    let e ← emit_stmt stmt e
    emit_block_stmts rest tail_return e
termination_by sizeOf statements

/-- `emit_block_value`: compile a block so its last statement writes
`target_reg`. -/
def emit_block_value (block : HirBlock) (target_reg : Nat) (e : Em) : Option Em :=
  match block with
  | .mk statements _ =>
    match statements with
    | [] => do
      let (null_idx, e) ← add_constant e .null
      let (_, e) ← emit_instruction e (Instruction.new2 .LOADK target_reg null_idx)
      some e
    | stmts => emit_block_value_stmts stmts target_reg e
termination_by sizeOf block

/-- Statement loop of `emit_block_value` (nonempty list; the last statement is
special-cased). -/
def emit_block_value_stmts (statements : List HirStmt) (target_reg : Nat)
    (e : Em) : Option Em :=
  match statements with
  | [] => some e
  | [stmt] =>
    match stmt with
    | .expr expr _ => emit_expr expr target_reg e
    | .ifStmt condition then_branch else_branch _ =>
      emit_if_with_result condition then_branch else_branch target_reg e
    | .ret value _ =>
      match value with
      | some expr => emit_expr expr target_reg e
      | none => do
        let (null_idx, e) ← add_constant e .null
        let (_, e) ← emit_instruction e (Instruction.new2 .LOADK target_reg null_idx)
        some e
    | other => do
      let e ← emit_stmt other e
      let (null_idx, e) ← add_constant e .null
      let (_, e) ← emit_instruction e (Instruction.new2 .LOADK target_reg null_idx)
      some e
  | stmt :: rest => do
    let e ← emit_stmt stmt e
    emit_block_value_stmts rest target_reg e
termination_by sizeOf statements

/-- `emit_if_with_result`: both branches write one shared result register. -/
def emit_if_with_result (condition : HirExpr) (then_branch : HirBlock)
    (else_branch : Option HirBlock) (result_reg : Nat) (e : Em) : Option Em := do
  let (cond_reg, e) := allocate_register e
  let e ← emit_expr condition cond_reg e
  let jmp_if_false_ip ← get_ip e
  let (_, e) ← emit_instruction e (Instruction.new2 .JIF cond_reg 0)
  let e ← emit_block_value then_branch result_reg e
  let jump_over_else_ip ← get_ip e
  let (_, e) ← emit_instruction e (Instruction.new1 .JMP 0)
  let else_start_ip ← get_ip e
  let e ← patch_jump_target e jmp_if_false_ip else_start_ip
  let e ←
    match else_branch with
    | some else_branch => emit_block_value else_branch result_reg e
    | none => do
      let (null_idx, e) ← add_constant e .null
      let (_, e) ← emit_instruction e (Instruction.new2 .LOADK result_reg null_idx)
      some e
  let else_end_ip ← get_ip e
  patch_jump_target e jump_over_else_ip else_end_ip
termination_by sizeOf condition + sizeOf then_branch + sizeOf else_branch
decreasing_by all_goals
  simp_wf <;> first
  | omega
  | (have h := HirExpr.one_le_sizeOf condition; omega)

/-- `emit_if` (statement position). -/
def emit_if (condition : HirExpr) (then_branch : HirBlock)
    (else_branch : Option HirBlock) (e : Em) : Option Em := do
  let (cond_reg, e) := allocate_register e
  let e ← emit_expr condition cond_reg e
  let jmp_if_false_ip ← get_ip e
  let (_, e) ← emit_instruction e (Instruction.new2 .JIF cond_reg 0)
  let e ← emit_block then_branch false e
  let then_end_ip ← get_ip e
  match else_branch with
  | some else_branch => do
    let jmp_over_else_ip ← get_ip e
    let (_, e) ← emit_instruction e (Instruction.new1 .JMP 0)
    let else_start_ip := jmp_over_else_ip
    let e ← patch_jump_target e jmp_if_false_ip else_start_ip
    let e ← emit_block else_branch false e
    let else_end_ip ← get_ip e
    patch_jump_target e else_start_ip else_end_ip
  | none =>
    patch_jump_target e jmp_if_false_ip then_end_ip
termination_by sizeOf condition + sizeOf then_branch + sizeOf else_branch
decreasing_by all_goals
  simp_wf <;> first
  | omega
  | (have h := HirExpr.one_le_sizeOf condition; omega)

/-- `emit_while`: back-edge `JMP (start - end - 1)`, `JIF` patched past it. -/
def emit_while (condition : HirExpr) (body : HirBlock) (e : Em) : Option Em := do
  let loop_start_ip ← get_ip e
  let (cond_reg, e) := allocate_register e
  let e ← emit_expr condition cond_reg e
  let jmp_if_false_ip ← get_ip e
  let (_, e) ← emit_instruction e (Instruction.new2 .JIF cond_reg 0)
  let e ← emit_block body false e
  let loop_end_ip ← get_ip e
  let back_jmp_offset : Int := (loop_start_ip : Int) - (loop_end_ip : Int) - 1
  let (_, e) ← emit_instruction e (Instruction.new1 .JMP 0)
  let e ← patch_offset e loop_end_ip back_jmp_offset
  patch_jump_target e jmp_if_false_ip (loop_end_ip + 1)
termination_by sizeOf condition + sizeOf body
decreasing_by all_goals
  simp_wf <;> first
  | omega
  | (have h := HirExpr.one_le_sizeOf condition; omega)

/-- `emit_for` (C-style loop). -/
def emit_for (init : Option HirStmt) (condition : Option HirExpr)
    (increment : Option HirExpr) (body : HirBlock) (e : Em) : Option Em := do
  let e ←
    match init with
    | some init => emit_stmt init e
    | none => some e
  let loop_start_ip ← get_ip e
  let (cond_reg, e) ←
    match condition with
    | some condition => do
      let (reg, e) := allocate_register e
      let e ← emit_expr condition reg e
      some (reg, e)
    | none => do
      -- infinite loop: load true
      let (true_idx, e) ← add_constant e (.bool true)
      let (reg, e) := allocate_register e
      let (_, e) ← emit_instruction e (Instruction.new2 .LOADK reg true_idx)
      some (reg, e)
  let jmp_if_false_ip ← get_ip e
  let (_, e) ← emit_instruction e (Instruction.new2 .JIF cond_reg 0)
  let e ← emit_block body false e
  let e ←
    match increment with
    | some increment => do
      let (inc_reg, e) := allocate_register e
      emit_expr increment inc_reg e
    | none => some e
  let loop_end_ip ← get_ip e
  let back_jmp_offset : Int := (loop_start_ip : Int) - (loop_end_ip : Int) - 1
  let (_, e) ← emit_instruction e (Instruction.new1 .JMP 0)
  let e ← patch_offset e loop_end_ip back_jmp_offset
  patch_jump_target e jmp_if_false_ip (loop_end_ip + 1)
termination_by sizeOf init + sizeOf condition + sizeOf increment + sizeOf body
decreasing_by all_goals
  simp_wf <;> first
  | omega
  | (have h1 := one_le_sizeOf_option init; have h2 := one_le_sizeOf_option condition;
     have h3 := one_le_sizeOf_option increment; omega)

end

/-- `emit_function`: fresh chunk, parameters occupy the first registers, body
with tail returns, trailing null return, metadata update, counter reset. -/
def emit_function (e : Em) (func : HirFuncDecl) : Option Em := do
  let chunk := { Chunk.new func.name with param_count := func.params.length % 256 }
  let e := { e with chunks := e.chunks ++ [chunk] }
  let e := { e with
    current_chunk := some (e.chunks.length - 1),
    register_counter := func.params.length % 256 }
  let e ← emit_block func.body true e
  let e ← emit_null_return e
  match e.current_chunk with
  | none => none
  | some idx =>
    match e.chunks.get? idx with
    | none => none
    | some ch =>
      let e := { e with
        chunks := e.chunks.set idx
          { ch with max_regs := e.max_registers, upvalue_count := 0 } }
      some { e with register_counter := 0, max_registers := 0 }

/-- Declaration loop of `emit_program`: functions become chunks; top-level
variables and constants are skipped in the current core. -/
def emit_decls (e : Em) (ds : List HirDecl) : Option Em :=
  match ds with
  | [] => some e
  | .funcDecl f :: rest => do
    let e ← emit_function e f
    emit_decls e rest
  | _ :: rest => emit_decls e rest

/-- `emit_program` / top-level `emit`. -/
def emit_program (program : HirProgram) : Option (List Chunk) := do
  let e ← emit_decls Emitter.new program.declarations
  some e.chunks

end Emitter

/-- `emit`: HIR program to chunks. -/
def emit (program : HirProgram) : Option (List Chunk) :=
  Emitter.emit_program program

/-! ## brief-lexer: tokens (`token.rs`) -/

/-- Alias for the Rust `char` in token payload positions. -/
abbrev RChar := Char

/-- Alias for `Bool` usable inside the `TokenKind` namespace (whose keyword
constructors shadow the primitive type names). -/
abbrev RBool := Bool

/-- `TokenKind` (`token.rs`). -/
inductive TokenKind
  -- keywords
  | Int | Char | Str | Dub | Bool
  | If | Else | While | For | In | Break | Continue | Match | Case
  | Def | Ret | Cls | Obj | Const | Null | True | False
  -- operators
  | Plus | Minus | Star | Slash | Percent | Pow
  | Assign | InitAssign | PlusAssign | MinusAssign | StarAssign
  | SlashAssign | PercentAssign | PowAssign
  | Inc | Dec
  | Eq | Ne | Lt | Le | Gt | Ge
  | Not | And | Or
  | Shr | Shl | BitAnd | BitOr | BitXor | BitNot
  | Question | Colon
  -- punctuation
  | LeftParen | RightParen | LeftBracket | RightBracket
  | LeftBrace | RightBrace | Comma | Semicolon | Dot | Arrow
  -- literals
  | Integer (value : I64)
  | Double (value : F64)
  | Character (value : RChar)
  | StrPart (text : String)
  | InterpIdent (name : String)
  | InterpPath (path : String)
  -- identifiers
  | Identifier (name : String)
  -- special
  | Newline | Indent | Dedent | Eof

/-- `Token`. -/
structure Token where
  kind : TokenKind
  span : Span

def Token.new (kind : TokenKind) (span : Span) : Token := ⟨kind, span⟩

/-- `kind == TokenKind::Eof`. -/
def TokenKind.isEof : TokenKind → RBool
  | .Eof => true
  | _ => false

/-- `kind == TokenKind::Newline`. -/
def TokenKind.isNewline : TokenKind → RBool
  | .Newline => true
  | _ => false

/-- `TokenKind::is_keyword`. -/
def TokenKind.is_keyword (s : String) : RBool :=
  s ∈ ["int", "char", "str", "dub", "bool", "if", "else", "while", "for",
       "in", "break", "continue", "match", "case", "def", "ret", "cls",
       "obj", "const", "null", "true", "false"]

/-- `TokenKind::from_keyword`. -/
def TokenKind.from_keyword (s : String) : Option TokenKind :=
  match s with
  | "int" => some .Int
  | "char" => some .Char
  | "str" => some .Str
  | "dub" => some .Dub
  | "bool" => some .Bool
  | "if" => some .If
  | "else" => some .Else
  | "while" => some .While
  | "for" => some .For
  | "in" => some .In
  | "break" => some .Break
  | "continue" => some .Continue
  | "match" => some .Match
  | "case" => some .Case
  | "def" => some .Def
  | "ret" => some .Ret
  | "cls" => some .Cls
  | "obj" => some .Obj
  | "const" => some .Const
  | "null" => some .Null
  | "true" => some .True
  | "false" => some .False
  | _ => none

/-! ## brief-lexer: the lexer (`lexer.rs`)

The mutable fields of `struct Lexer` form `LexState`; the immutable `source`
(as `Vec<char>`, i.e. `List Char`) and `file_id` are passed as parameters.
Every loop of the Rust lexer is a well-founded recursion on the remaining
character count, so `lex` is total by construction — the termination measure
of `lex_entry`/`lex_body` mirrors the informal argument that every loop
iteration either consumes a character, pops the interpolation token queue, or
flips the `at_line_start` flag in a direction that forces consumption next. -/

/-- Mutable lexer state.  The head of `indent_stack` is the top of the Rust
`Vec`; the heads of `pending_indents`/`token_queue` are the deque fronts. -/
structure LexState where
  pos : Nat
  line : Nat
  column : Nat
  indent_stack : List Nat
  pending_indents : List Token
  token_queue : List Token
  errors : List String
  skip_next_line_start : Bool

namespace Lexer

/-- `Lexer::new`. -/
def init : LexState :=
  { pos := 0, line := 1, column := 1, indent_stack := [0],
    pending_indents := [], token_queue := [], errors := [],
    skip_next_line_start := false }

def current_pos (st : LexState) : Position := Position.new st.line st.column

def current_span (fid : FileId) (st : LexState) : Span :=
  Span.single fid (current_pos st)

def span_from (fid : FileId) (start : Position) (st : LexState) : Span :=
  Span.new fid start (current_pos st)

/-- `Lexer::advance`: consume one character, tracking line/column. -/
def advance (src : List Char) (st : LexState) : Option Char × LexState :=
  match src.get? st.pos with
  | none => (none, st)
  | some ch =>
    (some ch,
     { st with
       pos := st.pos + 1,
       line := if ch = '\n' then st.line + 1 else st.line,
       column := if ch = '\n' then 1 else st.column + 1 })

/-- `Lexer::match_char`. -/
def match_char (src : List Char) (st : LexState) (expected : Char) :
    Bool × LexState :=
  if src.get? st.pos = some expected then (true, (advance src st).2)
  else (false, st)

/-- Bound extraction from a successful indexing (termination bookkeeping). -/
theorem get?_some_lt {α : Type} {l : List α} {n : Nat} {a : α}
    (h : l.get? n = some a) : n < l.length := by
  rcases List.get?_eq_some.mp h with ⟨h1, _⟩
  exact h1

theorem advance_pos_le (src : List Char) (st : LexState) :
    st.pos ≤ ((advance src st).2).pos := by
  unfold advance
  split <;> simp

theorem advance_pos_succ {src : List Char} {st : LexState} {c : Char}
    (h : src.get? st.pos = some c) : ((advance src st).2).pos = st.pos + 1 := by
  unfold advance
  split <;> simp_all

theorem advance_queue (src : List Char) (st : LexState) :
    ((advance src st).2).token_queue = st.token_queue := by
  unfold advance
  split <;> rfl

theorem match_char_pos_le (src : List Char) (st : LexState) (expected : Char) :
    st.pos ≤ ((match_char src st expected).2).pos := by
  unfold match_char
  split
  · exact advance_pos_le src st
  · simp

theorem advance_if_pos_le (src : List Char) (st : LexState) (cond : Prop)
    [Decidable cond] :
    st.pos ≤ ((advance src (if cond then (advance src st).2 else st)).2).pos := by
  have h1 := advance_pos_le src st
  split
  · have h2 := advance_pos_le src ((advance src st).2)
    omega
  · exact advance_pos_le src st

theorem advance_if_queue (src : List Char) (st : LexState) (cond : Prop)
    [Decidable cond] :
    ((advance src (if cond then (advance src st).2 else st)).2).token_queue
      = st.token_queue := by
  split <;> simp [advance_queue]

/-- Scan of the comment-only-line case inside `is_empty_line`. -/
def line_comment_is_empty (src : List Char) (pos : Nat) : Bool :=
  match h : src.get? pos with
  | none => true
  | some ch =>
    if ch = '\n' ∨ ch = '\r' then true
    else if ch = '\t' then false
    else line_comment_is_empty src (pos + 1)
termination_by src.length - pos
decreasing_by
  have := get?_some_lt h
  omega

/-- `Lexer::is_empty_line` (pure lookahead from `pos`). -/
def is_empty_line (src : List Char) (pos : Nat) : Bool :=
  match h : src.get? pos with
  | none => true
  | some ch =>
    if ch = ' ' ∨ ch = '\t' then is_empty_line src (pos + 1)
    else if ch = '\n' ∨ ch = '\r' then true
    else if ch = '/' ∧ src.get? (pos + 1) = some '/' then
      line_comment_is_empty src pos
    else false
termination_by src.length - pos
decreasing_by
  have := get?_some_lt h
  omega

/-- The tab-counting loop of `count_and_consume_leading_tabs`. -/
def count_leading_tabs (src : List Char) (pos : Nat) : Nat :=
  match h : src.get? pos with
  | some '\t' => 1 + count_leading_tabs src (pos + 1)
  | _ => 0
termination_by src.length - pos
decreasing_by
  have := get?_some_lt h
  omega

/-- `Lexer::count_and_consume_leading_tabs`: consume the leading tabs; if the
loop stopped at a space, record the spaces-as-indentation error (the space
itself is not consumed). -/
def count_and_consume_leading_tabs (src : List Char) (st : LexState) :
    Nat × LexState :=
  let count := count_leading_tabs src st.pos
  let st := { st with pos := st.pos + count, column := st.column + count }
  if src.get? st.pos = some ' ' then
    (count,
     { st with errors := st.errors ++
        ["spaces cannot be used for indentation (use tabs) at line "
          ++ toString st.line] })
  else (count, st)

theorem count_leading_tabs_ge_one {src : List Char} {pos : Nat}
    (h : src.get? pos = some '\t') : 1 ≤ count_leading_tabs src pos := by
  rw [count_leading_tabs]
  split <;> simp_all

theorem count_leading_tabs_eq_zero {src : List Char} {pos : Nat}
    (h : src.get? pos ≠ some '\t') : count_leading_tabs src pos = 0 := by
  rw [count_leading_tabs]
  split
  · exact absurd (by assumption) h
  · rfl

theorem count_tabs_pos (src : List Char) (st : LexState) :
    ((count_and_consume_leading_tabs src st).2).pos
      = st.pos + count_leading_tabs src st.pos := by
  simp only [count_and_consume_leading_tabs]
  split <;> rfl

theorem count_tabs_queue (src : List Char) (st : LexState) :
    ((count_and_consume_leading_tabs src st).2).token_queue
      = st.token_queue := by
  simp only [count_and_consume_leading_tabs]
  split <;> rfl

/-- The empty-line consumption loop of the main lexer loop: skip everything
up to and including the newline (handling CRLF), or to end of input. -/
def skip_empty_line (src : List Char) (st : LexState) : LexState :=
  match h : src.get? st.pos with
  | none => st
  | some ch =>
    if ch = '\n' ∨ ch = '\r' then
      (advance src
        (if ch = '\r' ∧ src.get? (st.pos + 1) = some '\n' then (advance src st).2
         else st)).2
    else skip_empty_line src (advance src st).2
termination_by src.length - st.pos
decreasing_by
  have h1 := get?_some_lt h
  simp [advance_pos_succ h]
  omega

theorem skip_empty_line_pos_le (src : List Char) (st : LexState) :
    st.pos ≤ (skip_empty_line src st).pos := by
  induction st using skip_empty_line.induct src with
  | case1 st h =>
    rw [skip_empty_line]
    split
    · exact Nat.le_refl _
    · rename_i c2 heq
      rw [h] at heq
      cases heq
  | case2 st ch h hnl =>
    rw [skip_empty_line]
    split
    · rename_i heq
      rw [h] at heq
    · rename_i c2 heq
      rw [h] at heq
      cases heq
      rw [if_pos hnl]
      exact advance_if_pos_le src st _
  | case3 st ch h hnl ih =>
    rw [skip_empty_line]
    split
    · rename_i heq
      rw [h] at heq
    · rename_i c2 heq
      rw [h] at heq
      cases heq
      rw [if_neg hnl]
      have h1 := advance_pos_le src st
      omega

theorem skip_empty_line_queue (src : List Char) (st : LexState) :
    (skip_empty_line src st).token_queue = st.token_queue := by
  induction st using skip_empty_line.induct src with
  | case1 st h =>
    rw [skip_empty_line]
    split
    · rfl
    · rename_i c2 heq
      rw [h] at heq
      cases heq
  | case2 st ch h hnl =>
    rw [skip_empty_line]
    split
    · rename_i heq
      rw [h] at heq
    · rename_i c2 heq
      rw [h] at heq
      cases heq
      rw [if_pos hnl]
      exact advance_if_queue src st _
  | case3 st ch h hnl ih =>
    rw [skip_empty_line]
    split
    · rename_i heq
      rw [h] at heq
    · rename_i c2 heq
      rw [h] at heq
      cases heq
      rw [if_neg hnl]
      rw [ih, advance_queue]

theorem skip_empty_line_pos_lt {src : List Char} {st : LexState}
    (h : st.pos < src.length) : st.pos < (skip_empty_line src st).pos := by
  rw [skip_empty_line]
  split
  · rename_i heq
    have := List.get?_eq_none.mp heq
    omega
  · rename_i ch heq
    have h1 := advance_pos_succ heq
    split
    · split
      · have h2 := advance_pos_le src ((advance src st).2)
        omega
      · omega
    · have h3 := skip_empty_line_pos_le src ((advance src st).2)
      omega

/-- The `Indent`-pushing loop of `handle_indentation`
(`while level <= indent { push; emit Indent; level += 1 }`). -/
def push_indent_levels (fid : FileId) (st : LexState) (level indent : Nat) :
    LexState :=
  if level ≤ indent then
    push_indent_levels fid
      { st with
        indent_stack := level :: st.indent_stack,
        pending_indents := st.pending_indents ++
          [Token.new .Indent (Span.single fid (Position.new st.line 1))] }
      (level + 1) indent
  else st
termination_by indent + 1 - level

/-- The `Dedent`-popping loop of `handle_indentation`
(`while len > 1 && top > indent { pop; push Dedent }`). -/
def pop_indent_levels (fid : FileId) (st : LexState) (indent : Nat)
    (tokens : List Token) : List Token × LexState :=
  match h : st.indent_stack with
  | [] => (tokens, st)
  | top :: rest =>
    if rest = [] then (tokens, st)
    else if top ≤ indent then (tokens, st)
    else
      pop_indent_levels fid { st with indent_stack := rest } indent
        (tokens ++ [Token.new .Dedent (Span.single fid (Position.new st.line 1))])
termination_by st.indent_stack.length
decreasing_by simp [h]

theorem push_indent_levels_pos (fid : FileId) (st : LexState) (level indent : Nat) :
    (push_indent_levels fid st level indent).pos = st.pos := by
  induction st, level, indent using push_indent_levels.induct fid with
  | case1 st level indent h ih => rw [push_indent_levels]; rw [if_pos h]; exact ih
  | case2 st level indent h => rw [push_indent_levels]; rw [if_neg h]

theorem push_indent_levels_queue (fid : FileId) (st : LexState) (level indent : Nat) :
    (push_indent_levels fid st level indent).token_queue = st.token_queue := by
  induction st, level, indent using push_indent_levels.induct fid with
  | case1 st level indent h ih => rw [push_indent_levels]; rw [if_pos h]; exact ih
  | case2 st level indent h => rw [push_indent_levels]; rw [if_neg h]

theorem pop_indent_levels_pos (fid : FileId) (st : LexState) (indent : Nat)
    (tokens : List Token) :
    ((pop_indent_levels fid st indent tokens).2).pos = st.pos := by
  induction st, indent, tokens using pop_indent_levels.induct fid with
  | case1 st indent tokens h =>
    rw [pop_indent_levels]
    split
    · rfl
    · rename_i top2 rest2 heq
      rw [h] at heq
      cases heq
  | case2 st indent tokens top h =>
    rw [pop_indent_levels]
    split
    · rename_i heq
      rw [h] at heq
    · rename_i top2 rest2 heq
      rw [h] at heq
      cases heq
      simp
  | case3 st indent tokens top rest h hrest hle =>
    rw [pop_indent_levels]
    split
    · rename_i heq
      rw [h] at heq
    · rename_i top2 rest2 heq
      rw [h] at heq
      cases heq
      rw [if_neg hrest, if_pos hle]
  | case4 st indent tokens top rest h hrest hle ih =>
    rw [pop_indent_levels]
    split
    · rename_i heq
      rw [h] at heq
    · rename_i top2 rest2 heq
      rw [h] at heq
      cases heq
      rw [if_neg hrest, if_neg hle]
      exact ih
  
theorem pop_indent_levels_queue (fid : FileId) (st : LexState) (indent : Nat)
    (tokens : List Token) :
    ((pop_indent_levels fid st indent tokens).2).token_queue
      = st.token_queue := by
  induction st, indent, tokens using pop_indent_levels.induct fid with
  | case1 st indent tokens h =>
    rw [pop_indent_levels]
    split
    · rfl
    · rename_i top2 rest2 heq
      rw [h] at heq
      cases heq
  | case2 st indent tokens top h =>
    rw [pop_indent_levels]
    split
    · rename_i heq
      rw [h] at heq
    · rename_i top2 rest2 heq
      rw [h] at heq
      cases heq
      simp
  | case3 st indent tokens top rest h hrest hle =>
    rw [pop_indent_levels]
    split
    · rename_i heq
      rw [h] at heq
    · rename_i top2 rest2 heq
      rw [h] at heq
      cases heq
      rw [if_neg hrest, if_pos hle]
  | case4 st indent tokens top rest h hrest hle ih =>
    rw [pop_indent_levels]
    split
    · rename_i heq
      rw [h] at heq
    · rename_i top2 rest2 heq
      rw [h] at heq
      cases heq
      rw [if_neg hrest, if_neg hle]
      exact ih

/-- `Lexer::handle_indentation`. -/
def handle_indentation (fid : FileId) (st : LexState) (indent : Nat)
    (tokens : List Token) : List Token × LexState :=
  let current_level := st.indent_stack.headD 0
  if indent > current_level then
    (tokens, push_indent_levels fid st (current_level + 1) indent)
  else if indent < current_level then
    let p := pop_indent_levels fid st indent tokens
    if (p.2).indent_stack.headD 0 ≠ indent then
      (p.1,
       { p.2 with errors := (p.2).errors ++
          ["inconsistent indentation at line " ++ toString (p.2).line] })
    else p
  else (tokens, st)

theorem handle_indentation_pos (fid : FileId) (st : LexState) (indent : Nat)
    (tokens : List Token) :
    ((handle_indentation fid st indent tokens).2).pos = st.pos := by
  simp only [handle_indentation]
  split
  · exact push_indent_levels_pos fid st _ indent
  · split
    · split
      · exact pop_indent_levels_pos fid st indent tokens
      · exact pop_indent_levels_pos fid st indent tokens
    · rfl

theorem handle_indentation_queue (fid : FileId) (st : LexState) (indent : Nat)
    (tokens : List Token) :
    ((handle_indentation fid st indent tokens).2).token_queue
      = st.token_queue := by
  simp only [handle_indentation]
  split
  · exact push_indent_levels_queue fid st _ indent
  · split
    · split
      · exact pop_indent_levels_queue fid st indent tokens
      · exact pop_indent_levels_queue fid st indent tokens
    · rfl

/-- `Lexer::skip_line_comment`: run to (and consume) the newline, or stop at
a tab (preserved for the indentation machinery) or end of input. -/
def skip_line_comment (src : List Char) (st : LexState) : LexState :=
  match h : src.get? st.pos with
  | none => st
  | some ch =>
    if ch = '\n' ∨ ch = '\r' then
      (advance src
        (if ch = '\r' ∧ src.get? (st.pos + 1) = some '\n' then (advance src st).2
         else st)).2
    else if ch = '\t' then st
    else skip_line_comment src (advance src st).2
termination_by src.length - st.pos
decreasing_by
  have h1 := get?_some_lt h
  simp [advance_pos_succ h]
  omega

theorem skip_line_comment_pos_le (src : List Char) (st : LexState) :
    st.pos ≤ (skip_line_comment src st).pos := by
  induction st using skip_line_comment.induct src with
  | case1 st h =>
    rw [skip_line_comment]
    split
    · exact Nat.le_refl _
    · rename_i c2 heq
      rw [h] at heq
      cases heq
  | case2 st ch h hnl =>
    rw [skip_line_comment]
    split
    · rename_i heq
      rw [h] at heq
    · rename_i c2 heq
      rw [h] at heq; cases heq
      rw [if_pos hnl]
      exact advance_if_pos_le src st _
  | case3 st h hnl =>
    rw [skip_line_comment]
    split
    · rename_i heq
      rw [h] at heq
    · rename_i c2 heq
      rw [h] at heq; cases heq
      rw [if_neg hnl, if_pos rfl]
  | case4 st ch h hnl htab ih =>
    rw [skip_line_comment]
    split
    · rename_i heq
      rw [h] at heq
    · rename_i c2 heq
      rw [h] at heq; cases heq
      rw [if_neg hnl, if_neg htab]
      have h1 := advance_pos_le src st
      omega

/-- `Lexer::skip_block_comment`: nesting by depth counting (entered at
depth 1, past the opening marker). -/
def skip_block_comment (src : List Char) (st : LexState) (depth : Nat) :
    LexState :=
  if depth = 0 then st
  else
    match h : src.get? st.pos with
    | none => st
    | some ch =>
      if ch = '/' ∧ src.get? (st.pos + 1) = some '*' then
        skip_block_comment src ((advance src (advance src st).2).2) (depth + 1)
      else if ch = '*' ∧ src.get? (st.pos + 1) = some '/' then
        skip_block_comment src ((advance src (advance src st).2).2) (depth - 1)
      else skip_block_comment src ((advance src st).2) depth
termination_by src.length - st.pos
decreasing_by
  all_goals have h1 := get?_some_lt h
  all_goals have h2 := advance_pos_le src ((advance src st).2)
  all_goals simp [advance_pos_succ h] at h2 ⊢
  all_goals omega

theorem skip_block_comment_pos_le (src : List Char) (st : LexState) (depth : Nat) :
    st.pos ≤ (skip_block_comment src st depth).pos := by
  induction st, depth using skip_block_comment.induct src with
  | case1 st =>
    rw [skip_block_comment]
    simp
  | case2 st depth hd h =>
    rw [skip_block_comment, if_neg hd]
    split
    · exact Nat.le_refl _
    · rename_i c2 heq
      rw [h] at heq
      exact Option.noConfusion heq
  | case3 st depth hd ch h hslash ih =>
    rw [skip_block_comment, if_neg hd]
    split
    · rename_i heq
      rw [h] at heq
    · rename_i c2 heq
      rw [h] at heq; cases heq
      rw [if_pos hslash]
      have h1 := advance_pos_le src st
      have h2 := advance_pos_le src ((advance src st).2)
      omega
  | case4 st depth hd ch h hns hstar ih =>
    rw [skip_block_comment, if_neg hd]
    split
    · rename_i heq
      rw [h] at heq
    · rename_i c2 heq
      rw [h] at heq; cases heq
      rw [if_neg hns, if_pos hstar]
      have h1 := advance_pos_le src st
      have h2 := advance_pos_le src ((advance src st).2)
      omega
  | case5 st depth hd ch h hns hnstar ih =>
    rw [skip_block_comment, if_neg hd]
    split
    · rename_i heq
      rw [h] at heq
    · rename_i c2 heq
      rw [h] at heq; cases heq
      rw [if_neg hns, if_neg hnstar]
      have h1 := advance_pos_le src st
      omega

/-- `char::is_ascii_hexdigit`. -/
def is_hex_digit (c : Char) : Bool :=
  c.isDigit || ('a' ≤ c && c ≤ 'f') || ('A' ≤ c && c ≤ 'F')

/-- The `\u{...}` hex-collection loop of `Lexer::lex_escape_sequence`. -/
def lex_unicode_hex (src : List Char) (st : LexState) (code : String) :
    String × LexState :=
  match h : src.get? st.pos with
  | none => (code, st)
  | some ch =>
    if ch = '}' then (code, (advance src st).2)
    else if is_hex_digit ch then
      lex_unicode_hex src (advance src st).2 (code.push ch)
    else (code, st)
termination_by src.length - st.pos
decreasing_by
  have h1 := get?_some_lt h
  simp [advance_pos_succ h]
  omega

theorem lex_unicode_hex_pos_le (src : List Char) (st : LexState)
    (code : String) :
    st.pos ≤ ((lex_unicode_hex src st code).2).pos := by
  induction st, code using lex_unicode_hex.induct src with
  | case1 st code h =>
    rw [lex_unicode_hex]
    split
    · exact Nat.le_refl _
    · rename_i c2 heq
      first
        | exact Option.noConfusion (h.symm.trans heq)
        | exact Option.noConfusion heq
        | (have h9 := get?_some_lt heq; omega)
  | case2 st code h =>
    rw [lex_unicode_hex]
    split
    · rename_i heq
      first
        | exact Option.noConfusion (h.symm.trans heq)
        | exact Option.noConfusion heq
        | (have h9 := get?_some_lt heq; omega)
    · rename_i c2 heq
      have hc : c2 = '}' := by
        first
          | exact (Option.some.inj (h.symm.trans heq)).symm
          | exact (Option.some.inj heq).symm
      subst hc
      rw [if_pos rfl]
      exact advance_pos_le src st
  | case3 st code ch h hbr hhex ih =>
    rw [lex_unicode_hex]
    split
    · rename_i heq
      first
        | exact Option.noConfusion (h.symm.trans heq)
        | exact Option.noConfusion heq
        | (have h9 := get?_some_lt heq; omega)
    · rename_i c2 heq
      have hc : c2 = ch := by
        first
          | exact (Option.some.inj (h.symm.trans heq)).symm
          | exact (Option.some.inj heq).symm
      subst hc
      rw [if_neg hbr, if_pos hhex]
      have h1 := advance_pos_le src st
      omega
  | case4 st code ch h hbr hhex =>
    rw [lex_unicode_hex]
    split
    · rename_i heq
      first
        | exact Option.noConfusion (h.symm.trans heq)
        | exact Option.noConfusion heq
        | (have h9 := get?_some_lt heq; omega)
    · rename_i c2 heq
      have hc : c2 = ch := by
        first
          | exact (Option.some.inj (h.symm.trans heq)).symm
          | exact (Option.some.inj heq).symm
      subst hc
      rw [if_neg hbr, if_neg hhex]

/-- Hex-digit value accumulation (`u32::from_str_radix(code, 16)`; fails on
an empty string; overflow beyond 32 bits is out of range for `from_u32`
anyway and folded into the failure). -/
def hex_string_to_nat (code : String) : Option Nat :=
  if code = "" then none
  else
    let n := code.data.foldl
      (fun acc c => acc * 16 + (if c.isDigit then c.toNat - 48
                                else if c.isUpper then c.toNat - 55
                                else c.toNat - 87)) 0
    if n < 2 ^ 32 then some n else none

/-- `Lexer::lex_escape_sequence`.  `char::from_u32` succeeds exactly on
code points below the surrogate range or between it and `0x110000`. -/
def lex_escape_sequence (src : List Char) (st : LexState) :
    Option Char × LexState :=
  match advance src st with
  | (none, st1) => (none, st1)
  | (some c, st1) =>
    match c with
    | 'n' => (some '\n', st1)
    | 't' => (some '\t', st1)
    | 'r' => (some '\r', st1)
    | '\\' => (some '\\', st1)
    | '\'' => (some '\'', st1)
    | '"' => (some '"', st1)
    | '0' => (some (Char.ofNat 0), st1)
    | 'u' =>
      if src.get? st1.pos = some '{' then
        match hex_string_to_nat (lex_unicode_hex src (advance src st1).2 "").1 with
        | some code_point =>
          if code_point < 55296 ∨ (57343 < code_point ∧ code_point < 1114112) then
            (some (Char.ofNat code_point),
             (lex_unicode_hex src (advance src st1).2 "").2)
          else (none, (lex_unicode_hex src (advance src st1).2 "").2)
        | none => (none, (lex_unicode_hex src (advance src st1).2 "").2)
      else (none, st1)
    | _ => (none, st1)

theorem lex_escape_sequence_pos_le (src : List Char) (st : LexState) :
    st.pos ≤ ((lex_escape_sequence src st).2).pos := by
  have h0 := advance_pos_le src st
  unfold lex_escape_sequence
  split
  · rename_i st1 heq
    have h2 : (advance src st).2 = st1 := by rw [heq]
    rw [h2] at h0
    exact h0
  · rename_i c st1 heq
    have h2 : (advance src st).2 = st1 := by rw [heq]
    rw [h2] at h0
    have h3 := advance_pos_le src st1
    have h4 := lex_unicode_hex_pos_le src ((advance src st1).2) ""
    split <;> first
      | exact h0
      | (split
         · split
           · split <;> ((try dsimp only); omega)
           · (try dsimp only); omega
         · exact h0)

/-- `Lexer::lex_char` (after the opening quote). -/
def lex_char (src : List Char) (fid : FileId) (st : LexState) :
    Token × LexState :=
  let start := current_pos st
  match advance src st with
  | (none, st1) =>
    (Token.new (.Character (Char.ofNat 0))
      (span_from fid start
        { st1 with errors := st1.errors ++
          ["unterminated character literal at line " ++ toString st1.line
            ++ " column " ++ toString st1.column] }),
     { st1 with errors := st1.errors ++
       ["unterminated character literal at line " ++ toString st1.line
         ++ " column " ++ toString st1.column] })
  | (some c, st1) =>
    let q : RChar × LexState :=
      if c = '\\' then
        ((lex_escape_sequence src st1).1.getD (Char.ofNat 0),
         (lex_escape_sequence src st1).2)
      else (c, st1)
    if src.get? (q.2).pos = some '\'' then
      (Token.new (.Character q.1) (span_from fid start (advance src q.2).2),
       (advance src q.2).2)
    else
      (Token.new (.Character q.1)
        (span_from fid start
          { q.2 with errors := (q.2).errors ++
            ["character literal must be single character at line "
              ++ toString (q.2).line ++ " column " ++ toString (q.2).column] }),
       { q.2 with errors := (q.2).errors ++
         ["character literal must be single character at line "
           ++ toString (q.2).line ++ " column " ++ toString (q.2).column] })

theorem lex_char_pos_le (src : List Char) (fid : FileId) (st : LexState) :
    st.pos ≤ ((lex_char src fid st).2).pos := by
  have h0 := advance_pos_le src st
  unfold lex_char
  split
  · rename_i st1 heq
    have h2 : (advance src st).2 = st1 := by rw [heq]
    rw [h2] at h0
    exact h0
  · rename_i c st1 heq
    have h2 : (advance src st).2 = st1 := by rw [heq]
    rw [h2] at h0
    have h3 := lex_escape_sequence_pos_le src st1
    have h4 := advance_pos_le src ((lex_escape_sequence src st1).2)
    have h5 := advance_pos_le src st1
    try dsimp only
    split <;> split <;> (try dsimp only) <;> omega

/-- The digit-consuming loops of `lex_number`. -/
def lex_digits (src : List Char) (st : LexState) (num_str : String) :
    String × LexState :=
  match h : src.get? st.pos with
  | none => (num_str, st)
  | some ch =>
    if ch.isDigit then lex_digits src (advance src st).2 (num_str.push ch)
    else (num_str, st)
termination_by src.length - st.pos
decreasing_by
  have h1 := get?_some_lt h
  simp [advance_pos_succ h]
  omega

theorem lex_digits_pos_le (src : List Char) (st : LexState) (num_str : String) :
    st.pos ≤ ((lex_digits src st num_str).2).pos := by
  induction st, num_str using lex_digits.induct src with
  | case1 st num_str h =>
    rw [lex_digits]
    split
    · exact Nat.le_refl _
    · rename_i c2 heq
      first
        | exact Option.noConfusion (h.symm.trans heq)
        | exact Option.noConfusion heq
        | (have h9 := get?_some_lt heq; omega)
  | case2 st num_str ch h hdig ih =>
    rw [lex_digits]
    split
    · rename_i heq
      first
        | exact Option.noConfusion (h.symm.trans heq)
        | exact Option.noConfusion heq
        | (have h9 := get?_some_lt heq; omega)
    · rename_i c2 heq
      have hc : c2 = ch := by
        first
          | exact (Option.some.inj (h.symm.trans heq)).symm
          | exact (Option.some.inj heq).symm
      subst hc
      rw [if_pos hdig]
      have h1 := advance_pos_le src st
      omega
  | case3 st num_str ch h hdig =>
    rw [lex_digits]
    split
    · rename_i heq
      first
        | exact Option.noConfusion (h.symm.trans heq)
        | exact Option.noConfusion heq
        | (have h9 := get?_some_lt heq; omega)
    · rename_i c2 heq
      have hc : c2 = ch := by
        first
          | exact (Option.some.inj (h.symm.trans heq)).symm
          | exact (Option.some.inj heq).symm
      subst hc
      rw [if_neg hdig]

/-- On a digit, the digit loop always consumes input. -/
theorem lex_digits_pos_lt (src : List Char) (st : LexState) (num_str : String)
    (c : Char) (h : src.get? st.pos = some c) (hdig : c.isDigit = true) :
    st.pos < ((lex_digits src st num_str).2).pos := by
  rw [lex_digits]
  split
  · rename_i heq
    first
        | exact Option.noConfusion (h.symm.trans heq)
        | exact Option.noConfusion heq
        | (have h9 := get?_some_lt heq; omega)
  · rename_i c2 heq
    have hc : c2 = c := by
      first
        | exact (Option.some.inj (h.symm.trans heq)).symm
        | exact (Option.some.inj heq).symm
    rw [hc]
    rw [if_pos hdig]
    have h1 := lex_digits_pos_le src ((advance src st).2) (num_str.push c)
    have h2 := advance_pos_succ h
    omega

/-- `num_str.parse::<i64>()`: digits only here; i64 overflow yields `none`. -/
def parse_i64 (s : String) : Option I64 :=
  match s.toNat? with
  | none => none
  | some n => if n ≤ 9223372036854775807 then some (n : Int) else none

/-- `num_str.parse::<f64>()` on `digits [. digits]` strings, modelled
exactly on rationals (the payload never matters to the claims). -/
def parse_f64 (s : String) : Option F64 :=
  match s.split (· = '.') with
  | [intPart] => (intPart.toNat?).map (fun n => (n : F64))
  | [intPart, fracPart] =>
    match intPart.toNat? with
    | none => none
    | some ip =>
      if fracPart = "" then some (ip : F64)
      else
        match fracPart.toNat? with
        | none => none
        | some fp =>
          some ((ip : F64) + (fp : F64) / ((10 : F64) ^ fracPart.length))
  | _ => none

/-- The token-building tail of `lex_number`: `num_str` is classified by the
presence of a dot and parsed as a double or an i64. -/
def lex_number_finish (fid : FileId) (start : Position)
    (p : String × LexState) : Token × LexState :=
  if p.1.contains '.' then
    match parse_f64 p.1 with
    | some value => (Token.new (.Double value) (span_from fid start p.2), p.2)
    | none =>
      (Token.new (.Double 0)
        (span_from fid start
          { p.2 with errors := (p.2).errors ++
            ["invalid double literal at line " ++ toString (p.2).line
              ++ " column " ++ toString (p.2).column] }),
       { p.2 with errors := (p.2).errors ++
         ["invalid double literal at line " ++ toString (p.2).line
           ++ " column " ++ toString (p.2).column] })
  else
    match parse_i64 p.1 with
    | some value => (Token.new (.Integer value) (span_from fid start p.2), p.2)
    | none =>
      (Token.new (.Integer 0)
        (span_from fid start
          { p.2 with errors := (p.2).errors ++
            ["invalid integer literal at line " ++ toString (p.2).line
              ++ " column " ++ toString (p.2).column] }),
       { p.2 with errors := (p.2).errors ++
         ["invalid integer literal at line " ++ toString (p.2).line
           ++ " column " ++ toString (p.2).column] })

theorem lex_number_finish_pos (fid : FileId) (start : Position)
    (p : String × LexState) :
    ((lex_number_finish fid start p).2).pos = (p.2).pos := by
  unfold lex_number_finish
  split <;> split <;> rfl

/-- `Lexer::lex_number`.  The Rust caller backs up one position before the
call; here the backup is folded in by calling on the pre-advance state, which
is the identical state.  A leading dot contributes the `"0."` prefix. -/
def lex_number (src : List Char) (fid : FileId) (st : LexState) :
    Token × LexState :=
  if src.get? st.pos = some '.' then
    lex_number_finish fid (current_pos st) (lex_digits src (advance src st).2 "0.")
  else if src.get? ((lex_digits src st "").2).pos = some '.' then
    lex_number_finish fid (current_pos st)
      (lex_digits src (advance src (lex_digits src st "").2).2
        ((lex_digits src st "").1.push '.'))
  else lex_number_finish fid (current_pos st) (lex_digits src st "")

/-- Called on a digit or a dot, `lex_number` always consumes input. -/
theorem lex_number_pos_lt (src : List Char) (fid : FileId) (st : LexState)
    (c : Char) (h : src.get? st.pos = some c)
    (hc : c = '.' ∨ c.isDigit = true) :
    st.pos < ((lex_number src fid st).2).pos := by
  unfold lex_number
  have hadv := advance_pos_succ h
  split
  · rename_i hdot
    rw [lex_number_finish_pos]
    have h1 := lex_digits_pos_le src ((advance src st).2) "0."
    omega
  · rename_i hnotdot
    have hdig : c.isDigit = true := by
      rcases hc with hc | hc
      · exact absurd (hc ▸ h) hnotdot
      · exact hc
    have h1 := lex_digits_pos_lt src st "" c h hdig
    split
    · rw [lex_number_finish_pos]
      have h2 := advance_pos_le src ((lex_digits src st "").2)
      have h3 := lex_digits_pos_le src
        ((advance src (lex_digits src st "").2).2) ((lex_digits src st "").1.push '.')
      omega
    · rw [lex_number_finish_pos]
      omega

/-- The identifier-consuming loop of `lex_identifier`. -/
def lex_ident_chars (src : List Char) (st : LexState) (ident : String) :
    String × LexState :=
  match h : src.get? st.pos with
  | none => (ident, st)
  | some ch =>
    if ch.isAlphanum ∨ ch = '_' then
      lex_ident_chars src (advance src st).2 (ident.push ch)
    else (ident, st)
termination_by src.length - st.pos
decreasing_by
  have h1 := get?_some_lt h
  simp [advance_pos_succ h]
  omega

theorem lex_ident_chars_pos_le (src : List Char) (st : LexState)
    (ident : String) :
    st.pos ≤ ((lex_ident_chars src st ident).2).pos := by
  induction st, ident using lex_ident_chars.induct src with
  | case1 st ident h =>
    rw [lex_ident_chars]
    split
    · exact Nat.le_refl _
    · rename_i c2 heq
      first
        | exact Option.noConfusion (h.symm.trans heq)
        | exact Option.noConfusion heq
        | (have h9 := get?_some_lt heq; omega)
  | case2 st ident ch h hid ih =>
    rw [lex_ident_chars]
    split
    · rename_i heq
      first
        | exact Option.noConfusion (h.symm.trans heq)
        | exact Option.noConfusion heq
        | (have h9 := get?_some_lt heq; omega)
    · rename_i c2 heq
      have hc : c2 = ch := by
        first
          | exact (Option.some.inj (h.symm.trans heq)).symm
          | exact (Option.some.inj heq).symm
      subst hc
      rw [if_pos hid]
      have h1 := advance_pos_le src st
      omega
  | case3 st ident ch h hid =>
    rw [lex_ident_chars]
    split
    · rename_i heq
      first
        | exact Option.noConfusion (h.symm.trans heq)
        | exact Option.noConfusion heq
        | (have h9 := get?_some_lt heq; omega)
    · rename_i c2 heq
      have hc : c2 = ch := by
        first
          | exact (Option.some.inj (h.symm.trans heq)).symm
          | exact (Option.some.inj heq).symm
      subst hc
      rw [if_neg hid]

/-- On an identifier character, the loop always consumes input. -/
theorem lex_ident_chars_pos_lt (src : List Char) (st : LexState)
    (ident : String) (c : Char) (h : src.get? st.pos = some c)
    (hid : c.isAlphanum ∨ c = '_') :
    st.pos < ((lex_ident_chars src st ident).2).pos := by
  rw [lex_ident_chars]
  split
  · rename_i heq
    first
        | exact Option.noConfusion (h.symm.trans heq)
        | exact Option.noConfusion heq
        | (have h9 := get?_some_lt heq; omega)
  · rename_i c2 heq
    have hc : c2 = c := by
      first
        | exact (Option.some.inj (h.symm.trans heq)).symm
        | exact (Option.some.inj heq).symm
    rw [hc]
    rw [if_pos hid]
    have h1 := lex_ident_chars_pos_le src ((advance src st).2) (ident.push c)
    have h2 := advance_pos_succ h
    omega

/-- `Lexer::lex_identifier` (called on the pre-advance state, like
`lex_number`). -/
def lex_identifier (src : List Char) (fid : FileId) (st : LexState) :
    Token × LexState :=
  (Token.new
    (if TokenKind.is_keyword (lex_ident_chars src st "").1 then
       (TokenKind.from_keyword (lex_ident_chars src st "").1).getD
         (.Identifier (lex_ident_chars src st "").1)
     else .Identifier (lex_ident_chars src st "").1)
    (span_from fid (current_pos st) (lex_ident_chars src st "").2),
   (lex_ident_chars src st "").2)

/-- On an identifier-start character, `lex_identifier` consumes input. -/
theorem lex_identifier_pos_lt (src : List Char) (fid : FileId) (st : LexState)
    (c : Char) (h : src.get? st.pos = some c)
    (hid : c.isAlphanum ∨ c = '_') :
    st.pos < ((lex_identifier src fid st).2).pos := by
  unfold lex_identifier
  exact lex_ident_chars_pos_lt src st "" c h hid

/-- The interpolation-name loop of `lex_interpolation_ident`. -/
def lex_interpolation_ident (src : List Char) (st : LexState) (ident : String) :
    String × LexState :=
  match h : src.get? st.pos with
  | none => (ident, st)
  | some ch =>
    if ch.isAlphanum ∨ ch = '_' ∨ ch = '.' ∨ ch = '(' ∨ ch = ')' then
      lex_interpolation_ident src (advance src st).2 (ident.push ch)
    else (ident, st)
termination_by src.length - st.pos
decreasing_by
  have h1 := get?_some_lt h
  simp [advance_pos_succ h]
  omega

theorem lex_interpolation_ident_pos_le (src : List Char) (st : LexState)
    (ident : String) :
    st.pos ≤ ((lex_interpolation_ident src st ident).2).pos := by
  induction st, ident using lex_interpolation_ident.induct src with
  | case1 st ident h =>
    rw [lex_interpolation_ident]
    split
    · exact Nat.le_refl _
    · rename_i c2 heq
      first
        | exact Option.noConfusion (h.symm.trans heq)
        | exact Option.noConfusion heq
        | (have h9 := get?_some_lt heq; omega)
  | case2 st ident ch h hid ih =>
    rw [lex_interpolation_ident]
    split
    · rename_i heq
      first
        | exact Option.noConfusion (h.symm.trans heq)
        | exact Option.noConfusion heq
        | (have h9 := get?_some_lt heq; omega)
    · rename_i c2 heq
      have hc : c2 = ch := by
        first
          | exact (Option.some.inj (h.symm.trans heq)).symm
          | exact (Option.some.inj heq).symm
      subst hc
      rw [if_pos hid]
      have h1 := advance_pos_le src st
      omega
  | case3 st ident ch h hid =>
    rw [lex_interpolation_ident]
    split
    · rename_i heq
      first
        | exact Option.noConfusion (h.symm.trans heq)
        | exact Option.noConfusion heq
        | (have h9 := get?_some_lt heq; omega)
    · rename_i c2 heq
      have hc : c2 = ch := by
        first
          | exact (Option.some.inj (h.symm.trans heq)).symm
          | exact (Option.some.inj heq).symm
      subst hc
      rw [if_neg hid]

/-- The body loop of `Lexer::lex_string` (after the opening quote). -/
def lex_string_loop (src : List Char) (fid : FileId) (st : LexState)
    (start : Position) (current_text : String) (text_start : Position) :
    Token × LexState :=
  match h : src.get? st.pos with
  | none =>
    -- unterminated string: record the error, return what we have
    (Token.new (.StrPart current_text)
      (span_from fid start
        { st with errors := st.errors ++
          ["unterminated string starting at line " ++ toString start.line
            ++ " column " ++ toString start.column] }),
     { st with errors := st.errors ++
       ["unterminated string starting at line " ++ toString start.line
         ++ " column " ++ toString start.column] })
  | some ch =>
    if ch = '"' then
      -- consume the closing quote; if interpolation queued tokens, append the
      -- final text part and pop the queue front, otherwise emit the text
      if ((advance src st).2).token_queue.isEmpty then
        if current_text ≠ "" then
          (Token.new (.StrPart current_text)
            (Span.new fid text_start
              (Position.new ((advance src st).2).line
                (((advance src st).2).column - 1))),
           (advance src st).2)
        else
          (Token.new (.StrPart "")
            (Span.new fid start
              (Position.new ((advance src st).2).line
                (((advance src st).2).column - 1))),
           (advance src st).2)
      else
        match ((advance src st).2).token_queue ++
            [Token.new (.StrPart current_text)
              (Span.new fid text_start
                (Position.new ((advance src st).2).line
                  (((advance src st).2).column - 1)))] with
        | first :: rest => (first, { (advance src st).2 with token_queue := rest })
        | [] =>
          (Token.new (.StrPart "")
            (Span.new fid start
              (Position.new ((advance src st).2).line
                (((advance src st).2).column - 1))),
           (advance src st).2)
    else if ch = '\\' then
      -- skip the backslash, decode the escape, append it if it was valid
      lex_string_loop src fid ((lex_escape_sequence src (advance src st).2).2)
        start
        (match (lex_escape_sequence src (advance src st).2).1 with
         | some e => current_text.push e
         | none => current_text)
        text_start
    else if ch = '&' then
      if src.get? (st.pos + 1) = some '&' then
        -- escaped ampersand
        lex_string_loop src fid ((advance src (advance src st).2).2) start
          (current_text.push '&') text_start
      else
        -- interpolation hole: queue the (possibly empty) pending text part
        let stq := { st with token_queue := st.token_queue ++
          [Token.new (.StrPart current_text)
            (Span.new fid text_start (current_pos st))] }
        if (match src.get? ((advance src stq).2).pos with
            | some c => c.isAlphanum || c == '_' || c == '.' || c == '(' || c == ')'
            | none => false) then
          lex_string_loop src fid
            { (lex_interpolation_ident src (advance src stq).2 "").2 with
              token_queue :=
                ((lex_interpolation_ident src (advance src stq).2 "").2).token_queue ++
                [Token.new
                  (if ((lex_interpolation_ident src (advance src stq).2 "").1).contains '.'
                      ∨ ((lex_interpolation_ident src (advance src stq).2 "").1).contains '(' then
                    TokenKind.InterpPath (lex_interpolation_ident src (advance src stq).2 "").1
                  else
                    TokenKind.InterpIdent (lex_interpolation_ident src (advance src stq).2 "").1)
                  (Span.new fid (current_pos stq)
                    (current_pos (lex_interpolation_ident src (advance src stq).2 "").2))] }
            start ""
            (current_pos
              ({ (lex_interpolation_ident src (advance src stq).2 "").2 with
                 token_queue :=
                   ((lex_interpolation_ident src (advance src stq).2 "").2).token_queue ++
                   [Token.new
                     (if ((lex_interpolation_ident src (advance src stq).2 "").1).contains '.'
                         ∨ ((lex_interpolation_ident src (advance src stq).2 "").1).contains '(' then
                       TokenKind.InterpPath (lex_interpolation_ident src (advance src stq).2 "").1
                     else
                       TokenKind.InterpIdent (lex_interpolation_ident src (advance src stq).2 "").1)
                     (Span.new fid (current_pos stq)
                       (current_pos (lex_interpolation_ident src (advance src stq).2 "").2))] } : LexState))
        else
          lex_string_loop src fid
            { (advance src stq).2 with errors := ((advance src stq).2).errors ++
              ["invalid interpolation at line " ++ toString ((advance src stq).2).line
                ++ " column " ++ toString ((advance src stq).2).column] }
            start "&" text_start
    else
      lex_string_loop src fid ((advance src st).2) start
        (current_text.push ch) text_start
termination_by src.length - st.pos
decreasing_by
  · -- backslash: one `advance` plus a monotone escape decoder
    have h1 := get?_some_lt h
    have h2 := advance_pos_succ h
    have h3 := lex_escape_sequence_pos_le src ((advance src st).2)
    omega
  · -- escaped ampersand: two advances
    have h1 := get?_some_lt h
    have h2 := advance_pos_succ h
    have h3 := advance_pos_le src ((advance src st).2)
    omega
  · -- valid interpolation: the ampersand is consumed
    have h1 := get?_some_lt h
    try dsimp only
    have h2 : src.get? ({ st with token_queue := st.token_queue ++
      [Token.new (.StrPart current_text)
        (Span.new fid text_start (current_pos st))] } : LexState).pos = some ch := h
    have h3 := advance_pos_succ h2
    have h4 := lex_interpolation_ident_pos_le src
      ((advance src { st with token_queue := st.token_queue ++
        [Token.new (.StrPart current_text)
          (Span.new fid text_start (current_pos st))] }).2) ""
    try dsimp only at h3
    omega
  · -- invalid interpolation: the ampersand is consumed
    have h1 := get?_some_lt h
    try dsimp only
    have h2 : src.get? ({ st with token_queue := st.token_queue ++
      [Token.new (.StrPart current_text)
        (Span.new fid text_start (current_pos st))] } : LexState).pos = some ch := h
    have h3 := advance_pos_succ h2
    try dsimp only at h3
    omega
  · -- ordinary string character
    have h1 := get?_some_lt h
    have h2 := advance_pos_succ h
    omega

/-- `Lexer::lex_string` (after the opening quote). -/
def lex_string (src : List Char) (fid : FileId) (st : LexState) :
    Token × LexState :=
  let start := current_pos st
  lex_string_loop src fid st start "" start

theorem lex_string_loop_pos_le (src : List Char) (fid : FileId)
    (st : LexState) (start : Position) (current_text : String)
    (text_start : Position) :
    st.pos ≤ ((lex_string_loop src fid st start current_text text_start).2).pos := by
  induction st, start, current_text, text_start
    using lex_string_loop.induct src fid with
  | case1 st start ct ts h =>
    rw [lex_string_loop]
    split
    · exact Nat.le_refl _
    · rename_i c2 heq
      first
        | exact Option.noConfusion (h.symm.trans heq)
        | exact Option.noConfusion heq
  | case2 st start ct ts hq hne h =>
    rw [lex_string_loop]
    split
    · exact Nat.le_refl _
    · rename_i c2 heq
      have hc : c2 = '"' := by
        first
          | exact (Option.some.inj (h.symm.trans heq)).symm
          | exact (Option.some.inj heq).symm
      rw [hc]
      rw [if_pos rfl, if_pos hq, if_pos hne]
      exact advance_pos_le src st
  | case3 st start ct ts hq hne h =>
    rw [lex_string_loop]
    split
    · exact Nat.le_refl _
    · rename_i c2 heq
      have hc : c2 = '"' := by
        first
          | exact (Option.some.inj (h.symm.trans heq)).symm
          | exact (Option.some.inj heq).symm
      rw [hc]
      rw [if_pos rfl, if_pos hq, if_neg hne]
      exact advance_pos_le src st
  | case4 st start ct ts hq first1 rest heq2 h =>
    rw [lex_string_loop]
    split
    · exact Nat.le_refl _
    · rename_i c2 heq
      have hc : c2 = '"' := by
        first
          | exact (Option.some.inj (h.symm.trans heq)).symm
          | exact (Option.some.inj heq).symm
      rw [hc]
      rw [if_pos rfl, if_neg hq, heq2]
      try dsimp only
      exact advance_pos_le src st
  | case5 st start ct ts hq heq2 h =>
    rw [lex_string_loop]
    split
    · exact Nat.le_refl _
    · rename_i c2 heq
      have hc : c2 = '"' := by
        first
          | exact (Option.some.inj (h.symm.trans heq)).symm
          | exact (Option.some.inj heq).symm
      rw [hc]
      rw [if_pos rfl, if_neg hq, heq2]
      try dsimp only
      exact advance_pos_le src st
  | case6 st start ct ts h hne ih =>
    rw [lex_string_loop]
    split
    · exact Nat.le_refl _
    · rename_i c2 heq
      have hc : c2 = '\\' := by
        first
          | exact (Option.some.inj (h.symm.trans heq)).symm
          | exact (Option.some.inj heq).symm
      rw [hc]
      rw [if_neg hne, if_pos rfl]
      have h1 := advance_pos_succ h
      have h2 := lex_escape_sequence_pos_le src ((advance src st).2)
      omega
  | case7 st start ct ts h2 h hne hne2 ih =>
    rw [lex_string_loop]
    split
    · exact Nat.le_refl _
    · rename_i c2 heq
      have hc : c2 = '&' := by
        first
          | exact (Option.some.inj (h.symm.trans heq)).symm
          | exact (Option.some.inj heq).symm
      rw [hc]
      rw [if_neg hne, if_neg hne2, if_pos rfl, if_pos h2]
      have h1 := advance_pos_succ h
      have h3 := advance_pos_le src ((advance src st).2)
      omega
  | case8 st start ct ts hnn stq hvalid h hne hne2 ih =>
    rw [lex_string_loop]
    split
    · exact Nat.le_refl _
    · rename_i c2 heq
      have hc : c2 = '&' := by
        first
          | exact (Option.some.inj (h.symm.trans heq)).symm
          | exact (Option.some.inj heq).symm
      rw [hc]
      rw [if_neg hne, if_neg hne2, if_pos rfl, if_neg hnn]
      rw [if_pos hvalid]
      have h1 : src.get? stq.pos = some '&' := h
      have h3 := advance_pos_succ h1
      have h4 : stq.pos = st.pos := rfl
      have h5 := lex_interpolation_ident_pos_le src ((advance src stq).2) ""
      unfold_let stq at *
      try simp only [dite_eq_ite] at *
      try dsimp only at *
      omega
  | case9 st start ct ts hnn stq hvalid h hne hne2 ih =>
    rw [lex_string_loop]
    split
    · exact Nat.le_refl _
    · rename_i c2 heq
      have hc : c2 = '&' := by
        first
          | exact (Option.some.inj (h.symm.trans heq)).symm
          | exact (Option.some.inj heq).symm
      rw [hc]
      rw [if_neg hne, if_neg hne2, if_pos rfl, if_neg hnn]
      rw [if_neg hvalid]
      have h1 : src.get? stq.pos = some '&' := h
      have h3 := advance_pos_succ h1
      have h4 : stq.pos = st.pos := rfl
      unfold_let stq at *
      try simp only [dite_eq_ite] at *
      try dsimp only at *
      omega
  | case10 st start ct ts ch h hne hne2 hne3 ih =>
    rw [lex_string_loop]
    split
    · exact Nat.le_refl _
    · rename_i c2 heq
      have hc : c2 = ch := by
        first
          | exact (Option.some.inj (h.symm.trans heq)).symm
          | exact (Option.some.inj heq).symm
      rw [hc]
      rw [if_neg hne, if_neg hne2, if_neg hne3]
      have h1 := advance_pos_succ h
      omega

theorem lex_string_pos_le (src : List Char) (fid : FileId) (st : LexState) :
    st.pos ≤ ((lex_string src fid st).2).pos := by
  unfold lex_string
  exact lex_string_loop_pos_le src fid st (current_pos st) "" (current_pos st)

theorem lex_number_pos_le (src : List Char) (fid : FileId) (st : LexState) :
    st.pos ≤ ((lex_number src fid st).2).pos := by
  unfold lex_number
  have d0 := lex_digits_pos_le src st ""
  split
  · rw [lex_number_finish_pos]
    have h1 := advance_pos_le src st
    have h2 := lex_digits_pos_le src ((advance src st).2) "0."
    omega
  · split
    · rw [lex_number_finish_pos]
      have h2 := advance_pos_le src ((lex_digits src st "").2)
      have h3 := lex_digits_pos_le src ((advance src (lex_digits src st "").2).2)
        ((lex_digits src st "").1.push '.')
      omega
    · rw [lex_number_finish_pos]
      omega

theorem lex_identifier_pos_le (src : List Char) (fid : FileId) (st : LexState) :
    st.pos ≤ ((lex_identifier src fid st).2).pos := by
  unfold lex_identifier
  exact lex_ident_chars_pos_le src st ""

theorem isAlpha_isAlphanum {c : Char} (h : c.isAlpha = true) :
    c.isAlphanum = true := by
  simp [Char.isAlphanum, h]

theorem lex_identifier_pos_lt2 (src : List Char) (fid : FileId) (st : LexState)
    (c : Char) (h : src.get? st.pos = some c)
    (hid : c.isAlpha = true ∨ c = '_') :
    st.pos < ((lex_identifier src fid st).2).pos := by
  rcases hid with ha | ha
  · exact lex_identifier_pos_lt src fid st c h (Or.inl (isAlpha_isAlphanum ha))
  · exact lex_identifier_pos_lt src fid st c h (Or.inr ha)

theorem if_tab_advance_pos_le (src : List Char) (st : LexState) :
    st.pos ≤ (if src.get? (skip_line_comment src st).pos = some '\t'
              then (advance src (skip_line_comment src st)).2
              else skip_line_comment src st).pos := by
  have h1 := skip_line_comment_pos_le src st
  split
  · have h2 := advance_pos_le src (skip_line_comment src st)
    omega
  · omega

/-- Appending a lexer error does not move the cursor. -/
def add_error (st : LexState) (msg : String) : LexState :=
  { st with errors := st.errors ++ [msg] }

theorem add_error_pos (st : LexState) (msg : String) :
    (add_error st msg).pos = st.pos := rfl

/-- Result of one step of `Lexer::next_token`: either a token (with the
cursor not moved backwards, and moved strictly forwards unless the input was
exhausted), or — for the whitespace/comment/error arms, whose Rust bodies end
in `return self.next_token()` — the state to try again from, strictly further
along the input. -/
def NextTokenRes (src : List Char) (st : LexState) : Type :=
  { r : Token × LexState // st.pos ≤ ((r.2).pos) ∧
      (src.get? st.pos = none ∨ st.pos < ((r.2).pos)) } ⊕
  { st2 : LexState // st.pos < st2.pos ∧ st.pos < src.length }

def NextTokenRes.tok {src : List Char} {st : LexState} (r : Token × LexState)
    (hp : st.pos < ((r.2).pos)) : NextTokenRes src st :=
  Sum.inl ⟨r, Nat.le_of_lt hp, Or.inr hp⟩

def NextTokenRes.again {src : List Char} {st : LexState} (st2 : LexState)
    (h1 : st.pos < st2.pos) (h2 : st.pos < src.length) : NextTokenRes src st :=
  Sum.inr ⟨st2, h1, h2⟩

/-- The dispatch body of `Lexer::next_token` (one step, no recursion). -/
def next_token_step (src : List Char) (fid : FileId) (st : LexState) :
    NextTokenRes src st :=
  match h : src.get? st.pos with
  | none =>
    Sum.inl ⟨(Token.new .Eof (Span.single fid (current_pos st)), st),
      Nat.le_refl _, Or.inl h⟩
  | some ch =>
    let start := current_pos st
    let st1 := (advance src st).2
    have hadv : st1.pos = st.pos + 1 := advance_pos_succ h
    have hlen : st.pos < src.length := get?_some_lt h
    if ch = '+' then
      if (match_char src st1 '=').1 then
        .tok (Token.new .PlusAssign (span_from fid start (match_char src st1 '=').2),
              (match_char src st1 '=').2)
          (by have := match_char_pos_le src st1 '='; (try dsimp only); omega)
      else if (match_char src st1 '+').1 then
        .tok (Token.new .Inc (span_from fid start (match_char src st1 '+').2),
              (match_char src st1 '+').2)
          (by have := match_char_pos_le src st1 '+'; (try dsimp only); omega)
      else .tok (Token.new .Plus (span_from fid start st1), st1) (by (try dsimp only); omega)
    else if ch = '-' then
      if (match_char src st1 '=').1 then
        .tok (Token.new .MinusAssign (span_from fid start (match_char src st1 '=').2),
              (match_char src st1 '=').2)
          (by have := match_char_pos_le src st1 '='; (try dsimp only); omega)
      else if (match_char src st1 '>').1 then
        .tok (Token.new .Arrow (span_from fid start (match_char src st1 '>').2),
              (match_char src st1 '>').2)
          (by have := match_char_pos_le src st1 '>'; (try dsimp only); omega)
      else if (match_char src st1 '-').1 then
        .tok (Token.new .Dec (span_from fid start (match_char src st1 '-').2),
              (match_char src st1 '-').2)
          (by have := match_char_pos_le src st1 '-'; (try dsimp only); omega)
      else .tok (Token.new .Minus (span_from fid start st1), st1) (by (try dsimp only); omega)
    else if ch = '*' then
      if (match_char src st1 '*').1 then
        if (match_char src (match_char src st1 '*').2 '=').1 then
          .tok (Token.new .PowAssign
                 (span_from fid start (match_char src (match_char src st1 '*').2 '=').2),
                (match_char src (match_char src st1 '*').2 '=').2)
            (by have a := match_char_pos_le src st1 '*'
                have b := match_char_pos_le src (match_char src st1 '*').2 '='
                (try dsimp only); omega)
        else
          .tok (Token.new .Pow (span_from fid start (match_char src st1 '*').2),
                (match_char src st1 '*').2)
            (by have := match_char_pos_le src st1 '*'; (try dsimp only); omega)
      else if (match_char src st1 '=').1 then
        .tok (Token.new .StarAssign (span_from fid start (match_char src st1 '=').2),
              (match_char src st1 '=').2)
          (by have := match_char_pos_le src st1 '='; (try dsimp only); omega)
      else .tok (Token.new .Star (span_from fid start st1), st1) (by (try dsimp only); omega)
    else if ch = '/' then
      if (match_char src st1 '/').1 then
        -- line comment; a tab right after it is plain whitespace here
        .again
          (if src.get? (skip_line_comment src (match_char src st1 '/').2).pos
              = some '\t'
           then (advance src (skip_line_comment src (match_char src st1 '/').2)).2
           else skip_line_comment src (match_char src st1 '/').2)
          (by have a := match_char_pos_le src st1 '/'
              have b := if_tab_advance_pos_le src (match_char src st1 '/').2
              omega)
          hlen
      else if (match_char src st1 '*').1 then
        .again (skip_block_comment src (match_char src st1 '*').2 1)
          (by have a := match_char_pos_le src st1 '*'
              have b := skip_block_comment_pos_le src (match_char src st1 '*').2 1
              omega)
          hlen
      else if (match_char src st1 '=').1 then
        .tok (Token.new .SlashAssign (span_from fid start (match_char src st1 '=').2),
              (match_char src st1 '=').2)
          (by have := match_char_pos_le src st1 '='; (try dsimp only); omega)
      else .tok (Token.new .Slash (span_from fid start st1), st1) (by (try dsimp only); omega)
    else if ch = '%' then
      if (match_char src st1 '=').1 then
        .tok (Token.new .PercentAssign (span_from fid start (match_char src st1 '=').2),
              (match_char src st1 '=').2)
          (by have := match_char_pos_le src st1 '='; (try dsimp only); omega)
      else .tok (Token.new .Percent (span_from fid start st1), st1) (by (try dsimp only); omega)
    else if ch = '=' then
      if (match_char src st1 '=').1 then
        .tok (Token.new .Eq (span_from fid start (match_char src st1 '=').2),
              (match_char src st1 '=').2)
          (by have := match_char_pos_le src st1 '='; (try dsimp only); omega)
      else .tok (Token.new .Assign (span_from fid start st1), st1) (by (try dsimp only); omega)
    else if ch = '!' then
      if (match_char src st1 '=').1 then
        .tok (Token.new .Ne (span_from fid start (match_char src st1 '=').2),
              (match_char src st1 '=').2)
          (by have := match_char_pos_le src st1 '='; (try dsimp only); omega)
      else .tok (Token.new .Not (span_from fid start st1), st1) (by (try dsimp only); omega)
    else if ch = '<' then
      if (match_char src st1 '=').1 then
        .tok (Token.new .Le (span_from fid start (match_char src st1 '=').2),
              (match_char src st1 '=').2)
          (by have := match_char_pos_le src st1 '='; (try dsimp only); omega)
      else if (match_char src st1 '<').1 then
        .tok (Token.new .Shl (span_from fid start (match_char src st1 '<').2),
              (match_char src st1 '<').2)
          (by have := match_char_pos_le src st1 '<'; (try dsimp only); omega)
      else .tok (Token.new .Lt (span_from fid start st1), st1) (by (try dsimp only); omega)
    else if ch = '>' then
      if (match_char src st1 '=').1 then
        .tok (Token.new .Ge (span_from fid start (match_char src st1 '=').2),
              (match_char src st1 '=').2)
          (by have := match_char_pos_le src st1 '='; (try dsimp only); omega)
      else if (match_char src st1 '>').1 then
        .tok (Token.new .Shr (span_from fid start (match_char src st1 '>').2),
              (match_char src st1 '>').2)
          (by have := match_char_pos_le src st1 '>'; (try dsimp only); omega)
      else .tok (Token.new .Gt (span_from fid start st1), st1) (by (try dsimp only); omega)
    else if ch = '&' then
      if (match_char src st1 '&').1 then
        .tok (Token.new .And (span_from fid start (match_char src st1 '&').2),
              (match_char src st1 '&').2)
          (by have := match_char_pos_le src st1 '&'; (try dsimp only); omega)
      else .tok (Token.new .BitAnd (span_from fid start st1), st1) (by (try dsimp only); omega)
    else if ch = '|' then
      if (match_char src st1 '|').1 then
        .tok (Token.new .Or (span_from fid start (match_char src st1 '|').2),
              (match_char src st1 '|').2)
          (by have := match_char_pos_le src st1 '|'; (try dsimp only); omega)
      else .tok (Token.new .BitOr (span_from fid start st1), st1) (by (try dsimp only); omega)
    else if ch = '^' then .tok (Token.new .BitXor (span_from fid start st1), st1) (by (try dsimp only); omega)
    else if ch = '~' then .tok (Token.new .BitNot (span_from fid start st1), st1) (by (try dsimp only); omega)
    else if ch = '?' then .tok (Token.new .Question (span_from fid start st1), st1) (by (try dsimp only); omega)
    else if ch = ':' then
      if (match_char src st1 '=').1 then
        .tok (Token.new .InitAssign (span_from fid start (match_char src st1 '=').2),
              (match_char src st1 '=').2)
          (by have := match_char_pos_le src st1 '='; (try dsimp only); omega)
      else .tok (Token.new .Colon (span_from fid start st1), st1) (by (try dsimp only); omega)
    else if ch = '(' then .tok (Token.new .LeftParen (span_from fid start st1), st1) (by (try dsimp only); omega)
    else if ch = ')' then .tok (Token.new .RightParen (span_from fid start st1), st1) (by (try dsimp only); omega)
    else if ch = '[' then .tok (Token.new .LeftBracket (span_from fid start st1), st1) (by (try dsimp only); omega)
    else if ch = ']' then .tok (Token.new .RightBracket (span_from fid start st1), st1) (by (try dsimp only); omega)
    else if ch = '{' then .tok (Token.new .LeftBrace (span_from fid start st1), st1) (by (try dsimp only); omega)
    else if ch = '}' then .tok (Token.new .RightBrace (span_from fid start st1), st1) (by (try dsimp only); omega)
    else if ch = ',' then .tok (Token.new .Comma (span_from fid start st1), st1) (by (try dsimp only); omega)
    else if ch = ';' then .tok (Token.new .Semicolon (span_from fid start st1), st1) (by (try dsimp only); omega)
    else if hdot : ch = '.' then
      match src.get? st1.pos with
      | some next_ch =>
        if next_ch.isDigit then
          .tok (lex_number src fid st)
            (lex_number_pos_lt src fid st ch h (Or.inl hdot))
        else .tok (Token.new .Dot (span_from fid start st1), st1) (by (try dsimp only); omega)
      | none => .tok (Token.new .Dot (span_from fid start st1), st1) (by (try dsimp only); omega)
    else if ch = '"' then
      .tok (lex_string src fid st1)
        (by have := lex_string_pos_le src fid st1; (try dsimp only); omega)
    else if ch = '\'' then
      .tok (lex_char src fid st1)
        (by have := lex_char_pos_le src fid st1; (try dsimp only); omega)
    else if ch = ' ' then .again st1 (by (try dsimp only); omega) hlen
    else if ch = '\t' then .again st1 (by (try dsimp only); omega) hlen
    else if hdig : ch.isDigit then
      .tok (lex_number src fid st) (lex_number_pos_lt src fid st ch h (Or.inr hdig))
    else if hid : ch.isAlpha ∨ ch = '_' then
      .tok (lex_identifier src fid st) (lex_identifier_pos_lt2 src fid st ch h hid)
    else
      .again
        (add_error st1 ("unexpected character '" ++ String.singleton ch
          ++ "' at line " ++ toString st1.line ++ " column " ++ toString st1.column))
        (by have := add_error_pos st1 ("unexpected character '" ++ String.singleton ch
              ++ "' at line " ++ toString st1.line ++ " column " ++ toString st1.column)
            omega)
        hlen

/-- `Lexer::next_token`.  The whitespace/comment/error arms of the Rust code
end in `return self.next_token()`; `next_token_step` reports those as a
retry state, consumed here. -/
def next_token (src : List Char) (fid : FileId) (st : LexState) :
    Token × LexState :=
  match next_token_step src fid st with
  | Sum.inl r => r.1
  | Sum.inr st2 => next_token src fid st2.1
termination_by src.length - st.pos
decreasing_by
  obtain ⟨h1, h2⟩ := st2.2
  omega

/-- `next_token` never moves the cursor backwards. -/
theorem next_token_pos_le2 (src : List Char) (fid : FileId) (st : LexState) :
    st.pos ≤ ((next_token src fid st).2).pos := by
  suffices H : ∀ (n : Nat) (st : LexState), src.length - st.pos ≤ n →
      st.pos ≤ ((next_token src fid st).2).pos from
    H (src.length - st.pos) st (Nat.le_refl _)
  intro n
  induction n with
  | zero =>
    intro st hn
    rw [next_token]
    split
    · rename_i r heq
      exact r.2.1
    · rename_i st2 heq
      have h1 := st2.2.1
      have h2 := st2.2.2
      omega
  | succ n ih =>
    intro st hn
    rw [next_token]
    split
    · rename_i r heq
      exact r.2.1
    · rename_i st2 heq
      have h1 := st2.2.1
      have h2 := st2.2.2
      have h3 := ih st2.1 (by omega)
      omega

/-- Off the end of input, `next_token` consumes at least one character. -/
theorem next_token_pos_lt (src : List Char) (fid : FileId) (st : LexState)
    (c : Char) (h : src.get? st.pos = some c) :
    st.pos < ((next_token src fid st).2).pos := by
  rw [next_token]
  split
  · rename_i r heq
    rcases r.2.2 with hnone | hstrict
    · exact Option.noConfusion (hnone.symm.trans h)
    · exact hstrict
  · rename_i st2 heq
    exact Nat.lt_of_lt_of_le st2.2.1 (next_token_pos_le2 src fid st2.1)


mutual

/-- The `at_line_start = true` iterations of the `Lexer::lex` main loop:
consume leading tabs, skip empty lines entirely, otherwise apply the
indentation machinery and fall through to the in-line iterations. -/
def lex_entry (src : List Char) (fid : FileId) (st : LexState)
    (tokens : List Token) : List Token × LexState :=
  if src.length ≤ st.pos then (tokens, st)
  else
    if is_empty_line src ((count_and_consume_leading_tabs src st).2).pos then
      lex_entry src fid
        (skip_empty_line src ((count_and_consume_leading_tabs src st).2)) tokens
    else
      lex_body src fid
        ((handle_indentation fid ((count_and_consume_leading_tabs src st).2)
          ((count_and_consume_leading_tabs src st).1) tokens).2)
        ((handle_indentation fid ((count_and_consume_leading_tabs src st).2)
          ((count_and_consume_leading_tabs src st).1) tokens).1)

termination_by (src.length - st.pos, st.token_queue.length,
  if src.get? st.pos = some '\t' then 0 else 2)
decreasing_by
  · -- empty line: strictly consumes characters
    simp_wf
    apply Prod.Lex.left
    have hc := count_tabs_pos src st
    have hsk2 := skip_empty_line_pos_le src ((count_and_consume_leading_tabs src st).2)
    by_cases h0 : count_leading_tabs src st.pos = 0
    · have hsk := @skip_empty_line_pos_lt src
        ((count_and_consume_leading_tabs src st).2) (by omega)
      omega
    · omega
  · -- non-empty line: either tabs were consumed or the phase drops
    simp_wf
    have hc := count_tabs_pos src st
    have hcq := count_tabs_queue src st
    have hh := handle_indentation_pos fid ((count_and_consume_leading_tabs src st).2)
      ((count_and_consume_leading_tabs src st).1) tokens
    have hhq := handle_indentation_queue fid ((count_and_consume_leading_tabs src st).2)
      ((count_and_consume_leading_tabs src st).1) tokens
    by_cases h0 : count_leading_tabs src st.pos = 0
    · have hnt : ¬src.get? st.pos = some '\t' := by
        intro hcontra
        have := count_leading_tabs_ge_one hcontra
        omega
      rw [List.get?_eq_getElem?] at hnt
      rw [hh, hc, h0, Nat.add_zero, hhq, hcq, if_neg hnt]
      apply Prod.Lex.right
      apply Prod.Lex.right
      omega
    · apply Prod.Lex.left
      omega

/-- The `at_line_start = false` iterations of the `Lexer::lex` main loop:
skip spaces, let tabs re-enter the indentation machinery behind a `Newline`,
consume newlines, drain pending indents and the interpolation queue, and
otherwise emit `next_token` with its post-processing. -/
def lex_body (src : List Char) (fid : FileId) (st : LexState)
    (tokens : List Token) : List Token × LexState :=
  if src.length ≤ st.pos then (tokens, st)
  else if src.get? st.pos = some ' ' then
    lex_body src fid (advance src st).2 tokens
  else if src.get? st.pos = some '\t' then
    lex_entry src fid st (tokens ++ [Token.new .Newline (current_span fid st)])
  else if src.get? st.pos = some '\n' ∨ src.get? st.pos = some '\r' then
    lex_entry src fid
      ((advance src (if src.get? st.pos = some '\r' ∧ src.get? (st.pos + 1) = some '\n'
                     then (advance src st).2 else st)).2)
      (tokens ++ [Token.new .Newline (current_span fid
        ((advance src (if src.get? st.pos = some '\r' ∧ src.get? (st.pos + 1) = some '\n'
                       then (advance src st).2 else st)).2))])
  else
    match hq : st.token_queue with
    | t :: q =>
      lex_body src fid { st with pending_indents := [], token_queue := q }
        ((tokens ++ st.pending_indents) ++ [t])
    | [] =>
      if ((next_token src fid { st with pending_indents := [] }).1).kind.isEof then
        (tokens ++ st.pending_indents,
         (next_token src fid { st with pending_indents := [] }).2)
      else if ((next_token src fid { st with pending_indents := [] }).1).kind.isNewline then
        if ((next_token src fid { st with pending_indents := [] }).2).skip_next_line_start then
          lex_body src fid
            { (next_token src fid { st with pending_indents := [] }).2 with
              token_queue := [], skip_next_line_start := false }
            (((tokens ++ st.pending_indents) ++
              [(next_token src fid { st with pending_indents := [] }).1]) ++
             ((next_token src fid { st with pending_indents := [] }).2).token_queue)
        else
          lex_entry src fid
            { (next_token src fid { st with pending_indents := [] }).2 with
              token_queue := [] }
            (((tokens ++ st.pending_indents) ++
              [(next_token src fid { st with pending_indents := [] }).1]) ++
             ((next_token src fid { st with pending_indents := [] }).2).token_queue)
      else if src.get? ((next_token src fid { st with pending_indents := [] }).2).pos
          = some '\t' then
        lex_body src fid
          { (advance src { (next_token src fid { st with pending_indents := [] }).2 with
              token_queue := [], pending_indents := [] }).2 with
            indent_stack :=
              (((advance src { (next_token src fid { st with pending_indents := [] }).2 with
                token_queue := [], pending_indents := [] }).2).indent_stack.headD 0 + 1) ::
              ((advance src { (next_token src fid { st with pending_indents := [] }).2 with
                token_queue := [], pending_indents := [] }).2).indent_stack }
          (((((tokens ++ st.pending_indents) ++
              [(next_token src fid { st with pending_indents := [] }).1]) ++
             ((next_token src fid { st with pending_indents := [] }).2).token_queue) ++
            ((next_token src fid { st with pending_indents := [] }).2).pending_indents) ++
           [Token.new .Newline (current_span fid
             ((advance src { (next_token src fid { st with pending_indents := [] }).2 with
               token_queue := [], pending_indents := [] }).2)),
            Token.new .Indent (Span.single fid
              (Position.new
                ((advance src { (next_token src fid { st with pending_indents := [] }).2 with
                  token_queue := [], pending_indents := [] }).2).line 1))])
      else
        lex_body src fid
          { (next_token src fid { st with pending_indents := [] }).2 with
            token_queue := [] }
          (((tokens ++ st.pending_indents) ++
            [(next_token src fid { st with pending_indents := [] }).1]) ++
           ((next_token src fid { st with pending_indents := [] }).2).token_queue)

termination_by (src.length - st.pos, st.token_queue.length, 1)
decreasing_by
  · -- space skipped
    simp_wf
    apply Prod.Lex.left
    have h2 := @advance_pos_succ src st ' ' (by assumption)
    omega
  · -- mid-line tab: same position, but the entry phase is smaller
    simp_wf
    have ht : src.get? st.pos = some '\t' := by assumption
    rw [List.get?_eq_getElem?] at ht
    rw [if_pos ht]
    apply Prod.Lex.right
    apply Prod.Lex.right
    omega
  · -- newline consumed
    simp_wf
    apply Prod.Lex.left
    have hd : src.get? st.pos = some '\n' ∨ src.get? st.pos = some '\r' := by
      assumption
    split
    · rename_i hcr
      simp only [← List.get?_eq_getElem?] at hcr
      have h1 := @advance_pos_succ src st '\r' hcr.1
      have h2 := advance_pos_le src ((advance src st).2)
      omega
    · rcases hd with hd | hd <;> (have h1 := @advance_pos_succ src st _ hd; omega)
  · -- interpolation queue pop: same position, shorter queue
    simp_wf
    rw [hq]
    apply Prod.Lex.right
    apply Prod.Lex.left
    simp only [List.length_cons]
    omega
  · -- newline token with skip_next_line_start: input strictly consumed
    simp_wf
    apply Prod.Lex.left
    have hlt : st.pos < src.length := by omega
    have hsome := List.get?_eq_get hlt
    have hnt := next_token_pos_lt src fid { st with pending_indents := [] } _ hsome
    try dsimp only at hnt
    omega
  · -- newline token: input strictly consumed
    simp_wf
    apply Prod.Lex.left
    have hlt : st.pos < src.length := by omega
    have hsome := List.get?_eq_get hlt
    have hnt := next_token_pos_lt src fid { st with pending_indents := [] } _ hsome
    try dsimp only at hnt
    omega
  · -- tab after a token: input strictly consumed
    simp_wf
    apply Prod.Lex.left
    have hlt : st.pos < src.length := by omega
    have hsome := List.get?_eq_get hlt
    have hnt := next_token_pos_lt src fid { st with pending_indents := [] } _ hsome
    have hadv := advance_pos_le src
      { (next_token src fid { st with pending_indents := [] }).2 with
        token_queue := [], pending_indents := [] }
    try dsimp only at hnt hadv
    omega
  · -- ordinary token: input strictly consumed
    simp_wf
    apply Prod.Lex.left
    have hlt : st.pos < src.length := by omega
    have hsome := List.get?_eq_get hlt
    have hnt := next_token_pos_lt src fid { st with pending_indents := [] } _ hsome
    try dsimp only at hnt
    omega

end

/-- The trailing-`Dedent` loop of `Lexer::lex`
(`while indent_stack.len() > 1 { pop; emit Dedent }`). -/
def emit_trailing_dedents (fid : FileId) (st : LexState) (tokens : List Token) :
    List Token × LexState :=
  match h : st.indent_stack with
  | [] => (tokens, st)
  | [_] => (tokens, st)
  | _ :: rest =>
    emit_trailing_dedents fid { st with indent_stack := rest }
      (tokens ++ [Token.new .Dedent (Span.single fid (Position.new st.line st.column))])
termination_by st.indent_stack.length
decreasing_by simp [h]

/-- The epilogue of `Lexer::lex`: a final `Newline` unless the last token
already is one, the trailing `Dedent`s, and the final `Eof`. -/
def lex_epilogue (fid : FileId) (st : LexState) (tokens : List Token) :
    List Token × LexState :=
  let tokens1 :=
    match tokens.getLast? with
    | some t =>
      if t.kind.isNewline then tokens
      else tokens ++ [Token.new .Newline (current_span fid st)]
    | none => tokens ++ [Token.new .Newline (current_span fid st)]
  ((emit_trailing_dedents fid st tokens1).1 ++
    [Token.new .Eof (Span.single fid
      (Position.new ((emit_trailing_dedents fid st tokens1).2).line
        ((emit_trailing_dedents fid st tokens1).2).column))],
   (emit_trailing_dedents fid st tokens1).2)

/-- `Lexer::lex`: run the main loop from `Lexer::new`, then the epilogue;
yield the tokens and the collected errors. -/
def lex (source : String) (fid : FileId) : List Token × List String :=
  ((lex_epilogue fid (lex_entry source.data fid init []).2
      (lex_entry source.data fid init []).1).1,
   ((lex_epilogue fid (lex_entry source.data fid init []).2
      (lex_entry source.data fid init []).1).2).errors)

theorem emit_trailing_dedents_shape (fid : FileId) (st : LexState)
    (tokens : List Token) :
    ∃ ds, (emit_trailing_dedents fid st tokens).1 = tokens ++ ds ∧
      ∀ t ∈ ds, t.kind = TokenKind.Dedent := by
  induction st, tokens using emit_trailing_dedents.induct fid with
  | case1 st tokens h =>
    refine ⟨[], ?_, by simp⟩
    rw [emit_trailing_dedents]
    split
    · simp
    · simp
    · rename_i head2 rest2 hfalse heq
      rw [h] at heq
      simp at heq
  | case2 st tokens head h =>
    refine ⟨[], ?_, by simp⟩
    rw [emit_trailing_dedents]
    split
    · simp
    · simp
    · rename_i head2 rest2 hfalse heq
      rw [h] at heq
      simp at heq
      exact absurd heq.2 hfalse
  | case3 st tokens head rest hne h ih =>
    obtain ⟨ds, hds, hall⟩ := ih
    refine ⟨Token.new TokenKind.Dedent
        (Span.single fid (Position.new st.line st.column)) :: ds, ?_, ?_⟩
    · rw [emit_trailing_dedents]
      split
      · rename_i heq
        rw [h] at heq
        simp at heq
      · rename_i x heq
        rw [h] at heq
        simp at heq
        exact absurd heq.2 hne
      · rename_i head2 rest2 hfalse heq
        have hh := h.symm.trans heq
        simp at hh
        obtain ⟨hh1, hh2⟩ := hh
        subst hh1
        subst hh2
        rw [hds]
        simp
    · intro t ht
      rcases List.mem_cons.mp ht with rfl | ht2
      · rfl
      · exact hall t ht2

theorem kind_eq_newline_of_isNewline (k : TokenKind) (h : k.isNewline = true) :
    k = TokenKind.Newline := by
  cases k <;> first | rfl | exact Bool.noConfusion h

theorem lex_epilogue_shape (fid : FileId) (st : LexState) (tokens : List Token) :
    ∃ pre nl ds eof,
      (lex_epilogue fid st tokens).1 = pre ++ [nl] ++ ds ++ [eof] ∧
      nl.kind = TokenKind.Newline ∧ (∀ t ∈ ds, t.kind = TokenKind.Dedent) ∧
      eof.kind = TokenKind.Eof := by
  simp only [lex_epilogue]
  cases hg : tokens.getLast? with
  | none =>
    simp only [hg]
    obtain ⟨ds, hds, hall⟩ := emit_trailing_dedents_shape fid st
      (tokens ++ [Token.new .Newline (current_span fid st)])
    rw [hds]
    exact ⟨tokens, Token.new .Newline (current_span fid st), ds,
      Token.new .Eof (Span.single fid
        (Position.new
          (emit_trailing_dedents fid st
            (tokens ++ [Token.new .Newline (current_span fid st)])).2.line
          (emit_trailing_dedents fid st
            (tokens ++ [Token.new .Newline (current_span fid st)])).2.column)),
      by simp, rfl, hall, rfl⟩
  | some t =>
    simp only [hg]
    by_cases hn : t.kind.isNewline = true
    · rw [if_pos hn]
      obtain ⟨pre, rfl⟩ := List.getLast?_eq_some_iff.mp hg
      obtain ⟨ds, hds, hall⟩ := emit_trailing_dedents_shape fid st (pre ++ [t])
      rw [hds]
      exact ⟨pre, t, ds,
        Token.new .Eof (Span.single fid
          (Position.new (emit_trailing_dedents fid st (pre ++ [t])).2.line
            (emit_trailing_dedents fid st (pre ++ [t])).2.column)),
        by simp, kind_eq_newline_of_isNewline t.kind hn, hall, rfl⟩
    · rw [if_neg hn]
      obtain ⟨ds, hds, hall⟩ := emit_trailing_dedents_shape fid st
        (tokens ++ [Token.new .Newline (current_span fid st)])
      rw [hds]
      exact ⟨tokens, Token.new .Newline (current_span fid st), ds,
        Token.new .Eof (Span.single fid
          (Position.new
            (emit_trailing_dedents fid st
              (tokens ++ [Token.new .Newline (current_span fid st)])).2.line
            (emit_trailing_dedents fid st
              (tokens ++ [Token.new .Newline (current_span fid st)])).2.column)),
        by simp, rfl, hall, rfl⟩

end Lexer


/-! ## Concrete programs and states used to settle the claims -/

def fid0 : FileId := ⟨0⟩

def sp0 : Span := Span.single fid0 (Position.new 1 1)

/-- `def main() { true ? 1 : 2 }` as resolved HIR (no variables involved). -/
def C1prog : HirProgram :=
  ⟨[.funcDecl
      { name := "main", symbol := ⟨0⟩, params := [],
        body := .mk
          [.expr (.ternary (.boolean true sp0) (.integer 1 sp0)
            (.integer 2 sp0) sp0) sp0] sp0,
        symbol_table := .new, span := sp0 }], sp0⟩

/-- The same program with a falsy condition. -/
def C1progFalse : HirProgram :=
  ⟨[.funcDecl
      { name := "main", symbol := ⟨0⟩, params := [],
        body := .mk
          [.expr (.ternary (.boolean false sp0) (.integer 1 sp0)
            (.integer 2 sp0) sp0) sp0] sp0,
        symbol_table := .new, span := sp0 }], sp0⟩

/-- Emit a program and run its first chunk on a fresh frame. -/
def run_emitted (p : HirProgram) (fuel : Nat) :
    Option (Except RuntimeError (Option Value)) :=
  (emit p).bind fun chunks =>
    (chunks.get? 0).map fun ch =>
      VM.run fuel { frames := [Frame.new ch 0], globals := [], runtime := none,
                    output := [] }

/-- The chunk the emitter produces for `C1prog`: the JIF patch lands after the
JMP (correct), but the JMP offset `else_end - jmp_ip` overshoots the RET at
ip 5 by one, landing on the trailing null-return at ip 6. -/
def C1chunk : Chunk :=
  { name := "main",
    code := [⟨.LOADK, 1, 0, 0⟩, ⟨.JIF, 1, 2, 0⟩, ⟨.LOADK, 0, 1, 0⟩,
             ⟨.JMP, 0, 2, 0⟩, ⟨.LOADK, 0, 2, 0⟩, ⟨.RET, 0, 0, 0⟩,
             ⟨.LOADK, 2, 3, 0⟩, ⟨.RET, 2, 0, 0⟩],
    constants := [.bool true, .int 1, .int 2, .null],
    max_regs := 3, upvalue_count := 0, param_count := 0 }

/-- `C1progFalse` differs only in the boolean constant. -/
def C1chunkFalse : Chunk :=
  { C1chunk with constants := [.bool false, .int 1, .int 2, .null] }

theorem C1_emit_eval : emit C1prog = some [C1chunk] := by
  simp [emit, Emitter.emit_program, Emitter.emit_decls, Emitter.emit_function,
    Emitter.emit_block, Emitter.emit_block_stmts, Emitter.emit_stmt,
    Emitter.emit_expr, Emitter.emit_null_return, Emitter.add_constant,
    Emitter.emit_instruction, Emitter.get_ip, Emitter.patch_offset,
    Emitter.allocate_register, Emitter.reserve_register, Emitter.new,
    Chunk.add_constant, Chunk.new, Chunk.ip, constIndexOf, C1prog, C1chunk,
    sp0, fid0, Instruction.new, Instruction.new1, Instruction.new2,
    Instruction.set_offset, Option.bind, Int.emod]

theorem C1_emit_eval_false : emit C1progFalse = some [C1chunkFalse] := by
  simp [emit, Emitter.emit_program, Emitter.emit_decls, Emitter.emit_function,
    Emitter.emit_block, Emitter.emit_block_stmts, Emitter.emit_stmt,
    Emitter.emit_expr, Emitter.emit_null_return, Emitter.add_constant,
    Emitter.emit_instruction, Emitter.get_ip, Emitter.patch_offset,
    Emitter.allocate_register, Emitter.reserve_register, Emitter.new,
    Chunk.add_constant, Chunk.new, Chunk.ip, constIndexOf, C1progFalse,
    C1chunkFalse, C1chunk, sp0, fid0, Instruction.new, Instruction.new1,
    Instruction.new2, Instruction.set_offset, Option.bind, Int.emod]

/-- Claim C1.  The property is refuted on `C1prog`: the body is an expression
statement holding the ternary `true ? 1 : 2` over literal operands, the
condition is truthy, yet emitting and running the program yields `Null`
instead of the value of the then-operand `1` — the forward JMP patched with
`then_end/else_end - jump_ip` (instead of `target - jump_ip - 1`) skips the
tail RET and falls into the synthesized null-return.  The falsy side takes
the correctly patched JIF and does produce the else-operand `2`. -/
theorem claim_C1_ternary_emit_bug :
    run_emitted C1prog 20 = some (.ok (some .null)) ∧
    run_emitted C1progFalse 20 = some (.ok (some (.int 2))) ∧
    (Value.null ≠ Value.int 1) := by
  refine ⟨?_, ?_, by decide⟩
  · unfold run_emitted
    rw [C1_emit_eval]
    rfl
  · unfold run_emitted
    rw [C1_emit_eval_false]
    rfl

/-- A one-instruction function `RET r0` with `7` already in `r0`, sitting on
top of a caller frame whose code would load `99` and return it. -/
def C2chunkInner : Chunk := ⟨"g", [⟨.RET, 0, 0, 0⟩], [], 1, 0, 0⟩

def C2chunkCaller : Chunk :=
  ⟨"main", [⟨.LOADK, 0, 0, 0⟩, ⟨.RET, 0, 0, 0⟩], [.int 99], 1, 0, 0⟩

def C2state : VMState :=
  { frames :=
      [{ chunk := C2chunkInner, ip := 0, registers := [Value.int 7], base := 0 },
       { chunk := C2chunkCaller, ip := 0, registers := [Value.null], base := 0 }],
    globals := [], runtime := none, output := [] }

/-- Claim C2, counterexample.  Two frames are on the stack and the top frame
executes `RET 0`: `run` immediately yields the value `7` from the popped
frame as the run result — it does not continue in the caller frame (which
would have produced `99`). -/
theorem claim_C2_counterexample :
    C2state.frames.length = 2 ∧
    VM.run 5 C2state = .ok (some (.int 7)) ∧
    ((Except.ok (some (Value.int 7)) : Except RuntimeError (Option Value))
      ≠ .ok (some (.int 99))) :=
  ⟨rfl, rfl, fun h => by simpa using h⟩

/-- Claim C2, amended.  Executing `RET a` ends `run` with the value of
register `a` of the current frame unconditionally — the Rust arm is
`return self.return_value(value_reg)`, and `return_value` returns
`Ok(value)` in both the empty- and non-empty-remainder branches (the
return-value plumbing into the caller is an unimplemented TODO). -/
theorem claim_C2_ret_returns_unconditionally (fuel : Nat) (st : VMState)
    (frame : Frame) (rest : List Frame) (instr : Instruction)
    (hf : st.frames = frame :: rest)
    (hi : frame.chunk.code.get? frame.ip = some instr)
    (hop : instr.op = .RET) :
    VM.run (fuel + 1) st =
      match VM.return_value
          { st with frames := { frame with ip := frame.ip + 1 } :: rest }
          instr.a with
      | .error e => .error e
      | .ok value => .ok (some value) := by
  obtain ⟨op, ia, ib, ic⟩ := instr
  cases hop
  rw [VM.run, hf]
  simp only [hi]

theorem claim_C2_witness :
    VM.run 5 C2state = .ok (some (.int 7)) := by
  have h := claim_C2_ret_returns_unconditionally 4 C2state
    { chunk := C2chunkInner, ip := 0, registers := [Value.int 7], base := 0 }
    [{ chunk := C2chunkCaller, ip := 0, registers := [Value.null], base := 0 }]
    ⟨.RET, 0, 0, 0⟩ rfl rfl rfl
  rw [h]
  rfl

/-- `def main() { x := 1; while (true) { x := 2 } }` before resolution
(placeholder symbols `⟨999⟩`). -/
def C3prog : HirProgram :=
  ⟨[.funcDecl
      { name := "main", symbol := ⟨0⟩, params := [],
        body := .mk
          [.varDecl
             { name := "x", symbol := ⟨999⟩,
               initializer := some (.integer 1 sp0), span := sp0 },
           .whileStmt (.boolean true sp0)
             (.mk
               [.varDecl
                  { name := "x", symbol := ⟨999⟩,
                    initializer := some (.integer 2 sp0), span := sp0 }] sp0)
             sp0] sp0,
        symbol_table := .new, span := sp0 }], sp0⟩

/-- The symbol the resolver assigns to the outer `x := 1`. -/
def C3_outer : Option SymbolRef :=
  match resolve C3prog with
  | .ok p =>
    match p.declarations with
    | [.funcDecl f] =>
      match f.body with
      | .mk (.varDecl v :: _) _ => some v.symbol
      | _ => none
    | _ => none
  | .error _ => none

/-- The symbol the resolver assigns to the `x := 2` inside the loop body. -/
def C3_inner : Option SymbolRef :=
  match resolve C3prog with
  | .ok p =>
    match p.declarations with
    | [.funcDecl f] =>
      match f.body with
      | .mk [_, .whileStmt _ (.mk (.varDecl w :: _) _) _] _ => some w.symbol
      | _ => none
    | _ => none
  | .error _ => none

/-- Claim C3.  The property is refuted: a HIR var-decl for `x` inside a while
body, with `x` already declared in the enclosing function scope, does NOT
resolve to the outer `SymbolRef` — `declare_symbol` consults only the
innermost scope, finds no duplicate there, and mints the fresh `Local`
symbol `⟨1⟩`, while the outer declaration holds `⟨0⟩`.  (The repository's
own test `test_reassignment_in_loop_reuses_symbol` asserts the two are
equal.) -/
theorem claim_C3_loop_redecl_fresh_symbol :
    C3_outer = some ⟨0⟩ ∧ C3_inner = some ⟨1⟩ ∧
    (some (⟨0⟩ : SymbolRef) ≠ some (⟨1⟩ : SymbolRef)) :=
  ⟨rfl, rfl, by decide⟩

/-! ### Claim C4: `rt_concat{2,3,4,5}` -/

/-- `utf8ByteSize` through the underlying character list. -/
theorem utf8ByteSize_eq_go (s : String) :
    s.utf8ByteSize = String.utf8ByteSize.go s.data := by
  cases s; rfl

/-- The byte-size fold distributes over list append. -/
theorem utf8ByteSize_go_append (a b : List Char) :
    String.utf8ByteSize.go (a ++ b) =
      String.utf8ByteSize.go a + String.utf8ByteSize.go b := by
  induction a with
  | nil => simp [String.utf8ByteSize.go]
  | cons c cs ih =>
    simp only [List.cons_append, String.utf8ByteSize.go, List.append_eq, ih]
    omega

/-- Byte length of a string concatenation is the sum of the byte lengths. -/
theorem utf8ByteSize_append (a b : String) :
    (a ++ b).utf8ByteSize = a.utf8ByteSize + b.utf8ByteSize := by
  rw [utf8ByteSize_eq_go, utf8ByteSize_eq_go, utf8ByteSize_eq_go,
    String.data_append, utf8ByteSize_go_append]

/-- Byte length of the concatenation fold from an arbitrary accumulator. -/
theorem concat_loop_go_byteSize (vs : List Value) (acc : String) :
    (vs.foldl
        (fun result arg =>
          match arg with
          | .str s => result ++ s
          | v => result ++ v.to_string) acc).utf8ByteSize
      = acc.utf8ByteSize + (vs.map fun v => v.to_string.utf8ByteSize).sum := by
  induction vs generalizing acc with
  | nil => simp
  | cons v vs ih =>
    rw [List.foldl_cons, ih]
    cases v <;>
      simp [List.map_cons, List.sum_cons, utf8ByteSize_append,
        Value.to_string] <;>
      omega

/-- Byte length of `concat_loop` is the sum of the display byte lengths. -/
theorem concat_loop_byteSize (vs : List Value) :
    (Builtins.concat_loop vs).utf8ByteSize
      = (vs.map fun v => v.to_string.utf8ByteSize).sum := by
  have h := concat_loop_go_byteSize vs ""
  rw [show ("" : String).utf8ByteSize = 0 from rfl, Nat.zero_add] at h
  exact h

/-- Claim C4, counterexample to the frozen wording: on a 3-element argument
list, `rt_concat2` concatenates only the first two operands — the third
(display form `"c"`) is dropped, so the result is `"ab"`, not the
concatenation of all supplied operands. -/
theorem claim_C4_counterexample :
    Builtins.rt_concat2 [Value.str "a", Value.str "b", Value.str "c"]
      = .ok (.str "ab") ∧
    Value.to_string (Value.str "c") = "c" ∧
    ("ab" : String) ≠ "abc" :=
  ⟨rfl, rfl, by decide⟩

/-- Claim C4, amended.  `rt_concatN` errors on fewer than `N` arguments and
otherwise concatenates the display forms of the FIRST `N` operands only
(`args.iter().take(n)`; `rt_concat2` destructures the first two); the byte
length of the fold equals the sum of the display-form byte lengths of the
operands it consumed. -/
theorem claim_C4_concat_first_n (args : List Value) :
    (args.length < 2 →
      Builtins.rt_concat2 args = .error (.CallError "rt_concat2 requires 2 arguments")) ∧
    (args.length < 3 →
      Builtins.rt_concat3 args = .error (.CallError "rt_concat3 requires 3 arguments")) ∧
    (args.length < 4 →
      Builtins.rt_concat4 args = .error (.CallError "rt_concat4 requires 4 arguments")) ∧
    (args.length < 5 →
      Builtins.rt_concat5 args = .error (.CallError "rt_concat5 requires 5 arguments")) ∧
    (2 ≤ args.length →
      Builtins.rt_concat2 args = .ok (.str (Builtins.concat_loop (args.take 2)))) ∧
    (3 ≤ args.length →
      Builtins.rt_concat3 args = .ok (.str (Builtins.concat_loop (args.take 3)))) ∧
    (4 ≤ args.length →
      Builtins.rt_concat4 args = .ok (.str (Builtins.concat_loop (args.take 4)))) ∧
    (5 ≤ args.length →
      Builtins.rt_concat5 args = .ok (.str (Builtins.concat_loop (args.take 5)))) ∧
    ∀ n, (Builtins.concat_loop (args.take n)).utf8ByteSize
      = ((args.take n).map fun v => v.to_string.utf8ByteSize).sum := by
  refine ⟨?_, ?_, ?_, ?_, ?_, ?_, ?_, ?_, fun n => concat_loop_byteSize _⟩
  · intro h
    rcases args with _ | ⟨a, _ | ⟨b, rest⟩⟩
    · rfl
    · rfl
    · exact absurd h (by simp)
  · intro h
    rw [Builtins.rt_concat3, if_pos h]
  · intro h
    rw [Builtins.rt_concat4, if_pos h]
  · intro h
    rw [Builtins.rt_concat5, if_pos h]
  · intro h
    rcases args with _ | ⟨a, _ | ⟨b, rest⟩⟩
    · exact absurd h (by simp)
    · exact absurd h (by simp)
    · cases a <;> cases b <;>
        simp [Builtins.rt_concat2, Builtins.concat_loop, Value.to_string]
  · intro h
    rw [Builtins.rt_concat3, if_neg (Nat.not_lt.mpr h)]
  · intro h
    rw [Builtins.rt_concat4, if_neg (Nat.not_lt.mpr h)]
  · intro h
    rw [Builtins.rt_concat5, if_neg (Nat.not_lt.mpr h)]

/-! ### Claim C5: division by zero -/

/-- Numeric (Int or Double) tag. -/
def Value.isNumeric : Value → Bool
  | .int _ => true
  | .double _ => true
  | _ => false

/-- Zero test of a numeric operand. -/
def Value.isZeroNum : Value → Bool
  | .int a => a == 0
  | .double d => d == 0
  | _ => false

/-- Int tag. -/
def Value.isInt : Value → Bool
  | .int _ => true
  | _ => false

/-- Double tag. -/
def Value.isDouble : Value → Bool
  | .double _ => true
  | _ => false

/-- Claim C5.  On numeric operands (any mix of Int and Double), DIVF, DIVI
and MOD raise `DivisionByZero` exactly when the divisor is zero, and succeed
otherwise. -/
theorem claim_C5_division_by_zero (a b : Value)
    (ha : a.isNumeric = true) (hb : b.isNumeric = true) :
    (VM.divf_value a b = .error .DivisionByZero ↔ b.isZeroNum = true) ∧
    (VM.divi_value a b = .error .DivisionByZero ↔ b.isZeroNum = true) ∧
    (VM.mod_value a b = .error .DivisionByZero ↔ b.isZeroNum = true) ∧
    (b.isZeroNum = false →
      (∃ v, VM.divf_value a b = .ok v) ∧ (∃ v, VM.divi_value a b = .ok v) ∧
      (∃ v, VM.mod_value a b = .ok v)) := by
  cases a <;> cases b <;>
    simp_all [Value.isNumeric, Value.isZeroNum, VM.divf_value, VM.divi_value,
      VM.mod_value, beq_iff_eq] <;>
    split_ifs <;> simp_all

/-- Instantiation of C5 at `1 / 0` over Ints. -/
theorem claim_C5_witness :
    VM.divf_value (Value.int 1) (Value.int 0) = .error .DivisionByZero :=
  (claim_C5_division_by_zero (Value.int 1) (Value.int 0) rfl rfl).1.mpr rfl

/-! ### Claim C6: arithmetic result types -/

/-- Claim C6, counterexample to the frozen wording: ADD on a Double and a Str
succeeds with a Str (the string-concatenation arms of `add_value` accept any
value alongside a Str), so a Double operand does not force a Double result
for ADD. -/
theorem claim_C6_counterexample :
    VM.add_value (Value.double 1) (Value.str "x")
      = .ok (.str (F64.display 1 ++ "x")) ∧
    Value.isDouble (.str (F64.display 1 ++ "x")) = false :=
  ⟨rfl, rfl⟩

/-- Claim C6, amended.  Int⊕Int closure holds for ADD/SUB/MUL/MOD; the
Double-promotion rule holds for SUB/MUL/MOD on any operands and for ADD only
when both operands are numeric (a Str operand turns ADD into string
concatenation); DIVF and POW always yield a Double on success and DIVI always
yields an Int on success. -/
theorem claim_C6_result_types (a b : Value) :
    (a.isInt = true → b.isInt = true →
      (∀ v, VM.add_value a b = .ok v → v.isInt = true) ∧
      (∀ v, VM.sub_value a b = .ok v → v.isInt = true) ∧
      (∀ v, VM.mul_value a b = .ok v → v.isInt = true) ∧
      (∀ v, VM.mod_value a b = .ok v → v.isInt = true)) ∧
    (a.isNumeric = true → b.isNumeric = true →
      (a.isDouble = true ∨ b.isDouble = true) →
      (∀ v, VM.add_value a b = .ok v → v.isDouble = true) ∧
      (∀ v, VM.sub_value a b = .ok v → v.isDouble = true) ∧
      (∀ v, VM.mul_value a b = .ok v → v.isDouble = true) ∧
      (∀ v, VM.mod_value a b = .ok v → v.isDouble = true)) ∧
    (∀ v, VM.divf_value a b = .ok v → v.isDouble = true) ∧
    (∀ v, VM.divi_value a b = .ok v → v.isInt = true) ∧
    (∀ v, VM.pow_value a b = .ok v → v.isDouble = true) := by
  cases a <;> cases b <;>
    simp [Value.isInt, Value.isDouble, Value.isNumeric, VM.add_value,
      VM.sub_value, VM.mul_value, VM.mod_value, VM.divf_value, VM.divi_value,
      VM.pow_value] <;>
    split_ifs <;> simp_all [Value.isInt, Value.isDouble]

/-! ### Claim C8: constant-pool deduplication -/

/-- A fresh constant appended to the pool is found at the old length. -/
theorem constIndexOf_append_of_none (pool : List Constant) (c : Constant)
    (h : constIndexOf pool c = none) :
    constIndexOf (pool ++ [c]) c = some pool.length := by
  induction pool with
  | nil => simp [constIndexOf]
  | cons x rest ih =>
    by_cases hx : x = c
    · simp only [constIndexOf, if_pos hx] at h
      exact absurd h (by simp)
    · simp only [List.cons_append, List.append_eq, constIndexOf, if_neg hx]
        at h ⊢
      cases hr : constIndexOf rest c with
      | some j => rw [hr] at h; simp at h
      | none => rw [ih hr]; simp

/-- `constIndexOf` finds an index inside the pool. -/
theorem constIndexOf_lt_length (pool : List Constant) (c : Constant) :
    ∀ idx, constIndexOf pool c = some idx → idx < pool.length := by
  induction pool with
  | nil => simp [constIndexOf]
  | cons x rest ih =>
    intro idx h
    by_cases hx : x = c
    · simp only [constIndexOf, if_pos hx] at h
      simp at h
      simp
      omega
    · simp only [constIndexOf, if_neg hx] at h
      cases hr : constIndexOf rest c with
      | none => rw [hr] at h; simp at h
      | some j =>
        rw [hr] at h
        simp at h
        have hj := ih j hr
        simp
        omega

/-- `add_constant` when the constant is already pooled. -/
theorem add_constant_eq_found (ch : Chunk) (c : Constant) (idx : Nat)
    (h : constIndexOf ch.constants c = some idx) :
    ch.add_constant c = some (idx % 256, ch) := by
  rw [Chunk.add_constant, h]

/-- `add_constant` when the constant is fresh and the pool is under the cap. -/
theorem add_constant_eq_fresh (ch : Chunk) (c : Constant)
    (h : constIndexOf ch.constants c = none)
    (hlen : ¬ ch.constants.length > 255) :
    ch.add_constant c
      = some (ch.constants.length % 256,
          { ch with constants := ch.constants ++ [c] }) := by
  rw [Chunk.add_constant, h]
  simp [hlen]

/-- `add_constant` when the constant is fresh and the pool is full (the Rust
panic). -/
theorem add_constant_eq_full (ch : Chunk) (c : Constant)
    (h : constIndexOf ch.constants c = none)
    (hlen : ch.constants.length > 255) :
    ch.add_constant c = none := by
  rw [Chunk.add_constant, h]
  simp [hlen]

/-- Claim C8.  `add_constant` deduplicates by structural equality: a repeated
insertion returns the very same index-and-chunk pair (the pool does not
grow); the returned index is the first structurally-equal entry's position
(`as u8`); and a pool within the 256-entry cap stays within it. -/
theorem claim_C8_constant_pool_dedup (ch : Chunk) (c : Constant) :
    (∀ i ch1, ch.add_constant c = some (i, ch1) →
      ch1.add_constant c = some (i, ch1)) ∧
    (∀ idx, constIndexOf ch.constants c = some idx →
      ch.add_constant c = some (idx % 256, ch)) ∧
    (ch.constants.length ≤ 256 →
      ∀ i ch1, ch.add_constant c = some (i, ch1) →
        ch1.constants.length ≤ 256) := by
  refine ⟨?_, fun idx h => add_constant_eq_found ch c idx h, ?_⟩
  · intro i ch1 h
    cases hfind : constIndexOf ch.constants c with
    | some idx =>
      rw [add_constant_eq_found ch c idx hfind] at h
      have hp := Option.some.inj h
      rw [Prod.mk.injEq] at hp
      obtain ⟨rfl, rfl⟩ := hp
      exact add_constant_eq_found ch c idx hfind
    | none =>
      by_cases hlen : ch.constants.length > 255
      · rw [add_constant_eq_full ch c hfind hlen] at h
        exact absurd h (by simp)
      · rw [add_constant_eq_fresh ch c hfind hlen] at h
        have hp := Option.some.inj h
        rw [Prod.mk.injEq] at hp
        obtain ⟨rfl, rfl⟩ := hp
        have hf2 : constIndexOf (ch.constants ++ [c]) c
            = some ch.constants.length :=
          constIndexOf_append_of_none ch.constants c hfind
        have h2 := add_constant_eq_found
          { ch with constants := ch.constants ++ [c] } c ch.constants.length
          (by simpa using hf2)
        simpa using h2
  · intro hcap i ch1 h
    cases hfind : constIndexOf ch.constants c with
    | some idx =>
      rw [add_constant_eq_found ch c idx hfind] at h
      have hp := Option.some.inj h
      rw [Prod.mk.injEq] at hp
      obtain ⟨rfl, rfl⟩ := hp
      exact hcap
    | none =>
      by_cases hlen : ch.constants.length > 255
      · rw [add_constant_eq_full ch c hfind hlen] at h
        exact absurd h (by simp)
      · rw [add_constant_eq_fresh ch c hfind hlen] at h
        have hp := Option.some.inj h
        rw [Prod.mk.injEq] at hp
        obtain ⟨rfl, rfl⟩ := hp
        simp
        omega

/-- Instantiation of C8: inserting `Int 5` twice into an empty chunk yields
index 0 both times and a one-entry pool. -/
theorem claim_C8_witness :
    ((Chunk.new "f").add_constant (.int 5)).bind
        (fun p => p.2.add_constant (.int 5))
      = some (0, { Chunk.new "f" with constants := [.int 5] }) := by
  have h := (claim_C8_constant_pool_dedup (Chunk.new "f") (.int 5)).1 0
    { Chunk.new "f" with constants := [.int 5] } rfl
  rw [show (Chunk.new "f").add_constant (.int 5)
      = some (0, { Chunk.new "f" with constants := [.int 5] }) from rfl]
  simpa using h

/-! ### Claim C9: DuplicateSymbol spans -/

/-- Span of the first declaration of `x` (line 2). -/
def C9sp1 : Span := Span.single fid0 (Position.new 2 3)

/-- Span of the second, duplicate declaration of `x` (line 3). -/
def C9sp2 : Span := Span.single fid0 (Position.new 3 3)

/-- `def main() { x := 1 (at C9sp1); x := 2 (at C9sp2) }`. -/
def C9prog : HirProgram :=
  ⟨[.funcDecl
      { name := "main", symbol := ⟨0⟩, params := [],
        body := .mk
          [.varDecl
             { name := "x", symbol := ⟨999⟩,
               initializer := some (.integer 1 C9sp1), span := C9sp1 },
           .varDecl
             { name := "x", symbol := ⟨999⟩,
               initializer := some (.integer 2 C9sp2), span := C9sp2 }] sp0,
        symbol_table := .new, span := sp0 }], sp0⟩

/-- Claim C9.  The property is refuted: on a same-scope redeclaration the
resolver emits `DuplicateSymbol` with `original_span` set to the SECOND
(duplicate) declaration's span, not the first declaration's — the source
carries `original_span: span // TODO: Get actual original span` — so both
recorded spans are the duplicate's. -/
theorem claim_C9_duplicate_symbol_spans :
    resolve C9prog = .error [.DuplicateSymbol "x" C9sp2 C9sp2] ∧
    (C9sp2 ≠ C9sp1) :=
  ⟨rfl, by decide⟩

/-! ### Claim C10: program-wide local counter vs per-function params -/

/-- `def f(a) { x := 1 }` before resolution. -/
def C10prog : HirProgram :=
  ⟨[.funcDecl
      { name := "f", symbol := ⟨0⟩,
        params := [{ name := "a", symbol := ⟨999⟩, span := sp0 }],
        body := .mk
          [.varDecl
             { name := "x", symbol := ⟨999⟩,
               initializer := some (.integer 1 sp0), span := sp0 }] sp0,
        symbol_table := .new, span := sp0 }], sp0⟩

/-- The symbol the resolver assigns to the parameter `a`. -/
def C10_param : Option SymbolRef :=
  match resolve C10prog with
  | .ok p =>
    match p.declarations with
    | [.funcDecl f] =>
      match f.params with
      | [a] => some a.symbol
      | _ => none
    | _ => none
  | .error _ => none

/-- The symbol the resolver assigns to the first local `x` of `f`'s body. -/
def C10_local : Option SymbolRef :=
  match resolve C10prog with
  | .ok p =>
    match p.declarations with
    | [.funcDecl f] =>
      match f.body with
      | .mk (.varDecl v :: _) _ => some v.symbol
      | _ => none
    | _ => none
  | .error _ => none

/-- An empty scope reports no binding. -/
theorem Scope.lookup_new (name : String) : Scope.new.lookup name = none := rfl

/-- `declare_symbol` never decreases the program-wide `local_count`. -/
theorem declare_symbol_count_le (r : Resolver) (name : String)
    (kind : SymbolKind) (span : Span) :
    r.local_count ≤ ((Resolver.declare_symbol r name kind span).2).local_count := by
  unfold Resolver.declare_symbol
  cases hs : r.scopes with
  | nil => exact Nat.le_refl _
  | cons scope rest =>
    try dsimp only
    split_ifs with hdup
    · exact Nat.le_refl _
    · cases kind <;> dsimp only <;> omega

/-- `declare_symbol` with a `Param` kind leaves the counter unchanged. -/
theorem declare_symbol_param_count (r : Resolver) (name : String) (idx : Nat)
    (span : Span) :
    ((Resolver.declare_symbol r name (.Param idx) span).2).local_count
      = r.local_count := by
  unfold Resolver.declare_symbol
  cases hs : r.scopes with
  | nil => rfl
  | cons scope rest =>
    try dsimp only
    split_ifs with hdup <;> rfl

/-- Fresh-scope `declare_symbol`: the innermost scope is empty, so the
duplicate check misses; a `Local` takes the current program-wide counter, a
`Param` its per-function index. -/
theorem declare_symbol_fresh (r : Resolver) (name : String) (span : Span)
    (rest : List Scope) (h : r.scopes = Scope.new :: rest) :
    (∀ m, (Resolver.declare_symbol r name (.Local m) span).1
      = some ⟨r.local_count⟩) ∧
    (∀ idx, (Resolver.declare_symbol r name (.Param idx) span).1
      = some ⟨idx⟩) := by
  constructor
  · intro m
    unfold Resolver.declare_symbol
    rw [h]
    simp [Scope.lookup_new]
  · intro idx
    unfold Resolver.declare_symbol
    rw [h]
    simp [Scope.lookup_new]

/-- `resolve_variable` never touches the counter. -/
theorem resolve_variable_count (r : Resolver) (name : String) (span : Span) :
    ((Resolver.resolve_variable r name span).2).local_count = r.local_count := by
  unfold Resolver.resolve_variable
  cases hf : Resolver.find_in_scopes r.scopes name with
  | some s => rfl
  | none =>
    try dsimp only
    split_ifs <;> rfl

/-- Lambda parameter declaration leaves the counter unchanged. -/
theorem resolve_lambda_params_count (ps : List HirParam) :
    ∀ (r : Resolver) (idx : Nat),
    ((Resolver.resolve_lambda_params r ps idx).2).local_count = r.local_count := by
  induction ps with
  | nil => intro r idx; rfl
  | cons p rest ih =>
    intro r idx
    unfold Resolver.resolve_lambda_params
    rcases hd : Resolver.declare_symbol r p.name (.Param idx) p.span with ⟨sym?, r1⟩
    rcases hr : Resolver.resolve_lambda_params r1 rest (idx + 1) with ⟨rest2, r2⟩
    have a1 := declare_symbol_param_count r p.name idx p.span
    rw [hd] at a1
    try dsimp only at a1
    have a2 := ih r1 (idx + 1)
    rw [hr] at a2
    try dsimp only at a2
    simp only [hd, hr]
    try dsimp only
    omega

/-- Function parameter declaration leaves the counter unchanged: entering a
function does not reset (or otherwise change) the program-wide counter. -/
theorem resolve_func_params_count (ps : List HirParam) :
    ∀ (r : Resolver) (table : SymbolTable) (idx : Nat),
    (((Resolver.resolve_func_params r ps table idx).2).2).local_count
      = r.local_count := by
  induction ps with
  | nil => intro r table idx; rfl
  | cons p rest ih =>
    intro r table idx
    unfold Resolver.resolve_func_params
    rcases hd : Resolver.declare_symbol r p.name (.Param idx) p.span with ⟨sym?, r1⟩
    have a1 := declare_symbol_param_count r p.name idx p.span
    rw [hd] at a1
    try dsimp only at a1
    cases sym? with
    | some s =>
      rcases hr : Resolver.resolve_func_params r1 rest
          ((table.add_symbol p.name (.Param idx) p.span).2) (idx + 1)
        with ⟨rest2, table2, r2⟩
      have a2 := ih r1 ((table.add_symbol p.name (.Param idx) p.span).2) (idx + 1)
      rw [hr] at a2
      dsimp only at a2
      simp only [hd, hr]
      try dsimp only
      omega
    | none =>
      rcases hr : Resolver.resolve_func_params r1 rest table (idx + 1)
        with ⟨rest2, table2, r2⟩
      have a2 := ih r1 table (idx + 1)
      rw [hr] at a2
      dsimp only at a2
      simp only [hd, hr]
      try dsimp only
      omega

/-- The fueled resolver core never decreases the program-wide counter: no
statement, expression or block resolution resets it. -/
theorem resolve_count_mono (fuel : Nat) :
    (∀ (r : Resolver) (e : HirExpr),
      r.local_count ≤ ((Resolver.resolve_expr fuel r e).2).local_count) ∧
    (∀ (r : Resolver) (es : List HirExpr),
      r.local_count ≤ ((Resolver.resolve_expr_list fuel r es).2).local_count) ∧
    (∀ (r : Resolver) (s : HirStmt),
      r.local_count ≤ ((Resolver.resolve_stmt fuel r s).2).local_count) ∧
    (∀ (r : Resolver) (ss : List HirStmt),
      r.local_count ≤ ((Resolver.resolve_stmt_list fuel r ss).2).local_count) ∧
    (∀ (r : Resolver) (b : HirBlock),
      r.local_count ≤ ((Resolver.resolve_block fuel r b).2).local_count) := by
  induction fuel with
  | zero =>
    refine ⟨?_, ?_, ?_, ?_, ?_⟩ <;> intro r x <;> exact Nat.le_refl _
  | succ fuel ih =>
    obtain ⟨ihe, ihel, ihs, ihsl, ihb⟩ := ih
    refine ⟨?_, ?_, ?_, ?_, ?_⟩
    · intro r e
      cases e with
      | var name symbol sp =>
        rcases hv : Resolver.resolve_variable r name sp with ⟨sym?, r1⟩
        have a1 := resolve_variable_count r name sp
        rw [hv] at a1
        dsimp only at a1
        cases sym? <;> simp only [Resolver.resolve_expr, hv] <;> (try dsimp only) <;> omega
      | memberAccess o mem sp =>
        rcases h1 : Resolver.resolve_expr fuel r o with ⟨o2, r1⟩
        have a1 := ihe r o; rw [h1] at a1; try dsimp only at a1
        simp only [Resolver.resolve_expr, h1]
        try dsimp only
        omega
      | index o i sp =>
        rcases h1 : Resolver.resolve_expr fuel r o with ⟨o2, r1⟩
        rcases h2 : Resolver.resolve_expr fuel r1 i with ⟨i2, r2⟩
        have a1 := ihe r o; rw [h1] at a1; try dsimp only at a1
        have a2 := ihe r1 i; rw [h2] at a2; try dsimp only at a2
        simp only [Resolver.resolve_expr, h1, h2]
        try dsimp only
        omega
      | binaryOp l op rgt sp =>
        rcases h1 : Resolver.resolve_expr fuel r l with ⟨l2, r1⟩
        rcases h2 : Resolver.resolve_expr fuel r1 rgt with ⟨r2e, r2⟩
        have a1 := ihe r l; rw [h1] at a1; try dsimp only at a1
        have a2 := ihe r1 rgt; rw [h2] at a2; try dsimp only at a2
        simp only [Resolver.resolve_expr, h1, h2]
        try dsimp only
        omega
      | unaryOp op e0 sp =>
        rcases h1 : Resolver.resolve_expr fuel r e0 with ⟨e2, r1⟩
        have a1 := ihe r e0; rw [h1] at a1; try dsimp only at a1
        simp only [Resolver.resolve_expr, h1]
        try dsimp only
        omega
      | assign tgt val sp =>
        rcases h1 : Resolver.resolve_expr fuel r tgt with ⟨t2, r1⟩
        rcases h2 : Resolver.resolve_expr fuel r1 val with ⟨v2, r2⟩
        have a1 := ihe r tgt; rw [h1] at a1; try dsimp only at a1
        have a2 := ihe r1 val; rw [h2] at a2; try dsimp only at a2
        simp only [Resolver.resolve_expr, h1, h2]
        try dsimp only
        omega
      | call c args sp =>
        rcases h1 : Resolver.resolve_expr fuel r c with ⟨c2, r1⟩
        rcases h2 : Resolver.resolve_expr_list fuel r1 args with ⟨args2, r2⟩
        have a1 := ihe r c; rw [h1] at a1; try dsimp only at a1
        have a2 := ihel r1 args; rw [h2] at a2; try dsimp only at a2
        simp only [Resolver.resolve_expr, h1, h2]
        try dsimp only
        omega
      | methodCall o mth args sp =>
        rcases h1 : Resolver.resolve_expr fuel r o with ⟨o2, r1⟩
        rcases h2 : Resolver.resolve_expr_list fuel r1 args with ⟨args2, r2⟩
        have a1 := ihe r o; rw [h1] at a1; try dsimp only at a1
        have a2 := ihel r1 args; rw [h2] at a2; try dsimp only at a2
        simp only [Resolver.resolve_expr, h1, h2]
        try dsimp only
        omega
      | cast e0 sp =>
        rcases h1 : Resolver.resolve_expr fuel r e0 with ⟨e2, r1⟩
        have a1 := ihe r e0; rw [h1] at a1; try dsimp only at a1
        simp only [Resolver.resolve_expr, h1]
        try dsimp only
        omega
      | interpolation parts sp => simp [Resolver.resolve_expr]
      | ternary c t e0 sp =>
        rcases h1 : Resolver.resolve_expr fuel r c with ⟨c2, r1⟩
        rcases h2 : Resolver.resolve_expr fuel r1 t with ⟨t2, r2⟩
        rcases h3 : Resolver.resolve_expr fuel r2 e0 with ⟨e2, r3⟩
        have a1 := ihe r c; rw [h1] at a1; try dsimp only at a1
        have a2 := ihe r1 t; rw [h2] at a2; try dsimp only at a2
        have a3 := ihe r2 e0; rw [h3] at a3; try dsimp only at a3
        simp only [Resolver.resolve_expr, h1, h2, h3]
        try dsimp only
        omega
      | lambda ps caps body sp =>
        rcases h1 : Resolver.resolve_lambda_params r.begin_scope ps 0 with ⟨ps2, r1⟩
        rcases h2 : Resolver.resolve_expr fuel r1 body with ⟨body2, r2⟩
        have a1 := resolve_lambda_params_count ps r.begin_scope 0
        rw [h1] at a1; try dsimp only at a1
        simp only [Resolver.begin_scope] at a1
        have a2 := ihe r1 body; rw [h2] at a2; try dsimp only at a2
        simp only [Resolver.resolve_expr, h1, h2, Resolver.end_scope]
        try dsimp only
        omega
      | integer n sp => simp [Resolver.resolve_expr]
      | double d sp => simp [Resolver.resolve_expr]
      | character c sp => simp [Resolver.resolve_expr]
      | str s sp => simp [Resolver.resolve_expr]
      | boolean b sp => simp [Resolver.resolve_expr]
      | null sp => simp [Resolver.resolve_expr]
      | error sp => simp [Resolver.resolve_expr]
    · intro r es
      cases es with
      | nil => simp [Resolver.resolve_expr_list]
      | cons e rest =>
        rcases h1 : Resolver.resolve_expr fuel r e with ⟨e2, r1⟩
        rcases h2 : Resolver.resolve_expr_list fuel r1 rest with ⟨rest2, r2⟩
        have a1 := ihe r e; rw [h1] at a1; try dsimp only at a1
        have a2 := ihel r1 rest; rw [h2] at a2; try dsimp only at a2
        simp only [Resolver.resolve_expr_list, h1, h2]
        try dsimp only
        omega
    · intro r s
      cases s with
      | varDecl v =>
        rcases hd : Resolver.declare_symbol r v.name (.Local r.local_count) v.span
          with ⟨sym?, r1⟩
        have a1 := declare_symbol_count_le r v.name (.Local r.local_count) v.span
        rw [hd] at a1; try dsimp only at a1
        cases hi : v.initializer with
        | some init =>
          rcases he : Resolver.resolve_expr fuel r1 init with ⟨init2, r2⟩
          have a2 := ihe r1 init; rw [he] at a2; try dsimp only at a2
          cases sym? <;> simp [Resolver.resolve_stmt, hd, hi, he] <;> omega
        | none =>
          cases sym? <;> simp [Resolver.resolve_stmt, hd, hi] <;> omega
      | constDecl c =>
        rcases hd : Resolver.declare_symbol r c.name (.Local r.local_count) c.span
          with ⟨sym?, r1⟩
        have a1 := declare_symbol_count_le r c.name (.Local r.local_count) c.span
        rw [hd] at a1; try dsimp only at a1
        rcases he : Resolver.resolve_expr fuel r1 c.initializer with ⟨init2, r2⟩
        have a2 := ihe r1 c.initializer; rw [he] at a2; try dsimp only at a2
        cases sym? <;> simp [Resolver.resolve_stmt, hd, he] <;> omega
      | ifStmt cond tb eb sp =>
        rcases h1 : Resolver.resolve_expr fuel r cond with ⟨cond2, r1⟩
        rcases h2 : Resolver.resolve_block fuel r1 tb with ⟨tb2, r2⟩
        have a1 := ihe r cond; rw [h1] at a1; try dsimp only at a1
        have a2 := ihb r1 tb; rw [h2] at a2; try dsimp only at a2
        cases eb with
        | some eb0 =>
          rcases h3 : Resolver.resolve_block fuel r2 eb0 with ⟨eb2, r3⟩
          have a3 := ihb r2 eb0; rw [h3] at a3; try dsimp only at a3
          simp only [Resolver.resolve_stmt, h1, h2, h3]
          try dsimp only
          omega
        | none =>
          simp only [Resolver.resolve_stmt, h1, h2]
          try dsimp only
          omega
      | whileStmt cond body sp =>
        rcases h1 : Resolver.resolve_expr fuel r cond with ⟨cond2, r1⟩
        rcases h2 : Resolver.resolve_block fuel r1 body with ⟨body2, r2⟩
        have a1 := ihe r cond; rw [h1] at a1; try dsimp only at a1
        have a2 := ihb r1 body; rw [h2] at a2; try dsimp only at a2
        simp only [Resolver.resolve_stmt, h1, h2]
        try dsimp only
        omega
      | forStmt ini cond inc body sp =>
        cases ini with
        | some i0 =>
          rcases h0 : Resolver.resolve_stmt fuel r i0 with ⟨i02, r1⟩
          have a0 := ihs r i0; rw [h0] at a0; try dsimp only at a0
          cases cond with
          | some c0 =>
            rcases h1 : Resolver.resolve_expr fuel r1 c0 with ⟨c02, r2⟩
            have a1 := ihe r1 c0; rw [h1] at a1; try dsimp only at a1
            cases inc with
            | some n0 =>
              rcases h2 : Resolver.resolve_expr fuel r2 n0 with ⟨n02, r3⟩
              have a2 := ihe r2 n0; rw [h2] at a2; try dsimp only at a2
              rcases h3 : Resolver.resolve_block fuel r3 body with ⟨body2, r4⟩
              have a3 := ihb r3 body; rw [h3] at a3; try dsimp only at a3
              simp only [Resolver.resolve_stmt, h0, h1, h2, h3]
              try dsimp only
              omega
            | none =>
              rcases h3 : Resolver.resolve_block fuel r2 body with ⟨body2, r4⟩
              have a3 := ihb r2 body; rw [h3] at a3; try dsimp only at a3
              simp only [Resolver.resolve_stmt, h0, h1, h3]
              try dsimp only
              omega
          | none =>
            cases inc with
            | some n0 =>
              rcases h2 : Resolver.resolve_expr fuel r1 n0 with ⟨n02, r3⟩
              have a2 := ihe r1 n0; rw [h2] at a2; try dsimp only at a2
              rcases h3 : Resolver.resolve_block fuel r3 body with ⟨body2, r4⟩
              have a3 := ihb r3 body; rw [h3] at a3; try dsimp only at a3
              simp only [Resolver.resolve_stmt, h0, h2, h3]
              try dsimp only
              omega
            | none =>
              rcases h3 : Resolver.resolve_block fuel r1 body with ⟨body2, r4⟩
              have a3 := ihb r1 body; rw [h3] at a3; try dsimp only at a3
              simp only [Resolver.resolve_stmt, h0, h3]
              try dsimp only
              omega
        | none =>
          cases cond with
          | some c0 =>
            rcases h1 : Resolver.resolve_expr fuel r c0 with ⟨c02, r2⟩
            have a1 := ihe r c0; rw [h1] at a1; try dsimp only at a1
            cases inc with
            | some n0 =>
              rcases h2 : Resolver.resolve_expr fuel r2 n0 with ⟨n02, r3⟩
              have a2 := ihe r2 n0; rw [h2] at a2; try dsimp only at a2
              rcases h3 : Resolver.resolve_block fuel r3 body with ⟨body2, r4⟩
              have a3 := ihb r3 body; rw [h3] at a3; try dsimp only at a3
              simp only [Resolver.resolve_stmt, h1, h2, h3]
              try dsimp only
              omega
            | none =>
              rcases h3 : Resolver.resolve_block fuel r2 body with ⟨body2, r4⟩
              have a3 := ihb r2 body; rw [h3] at a3; try dsimp only at a3
              simp only [Resolver.resolve_stmt, h1, h3]
              try dsimp only
              omega
          | none =>
            cases inc with
            | some n0 =>
              rcases h2 : Resolver.resolve_expr fuel r n0 with ⟨n02, r3⟩
              have a2 := ihe r n0; rw [h2] at a2; try dsimp only at a2
              rcases h3 : Resolver.resolve_block fuel r3 body with ⟨body2, r4⟩
              have a3 := ihb r3 body; rw [h3] at a3; try dsimp only at a3
              simp only [Resolver.resolve_stmt, h2, h3]
              try dsimp only
              omega
            | none =>
              rcases h3 : Resolver.resolve_block fuel r body with ⟨body2, r4⟩
              have a3 := ihb r body; rw [h3] at a3; try dsimp only at a3
              simp only [Resolver.resolve_stmt, h3]
              try dsimp only
              omega
      | ret val sp =>
        cases val with
        | some v0 =>
          rcases h1 : Resolver.resolve_expr fuel r v0 with ⟨v2, r1⟩
          have a1 := ihe r v0; rw [h1] at a1; try dsimp only at a1
          simp only [Resolver.resolve_stmt, h1]
          try dsimp only
          omega
        | none => simp [Resolver.resolve_stmt]
      | breakStmt sp => simp [Resolver.resolve_stmt]
      | continueStmt sp => simp [Resolver.resolve_stmt]
      | expr e0 sp =>
        rcases h1 : Resolver.resolve_expr fuel r e0 with ⟨e2, r1⟩
        have a1 := ihe r e0; rw [h1] at a1; try dsimp only at a1
        simp only [Resolver.resolve_stmt, h1]
        try dsimp only
        omega
      | error sp => simp [Resolver.resolve_stmt]
    · intro r ss
      cases ss with
      | nil => simp [Resolver.resolve_stmt_list]
      | cons s rest =>
        rcases h1 : Resolver.resolve_stmt fuel r s with ⟨s2, r1⟩
        rcases h2 : Resolver.resolve_stmt_list fuel r1 rest with ⟨rest2, r2⟩
        have a1 := ihs r s; rw [h1] at a1; try dsimp only at a1
        have a2 := ihsl r1 rest; rw [h2] at a2; try dsimp only at a2
        simp only [Resolver.resolve_stmt_list, h1, h2]
        try dsimp only
        omega
    · intro r b
      cases b with
      | mk ss sp =>
        rcases h1 : Resolver.resolve_stmt_list fuel r.begin_scope ss with ⟨ss2, r1⟩
        have a1 := ihsl r.begin_scope ss; rw [h1] at a1; try dsimp only at a1
        simp only [Resolver.begin_scope] at a1
        simp only [Resolver.resolve_block, h1, Resolver.end_scope]
        try dsimp only
        omega

/-- `resolve_func_decl` never decreases the counter: function entry leaves
it untouched and the body only grows it. -/
theorem resolve_func_decl_count_le (r : Resolver) (f : HirFuncDecl) :
    r.local_count ≤ ((Resolver.resolve_func_decl r f).2).local_count := by
  unfold Resolver.resolve_func_decl
  rcases hp : Resolver.resolve_func_params r.begin_scope f.params f.symbol_table 0
    with ⟨ps2, table2, r2⟩
  rcases hb : Resolver.resolve_block f.body.size r2 f.body with ⟨body2, r3⟩
  have a1 := resolve_func_params_count f.params r.begin_scope f.symbol_table 0
  rw [hp] at a1; try dsimp only at a1
  simp only [Resolver.begin_scope] at a1
  have a2 := (resolve_count_mono f.body.size).2.2.2.2 r2 f.body
  rw [hb] at a2; try dsimp only at a2
  simp only [hp, hb, Resolver.end_scope]
  try dsimp only
  omega

/-- `resolve_decl` never decreases the counter. -/
theorem resolve_decl_count_le (r : Resolver) (d : HirDecl) :
    r.local_count ≤ ((Resolver.resolve_decl r d).2).local_count := by
  cases d with
  | varDecl v =>
    rcases hd : Resolver.declare_symbol r v.name (.Local r.local_count) v.span
      with ⟨sym?, r1⟩
    have a1 := declare_symbol_count_le r v.name (.Local r.local_count) v.span
    rw [hd] at a1; try dsimp only at a1
    cases hi : v.initializer with
    | some init =>
      rcases he : Resolver.resolve_expr init.size r1 init with ⟨init2, r2⟩
      have a2 := (resolve_count_mono init.size).1 r1 init
      rw [he] at a2; try dsimp only at a2
      cases sym? <;> simp [Resolver.resolve_decl, hd, hi, he] <;> omega
    | none =>
      cases sym? <;> simp [Resolver.resolve_decl, hd, hi] <;> omega
  | constDecl c =>
    rcases hd : Resolver.declare_symbol r c.name (.Local r.local_count) c.span
      with ⟨sym?, r1⟩
    have a1 := declare_symbol_count_le r c.name (.Local r.local_count) c.span
    rw [hd] at a1; try dsimp only at a1
    rcases he : Resolver.resolve_expr c.initializer.size r1 c.initializer
      with ⟨init2, r2⟩
    have a2 := (resolve_count_mono c.initializer.size).1 r1 c.initializer
    rw [he] at a2; try dsimp only at a2
    cases sym? <;> simp [Resolver.resolve_decl, hd, he] <;> omega
  | funcDecl f =>
    rcases hd : Resolver.declare_symbol r f.name (.Global f.name) f.span
      with ⟨sym?, r1⟩
    have a1 := declare_symbol_count_le r f.name (.Global f.name) f.span
    rw [hd] at a1; try dsimp only at a1
    cases sym? with
    | some s =>
      rcases hf : Resolver.resolve_func_decl r1 { f with symbol := s }
        with ⟨f2, r2⟩
      have a2 := resolve_func_decl_count_le r1 { f with symbol := s }
      rw [hf] at a2; try dsimp only at a2
      simp only [Resolver.resolve_decl, hd, hf]
      try dsimp only
      omega
    | none =>
      rcases hf : Resolver.resolve_func_decl r1 f with ⟨f2, r2⟩
      have a2 := resolve_func_decl_count_le r1 f
      rw [hf] at a2; try dsimp only at a2
      simp only [Resolver.resolve_decl, hd, hf]
      try dsimp only
      omega
  | error sp => simp [Resolver.resolve_decl]

/-- Declaration-list traversal never decreases the counter: the counter is
program-wide and only ever grows across the whole resolution. -/
theorem resolve_decl_list_count_le (ds : List HirDecl) :
    ∀ r : Resolver,
    r.local_count ≤ ((Resolver.resolve_decl_list r ds).2).local_count := by
  induction ds with
  | nil => intro r; exact Nat.le_refl _
  | cons d rest ih =>
    intro r
    rcases h1 : Resolver.resolve_decl r d with ⟨d2, r1⟩
    rcases h2 : Resolver.resolve_decl_list r1 rest with ⟨rest2, r2⟩
    have a1 := resolve_decl_count_le r d; rw [h1] at a1; try dsimp only at a1
    have a2 := ih r1; rw [h2] at a2; try dsimp only at a2
    simp only [Resolver.resolve_decl_list, h1, h2]
    try dsimp only
    omega

/-- Every statement has positive size. -/
theorem HirStmt.one_le_size (s : HirStmt) : 1 ≤ s.size := by
  rw [HirStmt.size.eq_def]
  cases s <;> (try dsimp only) <;> omega

/-- In any resolver state with no locals declared yet (`local_count = 0`),
the first local declared in a function's body receives `SymbolRef 0`: the
counter is not reset on entering the function, and the body's fresh block
scope cannot hold a duplicate. -/
theorem resolve_func_decl_first_local (r : Resolver) (f : HirFuncDecl)
    (v : HirVarDecl) (rest : List HirStmt) (sp : Span)
    (h0 : r.local_count = 0) (hb : f.body = .mk (.varDecl v :: rest) sp) :
    ∃ v2 rest2,
      (((Resolver.resolve_func_decl r f).1).body).statements
        = .varDecl v2 :: rest2 ∧ v2.symbol = ⟨0⟩ := by
  unfold Resolver.resolve_func_decl
  rcases hp : Resolver.resolve_func_params r.begin_scope f.params f.symbol_table 0
    with ⟨ps2, table2, r2⟩
  have hc2 : r2.local_count = 0 := by
    have a1 := resolve_func_params_count f.params r.begin_scope f.symbol_table 0
    rw [hp] at a1
    try dsimp only at a1
    simp only [Resolver.begin_scope] at a1
    omega
  rw [hb]
  simp only [hp]
  try dsimp only
  simp only [HirBlock.size, Resolver.resolve_block]
  simp only [HirStmt.sizeList, Resolver.resolve_stmt_list]
  obtain ⟨k, hk⟩ : ∃ k,
      HirStmt.size (.varDecl v) + HirStmt.sizeList rest = k + 1 :=
    ⟨HirStmt.size (.varDecl v) + HirStmt.sizeList rest - 1,
     by have := HirStmt.one_le_size (.varDecl v); omega⟩
  rw [hk]
  simp only [Resolver.resolve_stmt]
  rcases hd : Resolver.declare_symbol r2.begin_scope v.name
      (.Local (r2.begin_scope).local_count) v.span with ⟨sym?, r3⟩
  have hfresh := (declare_symbol_fresh r2.begin_scope v.name v.span r2.scopes
    (by simp [Resolver.begin_scope])).1 (r2.begin_scope).local_count
  rw [hd] at hfresh
  try dsimp only at hfresh
  have hvz : sym? = some ⟨0⟩ := by
    rw [hfresh]
    simp [Resolver.begin_scope, hc2]
  subst hvz
  simp only [hd]
  try dsimp only
  cases hi : v.initializer with
  | some init =>
    rcases he : Resolver.resolve_expr k r3 init with ⟨init2, r4⟩
    rcases hr : Resolver.resolve_stmt_list k r4 rest with ⟨rest3, r5⟩
    simp [hi, he, hr, HirBlock.statements]
  | none =>
    rcases hr : Resolver.resolve_stmt_list k r3 rest with ⟨rest3, r5⟩
    simp [hi, hr, HirBlock.statements]

/-- The first parameter of any function resolves to `SymbolRef 0`: parameters
are numbered from 0 per function, in the function's fresh scope. -/
theorem resolve_func_decl_first_param (r : Resolver) (f : HirFuncDecl)
    (p : HirParam) (ps : List HirParam) (hps : f.params = p :: ps) :
    ∃ p2 ps2, ((Resolver.resolve_func_decl r f).1).params = p2 :: ps2 ∧
      p2.symbol = ⟨0⟩ := by
  unfold Resolver.resolve_func_decl
  rw [hps]
  unfold Resolver.resolve_func_params
  rcases hd : Resolver.declare_symbol r.begin_scope p.name (.Param 0) p.span
    with ⟨sym?, r1⟩
  have hfresh := (declare_symbol_fresh r.begin_scope p.name p.span r.scopes
    (by simp [Resolver.begin_scope])).2 0
  rw [hd] at hfresh
  try dsimp only at hfresh
  subst hfresh
  simp only [hd]
  try dsimp only
  rcases hr : Resolver.resolve_func_params r1 ps
      ((f.symbol_table.add_symbol p.name (.Param 0) p.span).2) 1
    with ⟨rest2, table2, r2⟩
  rcases hblk : Resolver.resolve_block f.body.size r2 f.body with ⟨body2, r3⟩
  simp [hr, hblk]

/-- Claim C10.  The resolver draws `Local` indices from the one program-wide
`local_count`: entering a function (scope push, per-function parameter
numbering) leaves the counter unchanged, no resolver phase ever decreases
it, a `Local` declaration takes the current counter while a `Param` takes
its per-function index, and consequently in ANY resolver state with no
locals declared yet, a function's first body local and its first parameter
both resolve to `SymbolRef 0`; the emitter maps a `SymbolRef` to register
`idx % 256`, so the two share a register.  `C10prog` instantiates the
collision concretely. -/
theorem claim_C10_param_local_register_clash :
    (∀ (r : Resolver) (ps : List HirParam) (table : SymbolTable) (idx : Nat),
      (((Resolver.resolve_func_params r ps table idx).2).2).local_count
        = r.local_count) ∧
    (∀ r : Resolver, r.begin_scope.local_count = r.local_count) ∧
    (∀ r : Resolver, r.end_scope.local_count = r.local_count) ∧
    (∀ (fuel : Nat) (r : Resolver) (s : HirStmt),
      r.local_count ≤ ((Resolver.resolve_stmt fuel r s).2).local_count) ∧
    (∀ (r : Resolver) (ds : List HirDecl),
      r.local_count ≤ ((Resolver.resolve_decl_list r ds).2).local_count) ∧
    (∀ (r : Resolver) (name : String) (span : Span) (rest : List Scope),
      r.scopes = Scope.new :: rest →
      (∀ m, (Resolver.declare_symbol r name (.Local m) span).1
        = some ⟨r.local_count⟩) ∧
      (∀ idx, (Resolver.declare_symbol r name (.Param idx) span).1
        = some ⟨idx⟩)) ∧
    (∀ (r : Resolver) (f : HirFuncDecl) (v : HirVarDecl) (rest : List HirStmt)
      (sp : Span), r.local_count = 0 → f.body = .mk (.varDecl v :: rest) sp →
      ∃ v2 rest2, (((Resolver.resolve_func_decl r f).1).body).statements
        = .varDecl v2 :: rest2 ∧ v2.symbol = ⟨0⟩) ∧
    (∀ (r : Resolver) (f : HirFuncDecl) (p : HirParam) (ps : List HirParam),
      f.params = p :: ps →
      ∃ p2 ps2, ((Resolver.resolve_func_decl r f).1).params = p2 :: ps2 ∧
        p2.symbol = ⟨0⟩) ∧
    (∀ (e : Em) (s : SymbolRef),
      (Emitter.register_for_symbol e s).1 = s.idx % 256) ∧
    C10_param = some ⟨0⟩ ∧ C10_local = some ⟨0⟩ :=
  ⟨fun r ps table idx => resolve_func_params_count ps r table idx,
   fun _ => rfl, fun _ => rfl,
   fun fuel r s => (resolve_count_mono fuel).2.2.1 r s,
   fun r ds => resolve_decl_list_count_le ds r,
   fun r name span rest h => declare_symbol_fresh r name span rest h,
   fun r f v rest sp h0 hb => resolve_func_decl_first_local r f v rest sp h0 hb,
   fun r f p ps hps => resolve_func_decl_first_param r f p ps hps,
   fun _ _ => rfl,
   rfl, rfl⟩


/-! ### Claim C7: lexer termination and tail shape -/

/-- Claim C7.  `lex` is a total function of this embedding (the Rust main
loop's termination is witnessed by the well-founded recursion of
`lex_entry`/`lex_body`), and for every source text the returned token list
ends with a `Newline` token, zero or more `Dedent` tokens, and a single
final `Eof` token. -/
theorem claim_C7_lex_terminates_tail_shape (source : String) (fid : FileId) :
    ∃ pre nl ds eof,
      (Lexer.lex source fid).1 = pre ++ [nl] ++ ds ++ [eof] ∧
      nl.kind = TokenKind.Newline ∧ (∀ t ∈ ds, t.kind = TokenKind.Dedent) ∧
      eof.kind = TokenKind.Eof :=
  Lexer.lex_epilogue_shape fid
    (Lexer.lex_entry source.data fid Lexer.init []).2
    (Lexer.lex_entry source.data fid Lexer.init []).1

end Brief
